import Mathlib

/-!
# BlueRetro wired Sega engine (`main/wired/sega_io.c`)

A shallow embedding of the Saturn three-wire-handshake framer, of the
port/device resolver of `sega_io_init`, of the interrupt handler, of the
Genesis multitap framer and of the two polling tasks (`sega_genesis_task`,
`ea_genesis_task`), followed by the properties proved about them.

Conventions of the embedding:

* bytes and register words are natural numbers; a store into a `uint8_t`
  object is written with an explicit `% 256`;
* `buffer` (the static scratch array) is a map from index to byte, so that a
  store past its declared size `BUFFER_SIZE` stays visible;
* the values returned by successive reads of the input registers `GPIO.in`
  and `GPIO.in1.val` are given by an input trace, and the hardware state counts
  the reads performed;
* every store to an output register is applied to the register image and
  appended to a log of register writes;
* `sega_genesis_task`, whose control flow is made of labels and `goto`, is a
  step function on a state that carries the program point; its first wait,
  which has no timeout, takes one step per iteration.
-/

namespace SegaIo

/-! ## Constants -/

def SIO_TH : Nat := 0
def SIO_TR : Nat := 1
def SIO_TL : Nat := 2
def SIO_R : Nat := 3
def SIO_L : Nat := 4
def SIO_D : Nat := 5
def SIO_U : Nat := 6

def ID0_SATURN_THREEWIRE_HANDSHAKE : Nat := 0x11

def ID2_SATURN_PAD : Nat := 0x0
def ID2_SATURN_ANALOG_PAD : Nat := 0x1
def ID2_SATURN_KB : Nat := 0x3
def ID2_SATURN_MULTITAP : Nat := 0x4

def TWH_TIMEOUT : Nat := 4096

def MT_GEN_PORT_MAX : Nat := 4
def MT_PORT_MAX : Nat := 6

/-- Declared size of the static scratch array: `static uint8_t buffer[6*6]`. -/
def BUFFER_SIZE : Nat := 6 * 6

/-- The anonymous device-type enumeration of `sega_io.c`. -/
inductive DevType where
  | DEV_NONE
  | DEV_GENESIS_3BTNS
  | DEV_GENESIS_6BTNS
  | DEV_GENESIS_MULTITAP
  | DEV_GENESIS_MOUSE
  | DEV_SATURN_DIGITAL
  | DEV_SATURN_DIGITAL_TWH
  | DEV_SATURN_ANALOG
  | DEV_SATURN_MULTITAP
  | DEV_SATURN_KB
  | DEV_EA_MULTITAP
  deriving DecidableEq, Repr

open DevType

/-- The macro `BIT(n)`. -/
def BIT (n : Nat) : Nat := 1 <<< n

/-- The pin table `gpio_pin[2][7]`. -/
def gpio_pin (port sio : Nat) : Nat :=
  (([[35, 27, 26, 23, 18, 5, 3], [36, 16, 33, 25, 22, 21, 19]].getD port []).getD sio 0)

/-! ## Hardware state -/

/-- A store to one of the output registers: the write-one-to-set and
write-one-to-clear registers, or the output registers `GPIO.out` and
`GPIO.out1.val` themselves. -/
inductive RegWrite where
  | out_w1ts (v : Nat)
  | out_w1tc (v : Nat)
  | out1_w1ts (v : Nat)
  | out1_w1tc (v : Nat)
  | out (v : Nat)
  | out1 (v : Nat)
  deriving DecidableEq, Repr

/-- Values returned by the successive reads of the two input registers:
`in0 k` is what the `k`-th read of `GPIO.in` returns, `in1 k` what the `k`-th
read of `GPIO.in1.val` returns. -/
structure Trace where
  in0 : Nat → Nat
  in1 : Nat → Nat

/-- Output register images, read counters and the log of register writes. -/
structure Gpio where
  out : Nat
  out1 : Nat
  n_in : Nat
  n_in1 : Nat
  log : List RegWrite

/-- Word `x` with the bits of `v` cleared (effect of a write-one-to-clear). -/
def clear_bits (x v : Nat) : Nat := x ^^^ (x &&& v)

/-- Store `v` to `GPIO.out_w1ts`. -/
def Gpio.out_w1ts (s : Gpio) (v : Nat) : Gpio :=
  { s with out := s.out ||| v, log := s.log ++ [RegWrite.out_w1ts v] }

/-- Store `v` to `GPIO.out_w1tc`. -/
def Gpio.out_w1tc (s : Gpio) (v : Nat) : Gpio :=
  { s with out := clear_bits s.out v, log := s.log ++ [RegWrite.out_w1tc v] }

/-- Store `v` to `GPIO.out1_w1ts.val`. -/
def Gpio.out1_w1ts (s : Gpio) (v : Nat) : Gpio :=
  { s with out1 := s.out1 ||| v, log := s.log ++ [RegWrite.out1_w1ts v] }

/-- Store `v` to `GPIO.out1_w1tc.val`. -/
def Gpio.out1_w1tc (s : Gpio) (v : Nat) : Gpio :=
  { s with out1 := clear_bits s.out1 v, log := s.log ++ [RegWrite.out1_w1tc v] }

/-- Store `GPIO.out = v`. -/
def Gpio.set_out (s : Gpio) (v : Nat) : Gpio :=
  { s with out := v, log := s.log ++ [RegWrite.out v] }

/-- Store `GPIO.out1.val = v`. -/
def Gpio.set_out1 (s : Gpio) (v : Nat) : Gpio :=
  { s with out1 := v, log := s.log ++ [RegWrite.out1 v] }

/-- One read of `GPIO.in`. -/
def read_in (tr : Trace) (s : Gpio) : Nat × Gpio :=
  (tr.in0 s.n_in, { s with n_in := s.n_in + 1 })

/-- One read of `GPIO.in1.val`. -/
def read_in1 (tr : Trace) (s : Gpio) : Nat × Gpio :=
  (tr.in1 s.n_in1, { s with n_in1 := s.n_in1 + 1 })

/-- Level currently driven on line `sio` of `port`, read from the output
register image that holds its pin. -/
def sio_level (port sio : Nat) (s : Gpio) : Bool :=
  if gpio_pin port sio < 32 then s.out.testBit (gpio_pin port sio)
  else s.out1.testBit (gpio_pin port sio - 32)

/-! ## Signal abstraction -/

/-- The loop of `tx_nibble`: `for (i = SIO_R, mask = 0x8; mask; mask >>= 1, i++)`. -/
def tx_nibble_loop (port data : Nat) (i mask : Nat) (s : Gpio) : Gpio :=
  if _h : mask = 0 then s
  else
    tx_nibble_loop port data (i + 1) (mask >>> 1)
      (if data &&& mask ≠ 0 then s.out_w1ts (BIT (gpio_pin port i))
       else s.out_w1tc (BIT (gpio_pin port i)))
termination_by mask
decreasing_by
  simp_wf
  rw [Nat.shiftRight_eq_div_pow]
  omega

/-- Function `tx_nibble(port, data)`. -/
def tx_nibble (port data : Nat) (s : Gpio) : Gpio :=
  tx_nibble_loop port data SIO_R 0x8 s

/-- Function `set_sio(port, sio, value)`. -/
def set_sio (port sio value : Nat) (s : Gpio) : Gpio :=
  let pin := gpio_pin port sio
  if pin < 32 then
    if value ≠ 0 then s.out_w1ts (BIT pin) else s.out_w1tc (BIT pin)
  else
    if value ≠ 0 then s.out1_w1ts (BIT (pin - 32)) else s.out1_w1tc (BIT (pin - 32))

/-! ## Three-wire handshake -/

/-- One of the two wait loops of `twh_tx`, entered with `timeout` at its
current value. With `while_high = true` it is
`while (GPIO.in & BIT(TR))`, with `while_high = false` it is
`while (!(GPIO.in & BIT(TR)))`. The result is `false` when the body took the
`goto end` (handshake line high, or `timeout > TWH_TIMEOUT`) and `true` when
the loop condition became false. -/
def twh_wait (tr : Trace) (port : Nat) (while_high : Bool) (timeout : Nat) (s : Gpio) :
    Bool × Gpio :=
  let r := read_in tr s
  if (r.1 &&& BIT (gpio_pin port SIO_TR) != 0) = while_high then
    let r1 := read_in1 tr r.2
    if h : r1.1 &&& BIT (gpio_pin port SIO_TH - 32) ≠ 0 ∨ timeout > TWH_TIMEOUT then
      (false, r1.2)
    else
      twh_wait tr port while_high (timeout + 1) r1.2
  else
    (true, r.2)
termination_by TWH_TIMEOUT + 1 - timeout
decreasing_by
  simp_wf
  simp only [not_or, not_lt] at h
  omega

/-- Function `twh_tx(port, data, len)`; `data` is the list of the `len` bytes
`data[0..len)`. -/
def twh_tx (tr : Trace) (port : Nat) : List Nat → Gpio → Gpio
  | [], s => s
  | b :: rest, s =>
    match twh_wait tr port true 0 s with
    | (false, s1) => s1
    | (true, s1) =>
      let s2 := set_sio port SIO_TL 0 (tx_nibble port (b >>> 4) s1)
      match twh_wait tr port false 0 s2 with
      | (false, s3) => s3
      | (true, s3) =>
        twh_tx tr port rest (set_sio port SIO_TL 1 (tx_nibble port (b &&& 0xF) s3))

/-! ## Frame assembly -/

/-- Contents of `buffer` (and of what follows it in memory), by index. -/
abbrev Buffer := Nat → Nat

/-- Store `buffer[i] = v`. -/
def Buffer.set (b : Buffer) (i v : Nat) : Buffer :=
  fun k => if k = i then v else b k

/-- Call `memcpy(&buffer[dst], src, n)`. -/
def memcpy (b : Buffer) (dst : Nat) (src : Nat → Nat) (n : Nat) : Buffer :=
  fun k => if dst ≤ k ∧ k < dst + n then src (k - dst) else b k

/-- The bytes `buffer[0..len)` handed to `twh_tx(port, buffer, len)`. -/
def Buffer.bytes (b : Buffer) (len : Nat) : List Nat :=
  (List.range len).map b

/-- External controller state: `output j k` is
`wired_adapter.data[j].output[k]`. -/
abbrev WiredData := Nat → Nat → Nat

/-- Modelled from the spec: `kbmon_get_code` of the absent keyboard-scancode
helper (`adapter/kb_monitor.h`), the query
`get_scancode(logical_port) -> (bytes, length) | none-available`.
`some code` is a call that returns 0 after copying the bytes `code` to the
pointer it was given and storing their number through `len`; `none` is a call
that returns non-zero and writes nothing. -/
abbrev KbQuery := Nat → Option (List Nat)

/-- A frame ready for transmission: the buffer and the length given to `twh_tx`. -/
structure Frame where
  buf : Buffer
  len : Nat

/-- The bytes of a frame. -/
def Frame.bytes (f : Frame) : List Nat := f.buf.bytes f.len

/-- Buffer assembly of `set_analog_digital_pad` (up to the call of `tx_nibble`). -/
def analog_digital_pad_frame (output : WiredData) (src_port : Nat) (buffer : Buffer) : Frame :=
  let buffer := buffer.set 0 (((ID2_SATURN_PAD <<< 4) ||| 2) % 256)
  let buffer := memcpy buffer 1 (output src_port) 2
  let buffer := buffer.set 3 ((ID0_SATURN_THREEWIRE_HANDSHAKE >>> 4) % 256)
  { buf := buffer, len := 4 }

/-- Buffer assembly of `set_analog_pad`. -/
def analog_pad_frame (output : WiredData) (src_port : Nat) (buffer : Buffer) : Frame :=
  let buffer := buffer.set 0 (((ID2_SATURN_ANALOG_PAD <<< 4) ||| 6) % 256)
  let buffer := memcpy buffer 1 (output src_port) 6
  let buffer := buffer.set 7 ((ID0_SATURN_THREEWIRE_HANDSHAKE >>> 4) % 256)
  { buf := buffer, len := 8 }

/-- Buffer assembly of `set_saturn_keyboard`. -/
def saturn_keyboard_frame (output : WiredData) (kb : KbQuery) (src_port : Nat)
    (buffer : Buffer) : Frame :=
  let buffer := buffer.set 0 (((ID2_SATURN_KB <<< 4) ||| 4) % 256)
  let buffer := memcpy buffer 1 (output src_port) 2
  let buffer :=
    match kb src_port with
    | some code => memcpy buffer 3 (fun k => code.getD k 0) code.length
    | none => (buffer.set 3 0x06).set 4 0x00
  let buffer := buffer.set 5 ((ID0_SATURN_THREEWIRE_HANDSHAKE >>> 4) % 256)
  { buf := buffer, len := 6 }

/-- Transmission part shared, line for line, by the four Saturn frame
builders: the low nibble of ID0, the frame over the handshake, the high nibble
of ID0, then `set_sio(port, SIO_TL, 1)`. -/
def send_frame (tr : Trace) (port : Nat) (f : Frame) (s : Gpio) : Gpio :=
  let s := tx_nibble port (ID0_SATURN_THREEWIRE_HANDSHAKE &&& 0xF) s
  let s := twh_tx tr port f.bytes s
  let s := tx_nibble port (ID0_SATURN_THREEWIRE_HANDSHAKE >>> 4) s
  set_sio port SIO_TL 1 s

/-- Function `set_analog_digital_pad(port, src_port)`. -/
def set_analog_digital_pad (tr : Trace) (output : WiredData) (port src_port : Nat)
    (buffer : Buffer) (s : Gpio) : Buffer × Gpio :=
  let f := analog_digital_pad_frame output src_port buffer
  (f.buf, send_frame tr port f s)

/-- Function `set_analog_pad(port, src_port)`. -/
def set_analog_pad (tr : Trace) (output : WiredData) (port src_port : Nat)
    (buffer : Buffer) (s : Gpio) : Buffer × Gpio :=
  let f := analog_pad_frame output src_port buffer
  (f.buf, send_frame tr port f s)

/-- Function `set_saturn_keyboard(port, src_port)`. -/
def set_saturn_keyboard (tr : Trace) (output : WiredData) (kb : KbQuery) (port src_port : Nat)
    (buffer : Buffer) (s : Gpio) : Buffer × Gpio :=
  let f := saturn_keyboard_frame output kb src_port buffer
  (f.buf, send_frame tr port f s)

/-- Loop state of `set_saturn_multitap`: the buffer, the offset of the pointer
`data` from `buffer`, and the local `len`. -/
structure MtState where
  buf : Buffer
  data : Nat
  len : Nat

/-- Body of the `for` loop of `set_saturn_multitap` for a sub-slot of type `ty`
that reads logical port `j`. -/
def saturn_multitap_slot (output : WiredData) (kb : KbQuery) (ty : DevType) (j : Nat)
    (st : MtState) : MtState :=
  match ty with
  | DEV_SATURN_DIGITAL | DEV_SATURN_DIGITAL_TWH =>
    let buf := st.buf.set st.data (((ID2_SATURN_PAD <<< 4) ||| 2) % 256)
    let buf := memcpy buf (st.data + 1) (output j) 2
    { st with buf := buf, data := st.data + 1 + 2 }
  | DEV_SATURN_ANALOG =>
    let buf := st.buf.set st.data (((ID2_SATURN_ANALOG_PAD <<< 4) ||| 6) % 256)
    let buf := memcpy buf (st.data + 1) (output j) 6
    { st with buf := buf, data := st.data + 1 + 6 }
  | DEV_SATURN_KB =>
    let buf := st.buf.set st.data (((ID2_SATURN_KB <<< 4) ||| 4) % 256)
    let buf := memcpy buf (st.data + 1) (output j) 2
    let data := st.data + 1 + 2
    match kb j with
    | some code =>
      { buf := memcpy buf data (fun k => code.getD k 0) code.length,
        data := data + code.length, len := code.length }
    | none =>
      { buf := (buf.set 3 0x06).set 4 0x00, data := data + st.len, len := st.len }
  | _ => st

/-- Buffer assembly of `set_saturn_multitap(port, first_port, nb_port)`.
`mt_dev_type` is the static table of that name; `len` is the indeterminate
value the uninitialised local `len` holds on entry. -/
def saturn_multitap_frame (output : WiredData) (kb : KbQuery)
    (mt_dev_type : Nat → Nat → DevType) (port first_port nb_port : Nat)
    (buffer : Buffer) (len : Nat) : Frame :=
  let buffer := buffer.set 0 (((ID2_SATURN_MULTITAP <<< 4) ||| 1) % 256)
  let buffer := buffer.set 1 ((nb_port <<< 4) % 256)
  let st := (List.range nb_port).foldl
    (fun st i => saturn_multitap_slot output kb (mt_dev_type port i) (first_port + i) st)
    { buf := buffer, data := 2, len := len }
  let buffer := st.buf.set st.data ((ID0_SATURN_THREEWIRE_HANDSHAKE >>> 4) % 256)
  { buf := buffer, len := st.data + 1 }

/-- Function `set_saturn_multitap(port, first_port, nb_port)`. -/
def set_saturn_multitap (tr : Trace) (output : WiredData) (kb : KbQuery)
    (mt_dev_type : Nat → Nat → DevType) (port first_port nb_port : Nat)
    (buffer : Buffer) (len : Nat) (s : Gpio) : Buffer × Gpio :=
  let f := saturn_multitap_frame output kb mt_dev_type port first_port nb_port buffer len
  (f.buf, send_frame tr port f s)

/-- Header byte and payload that the standalone frame builder of a sub-slot
type assembles from logical port `j`: its frame without the trailer byte.
Saturn digital and digital-handshake are framed by `set_analog_digital_pad`,
analog by `set_analog_pad`, keyboard by `set_saturn_keyboard`. -/
def standalone_subframe (output : WiredData) (kb : KbQuery) (ty : DevType) (j : Nat)
    (buffer : Buffer) : List Nat :=
  match ty with
  | DEV_SATURN_DIGITAL | DEV_SATURN_DIGITAL_TWH =>
    (analog_digital_pad_frame output j buffer).bytes.dropLast
  | DEV_SATURN_ANALOG => (analog_pad_frame output j buffer).bytes.dropLast
  | DEV_SATURN_KB => (saturn_keyboard_frame output kb j buffer).bytes.dropLast
  | _ => []

/-- The bytes of a multitap frame between its two leading bytes and its
trailer byte. -/
def multitap_body (f : Frame) : List Nat := (f.bytes.drop 2).dropLast

/-! ## Port/device resolver -/

/-- Modelled from the spec: the system selector `wired_adapter.system_id`
(declared in the absent `adapter/adapter.h`); `sega_io_init` only tests it
against `SATURN`, every other system takes the Genesis branch. -/
inductive SystemId where
  | SATURN
  | GENESIS
  deriving DecidableEq, Repr

/-- Modelled from the spec: the global multitap mode
`config.global_cfg.multitap_cfg` (enumeration of the absent
`adapter/config.h`): disabled, hub-on-port-1, hub-on-port-2, hub-on-both,
EA-alternate. -/
inductive MultitapCfg where
  | MT_NONE
  | MT_SLOT_1
  | MT_SLOT_2
  | MT_DUAL
  | MT_ALT
  deriving DecidableEq, Repr

/-- Modelled from the spec: the device-mode selection `out_cfg[k].dev_mode`
(enumeration of the absent `adapter/config.h`): pad, alternate-pad, keyboard,
mouse; `DEV_MODE_OTHER` stands for any stored value that is none of them. -/
inductive DevMode where
  | DEV_PAD
  | DEV_PAD_ALT
  | DEV_KB
  | DEV_MOUSE
  | DEV_MODE_OTHER
  deriving DecidableEq, Repr

open SystemId MultitapCfg DevMode

/-- The part of `config` the resolver reads: `multitap_cfg` and
`out_cfg k = config.out_cfg[k].dev_mode`. -/
structure Config where
  multitap_cfg : MultitapCfg
  out_cfg : Nat → DevMode

/-- The statics written by the resolver, `dev_type[2]`, `mt_dev_type[2][6]`,
`mt_first_port[2]`, and the logical ports passed to `kbmon_init`, in call
order. -/
structure PortTable where
  dev_type : Nat → DevType
  mt_dev_type : Nat → Nat → DevType
  mt_first_port : Nat → Nat
  kbmon : List Nat

/-- The statics as initialised: `{0}` everywhere, no keyboard source
registered. -/
def PortTable.initial : PortTable :=
  { dev_type := fun _ => DEV_NONE, mt_dev_type := fun _ _ => DEV_NONE,
    mt_first_port := fun _ => 0, kbmon := [] }

/-- Store `dev_type[i] = v`. -/
def PortTable.set_dev (t : PortTable) (i : Nat) (v : DevType) : PortTable :=
  { t with dev_type := Function.update t.dev_type i v }

/-- Store `mt_dev_type[i][j] = v`. -/
def PortTable.set_mt (t : PortTable) (i j : Nat) (v : DevType) : PortTable :=
  { t with mt_dev_type := Function.update t.mt_dev_type i (Function.update (t.mt_dev_type i) j v) }

/-- Store `mt_first_port[i] = v`. -/
def PortTable.set_first (t : PortTable) (i v : Nat) : PortTable :=
  { t with mt_first_port := Function.update t.mt_first_port i v }

/-- Call `kbmon_init(p, saturn_kb_id_to_scancode)`. -/
def PortTable.kbmon_init (t : PortTable) (p : Nat) : PortTable :=
  { t with kbmon := t.kbmon ++ [p] }

/-- Saturn branch: `switch (config.global_cfg.multitap_cfg)`. -/
def saturn_multitap_cfg (m : MultitapCfg) (t : PortTable) : PortTable :=
  match m with
  | MT_SLOT_1 => (t.set_dev 0 DEV_SATURN_MULTITAP).set_first 1 MT_PORT_MAX
  | MT_SLOT_2 => (t.set_dev 1 DEV_SATURN_MULTITAP).set_first 1 1
  | MT_DUAL =>
    ((t.set_dev 0 DEV_SATURN_MULTITAP).set_dev 1 DEV_SATURN_MULTITAP).set_first 1 MT_PORT_MAX
  | _ => t.set_first 1 1

/-- Saturn branch: body of the loop over the sub-slots `j` of hub port `i`;
the second component is `port_cnt` (at most 12 here, so its `uint8_t`
increment never wraps). -/
def saturn_mt_slot (cfg : Config) (i j : Nat) (st : PortTable × Nat) : PortTable × Nat :=
  let t :=
    match cfg.out_cfg st.2 with
    | DEV_PAD => st.1.set_mt i j DEV_SATURN_DIGITAL_TWH
    | DEV_PAD_ALT => st.1.set_mt i j DEV_SATURN_ANALOG
    | DEV_KB => (st.1.set_mt i j DEV_SATURN_KB).kbmon_init (j + i * 2)
    | DEV_MOUSE => st.1.set_mt i j DEV_GENESIS_MOUSE
    | DEV_MODE_OTHER => st.1
  (t, st.2 + 1)

/-- Saturn branch: the `switch` taken for a port whose `dev_type` is `DEV_NONE`. -/
def saturn_leaf (cfg : Config) (i : Nat) (st : PortTable × Nat) : PortTable × Nat :=
  let t :=
    match cfg.out_cfg st.2 with
    | DEV_PAD => st.1.set_dev i DEV_SATURN_DIGITAL_TWH
    | DEV_PAD_ALT => st.1.set_dev i DEV_SATURN_ANALOG
    | DEV_KB => (st.1.set_dev i DEV_SATURN_KB).kbmon_init i
    | DEV_MOUSE => st.1.set_dev i DEV_GENESIS_MOUSE
    | DEV_MODE_OTHER => st.1
  (t, st.2 + 1)

/-- Saturn branch: body of the loop over the ports `i`. -/
def saturn_port (cfg : Config) (i : Nat) (st : PortTable × Nat) : PortTable × Nat :=
  if st.1.dev_type i = DEV_SATURN_MULTITAP then
    (List.range MT_PORT_MAX).foldl (fun st j => saturn_mt_slot cfg i j st) st
  else if st.1.dev_type i = DEV_NONE then
    saturn_leaf cfg i st
  else st

/-- Genesis branch: `switch (config.global_cfg.multitap_cfg)`. -/
def genesis_multitap_cfg (m : MultitapCfg) (t : PortTable) : PortTable :=
  match m with
  | MT_SLOT_1 => (t.set_dev 0 DEV_GENESIS_MULTITAP).set_first 1 MT_GEN_PORT_MAX
  | MT_SLOT_2 => (t.set_dev 1 DEV_GENESIS_MULTITAP).set_first 1 1
  | MT_DUAL =>
    ((t.set_dev 0 DEV_GENESIS_MULTITAP).set_dev 1 DEV_GENESIS_MULTITAP).set_first 1
      MT_GEN_PORT_MAX
  | MT_ALT => (t.set_dev 0 DEV_EA_MULTITAP).set_dev 1 DEV_EA_MULTITAP
  | MT_NONE => t.set_first 1 1

/-- Genesis branch: body of the loop over the sub-slots `j` of hub port `i`. -/
def genesis_mt_slot (cfg : Config) (i j : Nat) (st : PortTable × Nat) : PortTable × Nat :=
  let t :=
    match cfg.out_cfg st.2 with
    | DEV_PAD => st.1.set_mt i j DEV_GENESIS_3BTNS
    | DEV_PAD_ALT => st.1.set_mt i j DEV_GENESIS_6BTNS
    | DEV_MOUSE => st.1.set_mt i j DEV_GENESIS_MOUSE
    | _ => st.1
  (t, st.2 + 1)

/-- Genesis branch: the `switch` taken for a port whose `dev_type` is `DEV_NONE`. -/
def genesis_leaf (cfg : Config) (i : Nat) (st : PortTable × Nat) : PortTable × Nat :=
  let t :=
    match cfg.out_cfg st.2 with
    | DEV_PAD => st.1.set_dev i DEV_GENESIS_3BTNS
    | DEV_PAD_ALT => st.1.set_dev i DEV_GENESIS_6BTNS
    | DEV_MOUSE => st.1.set_dev i DEV_GENESIS_MOUSE
    | _ => st.1
  (t, st.2 + 1)

/-- Genesis branch: body of the loop over the ports `i`. -/
def genesis_port (cfg : Config) (i : Nat) (st : PortTable × Nat) : PortTable × Nat :=
  if st.1.dev_type i = DEV_GENESIS_MULTITAP then
    (List.range MT_GEN_PORT_MAX).foldl (fun st j => genesis_mt_slot cfg i j st) st
  else if st.1.dev_type i = DEV_NONE then
    genesis_leaf cfg i st
  else st

/-- The resolver part of `sega_io_init` (from the test of
`wired_adapter.system_id` to the end of the two port loops), run on the
statics `t`; `port_cnt` starts at 0 and the ports are `i = 0, 1`
(`ARRAY_SIZE(gpio_pin)`). -/
def sega_io_init_resolver (sys : SystemId) (cfg : Config) (t : PortTable) : PortTable :=
  match sys with
  | SATURN =>
    ((List.range 2).foldl (fun st i => saturn_port cfg i st)
      (saturn_multitap_cfg cfg.multitap_cfg t, 0)).1
  | GENESIS =>
    ((List.range 2).foldl (fun st i => genesis_port cfg i st)
      (genesis_multitap_cfg cfg.multitap_cfg t, 0)).1

/-- Number of sub-slots of a hub of the system: `MT_PORT_MAX` for Saturn,
`MT_GEN_PORT_MAX` for Genesis. -/
def hub_slots (sys : SystemId) : Nat :=
  match sys with
  | SATURN => MT_PORT_MAX
  | GENESIS => MT_GEN_PORT_MAX

/-- The multitap device type of the system. -/
def hub_type (sys : SystemId) : DevType :=
  match sys with
  | SATURN => DEV_SATURN_MULTITAP
  | GENESIS => DEV_GENESIS_MULTITAP

/-- The device type that the two `switch` statements of a system's branch (hub
sub-slot and leaf port) store for a device mode; `none` when they have no case
for it and store nothing. -/
def mode_type (sys : SystemId) (d : DevMode) : Option DevType :=
  match sys, d with
  | SATURN, DEV_PAD => some DEV_SATURN_DIGITAL_TWH
  | SATURN, DEV_PAD_ALT => some DEV_SATURN_ANALOG
  | SATURN, DEV_KB => some DEV_SATURN_KB
  | SATURN, DEV_MOUSE => some DEV_GENESIS_MOUSE
  | GENESIS, DEV_PAD => some DEV_GENESIS_3BTNS
  | GENESIS, DEV_PAD_ALT => some DEV_GENESIS_6BTNS
  | GENESIS, DEV_MOUSE => some DEV_GENESIS_MOUSE
  | _, _ => none

/-- Device modes that the `switch` statements of the system have a case for. -/
def recognised (sys : SystemId) (d : DevMode) : Bool := (mode_type sys d).isSome

/-- Device types that are neither `DEV_NONE` nor one of the hub types. -/
def is_leaf (d : DevType) : Bool :=
  match d with
  | DEV_NONE => false
  | DEV_GENESIS_MULTITAP => false
  | DEV_SATURN_MULTITAP => false
  | DEV_EA_MULTITAP => false
  | _ => true

/-! ## Notions used to state the properties -/

/-- The first `n` bytes of the output buffer of logical port `src_port`. -/
def state_bytes (output : WiredData) (src_port n : Nat) : List Nat :=
  (List.range n).map (output src_port)

/-- The scancode bytes of a keyboard payload: the code the query returned, or
the "no key" bytes `0x06, 0x00` when it reported none. -/
def scancode_bytes (kb : KbQuery) (src_port : Nat) : List Nat :=
  match kb src_port with
  | some code => code
  | none => [0x06, 0x00]

/-- The trailer byte of every Saturn frame, `ID0_SATURN_THREEWIRE_HANDSHAKE >> 4`. -/
def TRAILER : Nat := ID0_SATURN_THREEWIRE_HANDSHAKE >>> 4

/-- A controller state with pairwise different bytes:
byte `k` of logical port `j` is `0xA0 + 16 * j + k`. -/
def scenario_output : WiredData := fun j k => 0xA0 + 16 * j + k

/-- Sub-slot types of scenario B, `[pad, pad, alternate-pad, keyboard, pad, pad]`
as the resolver types them. -/
def scenario_mt : Nat → Nat → DevType := fun _ i =>
  if i = 2 then DEV_SATURN_ANALOG else if i = 3 then DEV_SATURN_KB else DEV_SATURN_DIGITAL_TWH

/-- No scancode is queued for any logical port. -/
def no_scancode : KbQuery := fun _ => none

/-- A scancode query that has the two bytes `0x80, 0x1C` queued for every port. -/
def queued_scancode : KbQuery := fun _ => some [0x80, 0x1C]

/-- A scancode query that has the single byte `0x80` queued for every port. -/
def one_byte_scancode : KbQuery := fun _ => some [0x80]

/-- The frame `set_saturn_multitap(0, 0, MT_PORT_MAX)` assembles in scenario B
with no scancode queued, from a zeroed buffer and with 2 in the local `len`. -/
def scenario_frame : Frame :=
  saturn_multitap_frame scenario_output no_scancode scenario_mt 0 0 MT_PORT_MAX (fun _ => 0) 2

/-- The frame `set_saturn_multitap(0, 0, MT_PORT_MAX)` assembles when all six
sub-slots are analog pads. -/
def six_analog_frame : Frame :=
  saturn_multitap_frame scenario_output no_scancode (fun _ _ => DEV_SATURN_ANALOG) 0 0
    MT_PORT_MAX (fun _ => 0) 2

/-- Effect of one register write on the hardware state. -/
def apply_write (s : Gpio) : RegWrite → Gpio
  | RegWrite.out_w1ts v => s.out_w1ts v
  | RegWrite.out_w1tc v => s.out_w1tc v
  | RegWrite.out1_w1ts v => s.out1_w1ts v
  | RegWrite.out1_w1tc v => s.out1_w1tc v
  | RegWrite.out v => s.set_out v
  | RegWrite.out1 v => s.set_out1 v

/-- The register write that drives line `sio` of `port` to `level`: a store of
the pin's bit to the write-one-to-set or write-one-to-clear register of the
bank that holds the pin. -/
def drive (port sio : Nat) (level : Bool) : RegWrite :=
  if gpio_pin port sio < 32 then
    if level then RegWrite.out_w1ts (BIT (gpio_pin port sio))
    else RegWrite.out_w1tc (BIT (gpio_pin port sio))
  else
    if level then RegWrite.out1_w1ts (BIT (gpio_pin port sio - 32))
    else RegWrite.out1_w1tc (BIT (gpio_pin port sio - 32))

/-- Driving nibble `nib` on the four directional lines: bit 3 on R, bit 2 on L,
bit 1 on D, bit 0 on U, in that order. -/
def nibble_writes (port nib : Nat) : List RegWrite :=
  [drive port SIO_R (nib.testBit 3), drive port SIO_L (nib.testBit 2),
   drive port SIO_D (nib.testBit 1), drive port SIO_U (nib.testBit 0)]

/-- What the handshake does for one byte `b`: drive the high nibble, drive TL
low, drive the low nibble, drive TL high. -/
def byte_writes (port b : Nat) : List RegWrite :=
  nibble_writes port (b / 16) ++ [drive port SIO_TL false] ++
  nibble_writes port (b % 16) ++ [drive port SIO_TL true]

/-- From read number `n` of `GPIO.in` on, the acknowledgment line TR of `port`
stays at the level `while_high` the loop spins on for `k` reads and has left it
at the next one, with `k` small enough for the wait loop not to time out. -/
def wait_satisfied (tr : Trace) (port : Nat) (while_high : Bool) (n k : Nat) : Prop :=
  k ≤ TWH_TIMEOUT + 1 ∧
  (∀ j, j < k → (tr.in0 (n + j) &&& BIT (gpio_pin port SIO_TR) != 0) = while_high) ∧
  (tr.in0 (n + k) &&& BIT (gpio_pin port SIO_TR) != 0) = !while_high

/-- Each of the `2 * len` acknowledgment waits of a transaction of `len` bytes
that starts at read number `n` of `GPIO.in` is satisfied before its timeout. -/
def acks_in_time (tr : Trace) (port : Nat) : Nat → Nat → Prop
  | _, 0 => True
  | n, len + 1 =>
    ∃ k1 k2, wait_satisfied tr port true n k1 ∧
      wait_satisfied tr port false (n + k1 + 1) k2 ∧
      acks_in_time tr port (n + k1 + 1 + k2 + 1) len

/-- The handshake line TH of `port` is low at every read of `GPIO.in1.val`. -/
def th_low (tr : Trace) (port : Nat) : Prop :=
  ∀ m, tr.in1 m &&& BIT (gpio_pin port SIO_TH - 32) = 0

/-- State `s` with its two read counters replaced. -/
def with_reads (s : Gpio) (n n1 : Nat) : Gpio := { s with n_in := n, n_in1 := n1 }

/-- A hardware state with every output line low and nothing read or written yet. -/
def idle_low : Gpio := { out := 0, out1 := 0, n_in := 0, n_in1 := 0, log := [] }

/-- An input trace on which TR of port 0 (pin 27) is low at even reads of
`GPIO.in` and high at odd ones, and TH stays low. -/
def alternating : Trace :=
  { in0 := fun k => if k % 2 = 0 then 0 else BIT 27, in1 := fun _ => 0 }

/-- An input trace on which TR of port 0 (pin 27) never leaves high and TH stays low. -/
def stuck_high : Trace := { in0 := fun _ => BIT 27, in1 := fun _ => 0 }

/-- The three tables the resolver writes, without the log of `kbmon_init`
calls. -/
@[ext]
structure View where
  dev_type : Nat → DevType
  mt_dev_type : Nat → Nat → DevType
  mt_first_port : Nat → Nat

/-- The tables of a resolver state. -/
def view (t : PortTable) : View :=
  { dev_type := t.dev_type, mt_dev_type := t.mt_dev_type, mt_first_port := t.mt_first_port }

/-- Effect of the `switch (config.global_cfg.multitap_cfg)` of the system's
branch on the tables. -/
def cfg_view (sys : SystemId) (m : MultitapCfg) (v : View) : View :=
  match sys with
  | SATURN => view (saturn_multitap_cfg m
      { dev_type := v.dev_type, mt_dev_type := v.mt_dev_type,
        mt_first_port := v.mt_first_port, kbmon := [] })
  | GENESIS => view (genesis_multitap_cfg m
      { dev_type := v.dev_type, mt_dev_type := v.mt_dev_type,
        mt_first_port := v.mt_first_port, kbmon := [] })

/-- Closed form of one iteration of the loop over the ports on the tables and
`port_cnt`: a hub port takes its `hub_slots` sub-slot types from the next
device modes, keeping the old entry where the mode is not recognised; a port
still at `DEV_NONE` takes its type from the next device mode; any other port is
skipped and `port_cnt` is not advanced. -/
def port_view (sys : SystemId) (cfg : Config) (i : Nat) (v : View × Nat) : View × Nat :=
  if v.1.dev_type i = hub_type sys then
    ({ v.1 with
        mt_dev_type := fun a b =>
          if a = i ∧ b < hub_slots sys then
            (mode_type sys (cfg.out_cfg (v.2 + b))).getD (v.1.mt_dev_type a b)
          else v.1.mt_dev_type a b },
      v.2 + hub_slots sys)
  else if v.1.dev_type i = DEV_NONE then
    ({ v.1 with
        dev_type :=
          match mode_type sys (cfg.out_cfg v.2) with
          | some d => Function.update v.1.dev_type i d
          | none => v.1.dev_type },
      v.2 + 1)
  else v

/-- Closed form of the resolver on the tables. -/
def resolver_view (sys : SystemId) (cfg : Config) (v : View) : View :=
  (port_view sys cfg 1 (port_view sys cfg 0 (cfg_view sys cfg.multitap_cfg v, 0))).1

/-- Logical port 0 configured as a pad, every other one as an alternate pad. -/
def pad_then_alt : Nat → DevMode := fun k => if k = 0 then DEV_PAD else DEV_PAD_ALT

/-- Configurations for which a second run of the resolver reads the same device
modes for port 1 as the first: port 0 is a hub (`MT_SLOT_1`, `MT_DUAL`) or the
EA multitap (Genesis `MT_ALT`), or its device mode is not recognised, or port 1
is a leaf with a recognised device mode. -/
def second_run_safe (sys : SystemId) (cfg : Config) : Prop :=
  cfg.multitap_cfg = MT_SLOT_1 ∨ cfg.multitap_cfg = MT_DUAL ∨
  (sys = GENESIS ∧ cfg.multitap_cfg = MT_ALT) ∨
  recognised sys (cfg.out_cfg 0) = false ∨
  (cfg.multitap_cfg ≠ MT_SLOT_2 ∧ recognised sys (cfg.out_cfg 1) = true)

/-- Scenario B: hub on port 1, slots `[pad, pad, alternate-pad, keyboard, pad,
pad]`, every further logical port a pad. -/
def scenario_cfg : Config :=
  { multitap_cfg := MT_SLOT_1,
    out_cfg := fun k => if k = 2 then DEV_PAD_ALT else if k = 3 then DEV_KB else DEV_PAD }

/-- Hub on port 1 with every logical port configured as an alternate pad. -/
def six_analog_cfg : Config := { multitap_cfg := MT_SLOT_1, out_cfg := fun _ => DEV_PAD_ALT }

/-- Hub on port 2, logical port 0 a pad and every other one an alternate pad. -/
def hub_on_port_2_cfg : Config := { multitap_cfg := MT_SLOT_2, out_cfg := pad_then_alt }

/-- Logical ports that the frame builder `sega_io_isr` dispatches for `port`
passes to `kbmon_get_code`: `set_saturn_multitap(port, mt_first_port[port],
MT_PORT_MAX)` queries `mt_first_port[port] + i` for each keyboard sub-slot `i`,
`set_saturn_keyboard(port, mt_first_port[port])` queries `mt_first_port[port]`,
the other builders query nothing. -/
def kb_query_ports (t : PortTable) (port : Nat) : List Nat :=
  match t.dev_type port with
  | DEV_SATURN_MULTITAP =>
    ((List.range MT_PORT_MAX).filter (fun i => t.mt_dev_type port i = DEV_SATURN_KB)).map
      (fun i => t.mt_first_port port + i)
  | DEV_SATURN_KB => [t.mt_first_port port]
  | _ => []

/-- Hub on both ports, a keyboard on logical port 6 (sub-slot 0 of the hub on
port 2), every other logical port a pad. -/
def kb_on_second_hub_cfg : Config :=
  { multitap_cfg := MT_DUAL, out_cfg := fun k => if k = 6 then DEV_KB else DEV_PAD }

/-- Hub on port 1, a keyboard on logical port 6 (the leaf on port 2), every
other logical port a pad. -/
def kb_leaf_after_hub_cfg : Config :=
  { multitap_cfg := MT_SLOT_1, out_cfg := fun k => if k = 6 then DEV_KB else DEV_PAD }

/-! ## Genesis multitap frame -/

/-- The table `gen_ids[DEV_TYPE_MAX]`, indexed by device type. -/
def gen_ids : DevType → Nat
  | DEV_NONE => 0xF
  | DEV_GENESIS_3BTNS => 0x0
  | DEV_GENESIS_6BTNS => 0x1
  | DEV_GENESIS_MULTITAP => 0xF
  | DEV_GENESIS_MOUSE => 0x2
  | DEV_SATURN_DIGITAL => 0xF
  | DEV_SATURN_DIGITAL_TWH => 0xF
  | DEV_SATURN_ANALOG => 0xF
  | DEV_SATURN_MULTITAP => 0xF
  | DEV_SATURN_KB => 0xF
  | DEV_EA_MULTITAP => 0xF

/-- Loop state of `set_gen_multitap`: the buffer, the offset of the pointer
`data` from `buffer`, and the local `odd`. -/
structure GenMtState where
  buf : Buffer
  data : Nat
  odd : Nat

/-- Body of the `for` loop of `set_gen_multitap` for a sub-slot of type `ty`
that reads logical port `j`; `b24` and `b25` are the `uint8_t` objects
`wired_adapter.data[j].output[24]` and `output[25]`. -/
def gen_multitap_slot (output : WiredData) (ty : DevType) (j : Nat) (st : GenMtState) :
    GenMtState :=
  let b24 := output j 24 % 256
  let b25 := output j 25 % 256
  match ty with
  | DEV_GENESIS_3BTNS =>
    if st.odd ≠ 0 then
      let buf := st.buf.set st.data ((st.buf st.data &&& ((b24 >>> 4) ||| 0xF0)) % 256)
      let data := st.data + 1
      let buf := buf.set data (((b24 <<< 4) ||| 0xF) % 256)
      { st with buf := buf, data := data }
    else
      { st with buf := st.buf.set st.data b24, data := st.data + 1 }
  | DEV_GENESIS_6BTNS =>
    if st.odd ≠ 0 then
      let buf := st.buf.set st.data ((st.buf st.data &&& ((b24 >>> 4) ||| 0xF0)) % 256)
      let data := st.data + 1
      let buf := buf.set data (((b24 <<< 4) ||| 0xF) % 256)
      let buf := buf.set data ((buf data &&& ((b25 >>> 4) ||| 0xF0)) % 256)
      { buf := buf, data := data + 1, odd := 0 }
    else
      let buf := st.buf.set st.data b24
      let data := st.data + 1
      let buf := buf.set data ((b25 ||| 0xF) % 256)
      { buf := buf, data := data, odd := 1 }
  | _ => st

/-- Buffer assembly of `set_gen_multitap(port, first_port, nb_port)`: the three
leading bytes, the loop over the sub-slots, the final `if (odd) data++`; the
length is `data - buffer`. -/
def gen_multitap_frame (output : WiredData) (mt_dev_type : Nat → Nat → DevType)
    (port first_port nb_port : Nat) (buffer : Buffer) : Frame :=
  let buffer := buffer.set 0 0x00
  let buffer := buffer.set 1
    (((gen_ids (mt_dev_type port 0) <<< 4) ||| (gen_ids (mt_dev_type port 1) &&& 0xF)) % 256)
  let buffer := buffer.set 2
    (((gen_ids (mt_dev_type port 2) <<< 4) ||| (gen_ids (mt_dev_type port 3) &&& 0xF)) % 256)
  let st := (List.range nb_port).foldl
    (fun st i => gen_multitap_slot output (mt_dev_type port i) (first_port + i) st)
    { buf := buffer, data := 3, odd := 0 }
  { buf := st.buf, len := if st.odd ≠ 0 then st.data + 1 else st.data }

/-- Function `set_gen_multitap(port, first_port, nb_port)`. -/
def set_gen_multitap (tr : Trace) (output : WiredData) (mt_dev_type : Nat → Nat → DevType)
    (port first_port nb_port : Nat) (buffer : Buffer) (s : Gpio) : Buffer × Gpio :=
  let f := gen_multitap_frame output mt_dev_type port first_port nb_port buffer
  (f.buf, twh_tx tr port f.bytes s)

/-- The nibbles a sub-slot of type `ty` reading logical port `j` contributes to
a Genesis multitap frame: high and low nibble of output byte 24 for a 3-button
pad, followed by the high nibble of output byte 25 for a 6-button pad, nothing
for any other type. -/
def gen_slot_nibbles (output : WiredData) (ty : DevType) (j : Nat) : List Nat :=
  match ty with
  | DEV_GENESIS_3BTNS => [output j 24 % 256 / 16, output j 24 % 256 % 16]
  | DEV_GENESIS_6BTNS =>
    [output j 24 % 256 / 16, output j 24 % 256 % 16, output j 25 % 256 / 16]
  | _ => []

/-- The nibble stream of the sub-slots `0 .. nb_port - 1` of hub `port`, in
slot order. -/
def gen_nibble_stream (output : WiredData) (mt_dev_type : Nat → Nat → DevType)
    (port first_port nb_port : Nat) : List Nat :=
  (List.range nb_port).flatMap
    (fun i => gen_slot_nibbles output (mt_dev_type port i) (first_port + i))

/-- Nibbles packed two per byte, high nibble first, a last single nibble
padded with the nibble `0xF`. -/
def pack_nibbles : List Nat → List Nat
  | [] => []
  | [a] => [a * 16 + 0xF]
  | a :: b :: rest => (a * 16 + b) :: pack_nibbles rest

/-- The buffer holds the bytes `B` at the indices `0 .. B.length - 1`. -/
def Buffer.holds (buf : Buffer) (B : List Nat) : Prop :=
  ∀ i, i < B.length → buf i = B.getD i 0

/-- State of the loop of `set_gen_multitap` after the nibbles `ns` have been
packed behind the header bytes `H`: with `odd = 0` the pointer `data` stands
behind the packed bytes; with `odd = 1` it stands on the byte that holds the
last nibble and the padding. -/
def GenMtState.packed (st : GenMtState) (H ns : List Nat) : Prop :=
  (∀ x ∈ ns, x < 16) ∧
  ((st.odd = 0 ∧ ns.length % 2 = 0 ∧ st.data = (H ++ pack_nibbles ns).length ∧
      st.buf.holds (H ++ pack_nibbles ns)) ∨
   (st.odd = 1 ∧ ∃ ns' a, ns = ns' ++ [a] ∧ ns'.length % 2 = 0 ∧
      st.data = (H ++ pack_nibbles ns').length ∧ st.buf.holds (H ++ pack_nibbles ns') ∧
      st.buf st.data = a * 16 + 0xF))

/-! ## Genesis pins, masks and output words -/

def P1_TH_PIN : Nat := 35
def P1_TR_PIN : Nat := 27
def P1_TL_PIN : Nat := 26
def P1_R_PIN : Nat := 23
def P1_L_PIN : Nat := 18
def P1_D_PIN : Nat := 5
def P1_U_PIN : Nat := 3

def P2_TH_PIN : Nat := 36
def P2_TR_PIN : Nat := 16
def P2_TL_PIN : Nat := 33
def P2_R_PIN : Nat := 25
def P2_L_PIN : Nat := 22
def P2_D_PIN : Nat := 21
def P2_U_PIN : Nat := 19

def EA_CTRL_PIN : Nat := 1
def TP_CTRL_PIN : Nat := 32

def POLL_TIMEOUT : Nat := 512

/-- The operator `~` on a `uint32_t` operand. -/
def not32 (x : Nat) : Nat := 0xFFFFFFFF ^^^ (x % 2 ^ 32)

def P1_OUT0_MASK : Nat :=
  BIT P1_TR_PIN ||| BIT P1_TL_PIN ||| BIT P1_R_PIN ||| BIT P1_L_PIN ||| BIT P1_D_PIN |||
    BIT P1_U_PIN

def P1_OUT1_MASK : Nat := 0

def P2_OUT0_MASK : Nat :=
  BIT P2_TR_PIN ||| BIT P2_R_PIN ||| BIT P2_L_PIN ||| BIT P2_D_PIN ||| BIT P2_U_PIN

def P2_OUT1_MASK : Nat := BIT (P2_TL_PIN - 32)

def SIX_BTNS_P1_C2_LO_MASK : Nat := not32 (BIT P1_D_PIN ||| BIT P1_U_PIN)
def SIX_BTNS_P2_C2_LO_MASK : Nat := not32 (BIT P2_D_PIN ||| BIT P2_U_PIN)
def SIX_BTNS_P1_C3_LO_MASK : Nat := BIT P1_D_PIN ||| BIT P1_U_PIN ||| BIT P1_L_PIN ||| BIT P1_R_PIN
def SIX_BTNS_P2_C3_LO_MASK : Nat := BIT P2_D_PIN ||| BIT P2_U_PIN ||| BIT P2_L_PIN ||| BIT P2_R_PIN

/-- The 32-bit word `*(uint32_t *)&wired_adapter.data[j].output[off]`: the four
bytes `output[off .. off + 3]` of logical port `j`, least significant byte
first (the byte order of the target). -/
def output_word (output : WiredData) (j off : Nat) : Nat :=
  output j off % 256 + 2 ^ 8 * (output j (off + 1) % 256) +
    2 ^ 16 * (output j (off + 2) % 256) + 2 ^ 24 * (output j (off + 3) % 256)

/-- The word `map1[k]`, with `map1 = (uint32_t *)wired_adapter.data[0].output`. -/
def map1 (output : WiredData) (k : Nat) : Nat := output_word output 0 (4 * k)

/-- The word `map2[k]`, with `map2 = (uint32_t *)wired_adapter.data[1].output`. -/
def map2 (output : WiredData) (k : Nat) : Nat := output_word output 1 (4 * k)

/-! ## EA multitap task -/

/-- The locals of `ea_genesis_task` and the hardware state. -/
structure EaState where
  g : Gpio
  cur_in0 : Nat
  prev_in0 : Nat
  change0 : Nat
  cur_in1 : Nat
  prev_in1 : Nat
  change1 : Nat
  id : Nat

/-- The inner loop of `ea_genesis_task`,
`while (!(change0 = cur_in0 ^ prev_in0) && !(change1 = cur_in1 ^ prev_in1))`,
run for at most `fuel` evaluations of its condition; `none` when no change of
either input register was seen within them. -/
def ea_wait (tr : Trace) : Nat → EaState → Option EaState
  | 0, _ => none
  | fuel + 1, st =>
    let change0 := st.cur_in0 ^^^ st.prev_in0
    if change0 ≠ 0 then some { st with change0 := change0 }
    else
      let change1 := st.cur_in1 ^^^ st.prev_in1
      if change1 ≠ 0 then some { st with change0 := change0, change1 := change1 }
      else
        let r0 := read_in tr st.g
        let r1 := read_in1 tr r0.2
        ea_wait tr fuel
          { st with change0 := change0, change1 := change1, prev_in0 := st.cur_in0,
                    prev_in1 := st.cur_in1, cur_in0 := r0.1, cur_in1 := r1.1, g := r1.2 }

/-- The `if` that follows the inner loop of `ea_genesis_task`: the store to
`GPIO.out` chosen from the sampled inputs. -/
def ea_select (output : WiredData) (st : EaState) : EaState :=
  if st.cur_in1 &&& BIT (P2_TH_PIN - 32) ≠ 0 then
    { st with g := st.g.set_out (map1 output 2) }
  else
    let id := ((st.cur_in0 &&& BIT P2_TR_PIN) >>> (P2_TR_PIN - 1)) |||
      ((st.cur_in1 &&& BIT (P2_TL_PIN - 32)) >>> (P2_TL_PIN - 32))
    if st.cur_in1 &&& BIT (P1_TH_PIN - 32) ≠ 0 then
      { st with id := id, g := st.g.set_out (output_word output id 0) }
    else
      { st with id := id, g := st.g.set_out (output_word output id 4) }

/-- One iteration of the `while (1)` of `ea_genesis_task`. -/
def ea_genesis_iter (tr : Trace) (output : WiredData) (fuel : Nat) (st : EaState) :
    Option EaState :=
  let r0 := read_in tr st.g
  let r1 := read_in1 tr r0.2
  (ea_wait tr fuel
    { st with prev_in0 := st.cur_in0, prev_in1 := st.cur_in1, cur_in0 := r0.1,
              cur_in1 := r1.1, g := r1.2 }).map (ea_select output)

/-- Function `ea_genesis_task`, run for `n` iterations of its `while (1)`. -/
def ea_genesis_task (tr : Trace) (output : WiredData) (fuel : Nat) (n : Nat) (s : Gpio) :
    Option EaState :=
  let r0 := read_in tr s
  let r1 := read_in1 tr r0.2
  (List.range n).foldl (fun st _ => st.bind (ea_genesis_iter tr output fuel))
    (some { g := r1.2, cur_in0 := r0.1, prev_in0 := 0, change0 := 0, cur_in1 := r1.1,
            prev_in1 := 0, change1 := 1, id := 0 })

/-- The inputs sampled by the EA task select sub-port 2: TR of port 2 is high
and TL of port 2 is low, with TH of port 2 low. -/
def ea_selects_two (st : EaState) : Prop :=
  st.cur_in0.testBit P2_TR_PIN = true ∧ st.cur_in1.testBit (P2_TL_PIN - 32) = false ∧
  st.cur_in1.testBit (P2_TH_PIN - 32) = false

instance (st : EaState) : Decidable (ea_selects_two st) := by
  unfold ea_selects_two
  infer_instance

/-- An EA task state that has sampled TR of port 2 high, TL and TH of port 2
low and the handshake line TH of port 1 high. -/
def ea_two_high : EaState :=
  { g := idle_low, cur_in0 := BIT P2_TR_PIN, prev_in0 := 0, change0 := BIT P2_TR_PIN,
    cur_in1 := BIT (P1_TH_PIN - 32), prev_in1 := BIT (P1_TH_PIN - 32), change1 := 0, id := 0 }

/-! ## Interrupt handler -/

/-- What one invocation of `sega_io_isr` leaves behind: the hardware state, the
scratch buffer, the values stored to `GPIO.status1_w1tc.intr_st` and
`GPIO.status_w1tc` (`none` when the store is skipped) and whether the `default`
branch printed its diagnostic. -/
structure IsrResult where
  g : Gpio
  buffer : Buffer
  status1_w1tc : Option Nat
  status_w1tc : Option Nat
  badtype : Bool

/-- The port selection at the head of `sega_io_isr`: `port` is initialised to
0 and the `if` / `else if` chain has no final `else`. -/
def isr_port (low_io high_io : Nat) : Nat :=
  if high_io &&& BIT (gpio_pin 0 SIO_TH - 32) ≠ 0 then 0
  else if high_io &&& BIT (gpio_pin 1 SIO_TH - 32) ≠ 0 then 1
  else if low_io &&& BIT (gpio_pin 0 SIO_TR) ≠ 0 then 0
  else if low_io &&& BIT (gpio_pin 1 SIO_TR) ≠ 0 then 1
  else 0

/-- The statement `if (!(GPIO.in1.val & BIT(gpio_pin[port][SIO_TH] - 32)))
switch (dev_type[port])` of `sega_io_isr` for the selected `port`; the last
component tells whether the `default` branch was taken. -/
def isr_dispatch (tr : Trace) (output : WiredData) (kb : KbQuery) (t : PortTable)
    (port : Nat) (len : Nat) (buffer : Buffer) (s : Gpio) : (Buffer × Gpio) × Bool :=
  let r := read_in1 tr s
  if r.1 &&& BIT (gpio_pin port SIO_TH - 32) = 0 then
    match t.dev_type port with
    | DEV_SATURN_DIGITAL_TWH =>
      (set_analog_digital_pad tr output port (t.mt_first_port port) buffer r.2, false)
    | DEV_SATURN_ANALOG =>
      (set_analog_pad tr output port (t.mt_first_port port) buffer r.2, false)
    | DEV_SATURN_MULTITAP =>
      (set_saturn_multitap tr output kb t.mt_dev_type port (t.mt_first_port port) MT_PORT_MAX
        buffer len r.2, false)
    | DEV_SATURN_KB =>
      (set_saturn_keyboard tr output kb port (t.mt_first_port port) buffer r.2, false)
    | _ => ((buffer, r.2), true)
  else ((buffer, r.2), false)

/-- Function `sega_io_isr`; `low_io` and `high_io` are the values read from
`GPIO.acpu_int` and `GPIO.acpu_int1.intr`, `len` the indeterminate initial
value of the local of that name in `set_saturn_multitap`. -/
def sega_io_isr (tr : Trace) (output : WiredData) (kb : KbQuery) (t : PortTable)
    (low_io high_io : Nat) (len : Nat) (buffer : Buffer) (s : Gpio) : IsrResult :=
  let port := isr_port low_io high_io
  let r := isr_dispatch tr output kb t port len buffer s
  { g := r.1.2, buffer := r.1.1,
    status1_w1tc := if high_io ≠ 0 then some high_io else none,
    status_w1tc := if low_io ≠ 0 then some low_io else none,
    badtype := r.2 }

/-- The latched interrupt status has none of the bits `sega_io_isr` inspects:
neither port's TH bit in `high_io`, neither port's TR bit in `low_io`. -/
def isr_spurious (low_io high_io : Nat) : Prop :=
  high_io &&& BIT (gpio_pin 0 SIO_TH - 32) = 0 ∧ high_io &&& BIT (gpio_pin 1 SIO_TH - 32) = 0 ∧
  low_io &&& BIT (gpio_pin 0 SIO_TR) = 0 ∧ low_io &&& BIT (gpio_pin 1 SIO_TR) = 0

instance (low_io high_io : Nat) : Decidable (isr_spurious low_io high_io) := by
  unfold isr_spurious
  infer_instance

/-- Saturn with multitap disabled and every logical port an alternate pad:
both ports resolve to the analog pad. -/
def two_analog_cfg : Config := { multitap_cfg := MT_NONE, out_cfg := fun _ => DEV_PAD_ALT }

/-- An input trace on which only TH of port 1 (bit 3 of `GPIO.in1.val`) is
high, at every read. -/
def th0_high : Trace := { in0 := fun _ => 0, in1 := fun _ => BIT 3 }

/-! ## Genesis polling task -/

/-- Program points of `sega_genesis_task`. Ports are numbered 0 (the code's
`p1`) and 1 (`p2`); the eight stores of a port's sequence are numbered in
program order: 0 Cycle0 low, 1 Cycle0 high, 2 Cycle1 low, 3 Cycle1 high,
4 Cycle2 low, 5 Cycle2 high, 6 Cycle3 low, 7 Cycle3 high.

* `wait_edge`: top of the `while (1)`;
* `edge_poll`: condition of the first, unbounded, inner `while`;
* `poll_start p`: the labels `p1_poll_start` / `p2_poll_start`;
* `cycle p k`: the stores of cycle write `k` of port `p`;
* `poll p k`: the bounded wait that follows cycle write `k` of port `p`;
* `next_poll`: the label `next_poll`. -/
inductive Pc where
  | wait_edge
  | edge_poll
  | poll_start (port : Nat)
  | cycle (port k : Nat)
  | poll (port k : Nat)
  | next_poll
  deriving DecidableEq, Repr

/-- The locals of `sega_genesis_task` (`timeout` is local to a wait), the
hardware state, the scratch buffer, the program point, and whether the other
core is stalled (`DPORT_STALL_OTHER_CPU_START` / `_END`). -/
structure GenState where
  g : Gpio
  buffer : Buffer
  pc : Pc
  lock : Nat
  stalled : Bool
  p1_out0 : Nat
  p1_out1 : Nat
  p2_out0 : Nat
  p2_out1 : Nat
  cur_in : Nat
  prev_in : Nat
  change : Nat

/-- The TH bit of a port in `GPIO.in1.val`: `BIT(P1_TH_PIN - 32)` or
`BIT(P2_TH_PIN - 32)`. -/
def TH_BIT (port : Nat) : Nat :=
  if port = 0 then BIT (P1_TH_PIN - 32) else BIT (P2_TH_PIN - 32)

/-- The masks `P1_OUT0_MASK` / `P2_OUT0_MASK` by port. -/
def OUT0_MASK (port : Nat) : Nat := if port = 0 then P1_OUT0_MASK else P2_OUT0_MASK

/-- The masks `P1_OUT1_MASK` / `P2_OUT1_MASK` by port. -/
def OUT1_MASK (port : Nat) : Nat := if port = 0 then P1_OUT1_MASK else P2_OUT1_MASK

/-- The words `map1[k]` / `map2[k]` by port. -/
def port_map (output : WiredData) (port k : Nat) : Nat :=
  if port = 0 then map1 output k else map2 output k

/-- The own-port operand of the store to `GPIO.out` in cycle write `k`. -/
def cycle_word0 (output : WiredData) (port k : Nat) : Nat :=
  match k with
  | 0 => port_map output port 1
  | 1 => port_map output port 0
  | 2 => port_map output port 1
  | 3 => port_map output port 0
  | 4 => port_map output port 1 &&&
      (if port = 0 then SIX_BTNS_P1_C2_LO_MASK else SIX_BTNS_P2_C2_LO_MASK)
  | 5 => port_map output port 2
  | 6 => port_map output port 1 |||
      (if port = 0 then SIX_BTNS_P1_C3_LO_MASK else SIX_BTNS_P2_C3_LO_MASK)
  | _ => port_map output port 0

/-- The own-port operand of the store to `GPIO.out1.val` in cycle write `k`. -/
def cycle_word1 (output : WiredData) (port k : Nat) : Nat :=
  match k with
  | 0 => port_map output port 4
  | 1 => port_map output port 3
  | 2 => port_map output port 4
  | 3 => port_map output port 3
  | 4 => port_map output port 4
  | 5 => port_map output port 5
  | 6 => port_map output port 4
  | _ => port_map output port 3

/-- The held image of the other port that a store to `GPIO.out` of `port`
is combined with: `p2_out0` for port 0, `p1_out0` for port 1. -/
def GenState.held0 (st : GenState) (port : Nat) : Nat :=
  if port = 0 then st.p2_out0 else st.p1_out0

/-- The held image of the other port that a store to `GPIO.out1.val` of `port`
is combined with. -/
def GenState.held1 (st : GenState) (port : Nat) : Nat :=
  if port = 0 then st.p2_out1 else st.p1_out1

/-- The two stores of cycle write `k` of `port`, e.g.
`GPIO.out = map1[1] & p2_out0; GPIO.out1.val = map1[4] & p2_out1;`. -/
def cycle_store (output : WiredData) (port k : Nat) (st : GenState) : GenState :=
  let g := st.g.set_out (cycle_word0 output port k &&& st.held0 port)
  let g := g.set_out1 (cycle_word1 output port k &&& st.held1 port)
  { st with g := g }

/-- The refresh of the writing port's held image, e.g.
`p1_out0 = GPIO.out | ~P1_OUT0_MASK; p1_out1 = GPIO.out1.val | ~P1_OUT1_MASK;`. -/
def refresh_image (port : Nat) (st : GenState) : GenState :=
  if port = 0 then
    { st with p1_out0 := st.g.out ||| not32 P1_OUT0_MASK,
              p1_out1 := st.g.out1 ||| not32 P1_OUT1_MASK }
  else
    { st with p2_out0 := st.g.out ||| not32 P2_OUT0_MASK,
              p2_out1 := st.g.out1 ||| not32 P2_OUT1_MASK }

/-- The statement `if (!lock) { DPORT_STALL_OTHER_CPU_START(); ++lock; }`. -/
def stall_start (st : GenState) : GenState :=
  if st.lock = 0 then { st with stalled := true, lock := (st.lock + 1) % 2 ^ 32 } else st

/-- The statement `if (lock) { DPORT_STALL_OTHER_CPU_END(); lock = 0; }`. -/
def stall_end (st : GenState) : GenState :=
  if st.lock ≠ 0 then { st with stalled := false, lock := 0 } else st

/-- Outcome of a bounded wait: the hardware state, the locals `cur_in`,
`prev_in`, `change`, and whether the wait left by `goto next_poll`. -/
structure PollResult where
  g : Gpio
  cur_in : Nat
  prev_in : Nat
  change : Nat
  timed_out : Bool

/-- The loop `while (!(change = cur_in ^ prev_in)) { prev_in = cur_in;
cur_in = GPIO.in1.val; if (++timeout > POLL_TIMEOUT) goto next_poll; }`,
entered with `timeout` at its current value. -/
def poll_loop (tr : Trace) (timeout prev_in cur_in : Nat) (g : Gpio) : PollResult :=
  if cur_in ^^^ prev_in ≠ 0 then
    { g := g, cur_in := cur_in, prev_in := prev_in, change := cur_in ^^^ prev_in,
      timed_out := false }
  else
    let r := read_in1 tr g
    if _h : timeout + 1 > POLL_TIMEOUT then
      { g := r.2, cur_in := r.1, prev_in := cur_in, change := cur_in ^^^ prev_in,
        timed_out := true }
    else
      poll_loop tr (timeout + 1) cur_in r.1 r.2
termination_by POLL_TIMEOUT + 1 - timeout
decreasing_by
  simp_wf
  omega

/-- A bounded wait: `timeout = 0; cur_in = prev_in = GPIO.in1.val;` followed by
the loop. -/
def poll_wait (tr : Trace) (g : Gpio) : PollResult :=
  let r := read_in1 tr g
  poll_loop tr 0 r.1 r.1 r.2

/-- Program point `wait_edge`: `timeout = 0; cur_in = prev_in = GPIO.in1.val;`. -/
def step_wait_edge (tr : Trace) (st : GenState) : GenState :=
  let r := read_in1 tr st.g
  { st with g := r.2, cur_in := r.1, prev_in := r.1, pc := Pc.edge_poll }

/-- Program point `edge_poll`: one evaluation of the condition of
`while (!(change = cur_in ^ prev_in))`, followed either by the loop body or by
the dispatch `if (change & BIT(P1_TH_PIN - 32)) ... else ...`. -/
def step_edge_poll (tr : Trace) (st : GenState) : GenState :=
  let change := st.cur_in ^^^ st.prev_in
  if change = 0 then
    let r := read_in1 tr st.g
    { st with g := r.2, change := change, prev_in := st.cur_in, cur_in := r.1 }
  else if change &&& BIT (P1_TH_PIN - 32) ≠ 0 then
    { st with change := change, pc := Pc.poll_start 0 }
  else
    { st with change := change, pc := Pc.poll_start 1 }

/-- Program point `poll_start port`: `if (cur_in & BIT(TH)) goto reverse_poll;`. -/
def step_poll_start (port : Nat) (st : GenState) : GenState :=
  if st.cur_in &&& TH_BIT port ≠ 0 then { st with pc := Pc.cycle port 1 }
  else { st with pc := Pc.cycle port 0 }

/-- The multitap branch behind the Cycle0 low write of a port whose type is
`DEV_GENESIS_MULTITAP`. -/
def step_multitap (tr : Trace) (output : WiredData) (t : PortTable) (port : Nat)
    (st : GenState) : GenState :=
  let st := { st with g := st.g.out1_w1ts (BIT (TP_CTRL_PIN - 32)) }
  let st := stall_end st
  let r := set_gen_multitap tr output t.mt_dev_type port (t.mt_first_port port)
    MT_GEN_PORT_MAX st.buffer st.g
  let r1 := read_in1 tr r.2
  let st := { st with buffer := r.1, g := r1.2 }
  if r1.1 &&& TH_BIT port ≠ 0 then
    { refresh_image port (cycle_store output port 1 st) with pc := Pc.next_poll }
  else
    { st with pc := Pc.poll port 0 }

/-- Program point `cycle port k`: the stores of the cycle write, the stall of
the other core (Cycle0 writes only), the refresh of the held image, and the
choice of what follows. -/
def step_cycle (tr : Trace) (output : WiredData) (t : PortTable) (port k : Nat)
    (st : GenState) : GenState :=
  let st := cycle_store output port k st
  let st := if k < 2 then stall_start st else st
  let st := refresh_image port st
  if k = 0 then
    if t.dev_type port = DEV_GENESIS_MULTITAP then step_multitap tr output t port st
    else { st with pc := Pc.poll port 0 }
  else if k = 2 then
    if t.dev_type port = DEV_GENESIS_6BTNS then { st with pc := Pc.poll port 2 }
    else { st with pc := Pc.next_poll }
  else if 7 ≤ k then { st with pc := Pc.next_poll }
  else { st with pc := Pc.poll port k }

/-- Program point `poll port k`: the bounded wait and the test
`if (change & BIT(TH of the other port)) goto` the other port's `poll_start`. -/
def step_poll (tr : Trace) (port k : Nat) (st : GenState) : GenState :=
  let r := poll_wait tr st.g
  let st := { st with g := r.g, cur_in := r.cur_in, prev_in := r.prev_in, change := r.change }
  if r.timed_out then { st with pc := Pc.next_poll }
  else if r.change &&& TH_BIT (1 - port) ≠ 0 then { st with pc := Pc.poll_start (1 - port) }
  else { st with pc := Pc.cycle port (k + 1) }

/-- Program point `next_poll`: `if (lock) { DPORT_STALL_OTHER_CPU_END();
lock = 0; }`, then the next iteration of the `while (1)`. -/
def step_next_poll (st : GenState) : GenState :=
  { stall_end st with pc := Pc.wait_edge }

/-- One step of `sega_genesis_task` from the program point of the state. -/
def genesis_step (tr : Trace) (output : WiredData) (t : PortTable) (st : GenState) :
    GenState :=
  match st.pc with
  | Pc.wait_edge => step_wait_edge tr st
  | Pc.edge_poll => step_edge_poll tr st
  | Pc.poll_start port => step_poll_start port st
  | Pc.cycle port k => step_cycle tr output t port k st
  | Pc.poll port k => step_poll tr port k st
  | Pc.next_poll => step_next_poll st

/-- The state in which `sega_genesis_task` enters its `while (1)`: `lock = 0`
and the four held images read back from the output registers. -/
def sega_genesis_task_init (g : Gpio) (buffer : Buffer) : GenState :=
  { g := g, buffer := buffer, pc := Pc.wait_edge, lock := 0, stalled := false,
    p1_out0 := g.out ||| not32 P1_OUT0_MASK, p1_out1 := g.out1 ||| not32 P1_OUT1_MASK,
    p2_out0 := g.out ||| not32 P2_OUT0_MASK, p2_out1 := g.out1 ||| not32 P2_OUT1_MASK,
    cur_in := 0, prev_in := 0, change := 0 }

/-- Function `sega_genesis_task`, run for `n` steps from state `st`. -/
def sega_genesis_task (tr : Trace) (output : WiredData) (t : PortTable) :
    Nat → GenState → GenState
  | 0, st => st
  | n + 1, st => sega_genesis_task tr output t n (genesis_step tr output t st)

/-- The bounded wait whose first read of `GPIO.in1.val` has number `n` reads
the same value `k` more times and then a different one, early enough for the
loop to leave through its condition: the change is seen in iteration `k + 1`,
and `k + 1 ≤ POLL_TIMEOUT`. -/
def poll_changes (tr : Trace) (n k : Nat) : Prop :=
  k < POLL_TIMEOUT ∧ (∀ i, i < k → tr.in1 (n + 1 + i) = tr.in1 n) ∧
  tr.in1 (n + 1 + k) ≠ tr.in1 n

/-- The bounded wait whose first read of `GPIO.in1.val` has number `n` reads
the same value in each of its first `POLL_TIMEOUT` iterations. -/
def poll_silent (tr : Trace) (n : Nat) : Prop :=
  ∀ i, i < POLL_TIMEOUT → tr.in1 (n + 1 + i) = tr.in1 n

/-- Cycle write `k` of port `p` is followed by a bounded wait: it is not the
last store of the sequence (Cycle3 high, or Cycle1 low of a port that is not a
6-button pad) and not the Cycle0 low write of a multitap port. -/
def continues (t : PortTable) (p k : Nat) : Prop :=
  k < 7 ∧ (k = 0 → t.dev_type p ≠ DEV_GENESIS_MULTITAP) ∧
  (k = 2 → t.dev_type p = DEV_GENESIS_6BTNS)

/-- The two register writes of cycle write `k` of port `p` when the held
images of the other port are `h0` and `h1`. -/
def cycle_writes (output : WiredData) (p h0 h1 k : Nat) : List RegWrite :=
  [RegWrite.out (cycle_word0 output p k &&& h0), RegWrite.out1 (cycle_word1 output p k &&& h1)]

/-- Each of the `m` consecutive bounded waits of port `port`, the first of
which starts with read number `n` of `GPIO.in1.val`, sees a change before its
timeout, and the TH bit of the other port is not among the changed bits. -/
def edges_in_time (tr : Trace) (port : Nat) : Nat → Nat → Prop
  | _, 0 => True
  | n, m + 1 =>
    ∃ k, poll_changes tr n k ∧
      (tr.in1 (n + 1 + k) ^^^ tr.in1 n) &&& TH_BIT (1 - port) = 0 ∧
      edges_in_time tr port (n + 1 + k + 1) m

/-- The state is at the dispatch of the first wait and has just sampled a
falling edge of TH of `port`: the changed bits include that TH bit and not the
other port's, and the sampled level is low. -/
def falling_edge (st : GenState) (port : Nat) : Prop :=
  st.pc = Pc.edge_poll ∧ (st.cur_in ^^^ st.prev_in) &&& TH_BIT port ≠ 0 ∧
  (st.cur_in ^^^ st.prev_in) &&& TH_BIT (1 - port) = 0 ∧ st.cur_in &&& TH_BIT port = 0

instance (tr : Trace) (n k : Nat) : Decidable (poll_changes tr n k) := by
  unfold poll_changes
  infer_instance

instance (st : GenState) (port : Nat) : Decidable (falling_edge st port) := by
  unfold falling_edge
  infer_instance

/-- An input trace on which TH of port 1 (bit 3 of `GPIO.in1.val`) is high at
the reads 0, 3, 4, 7, 8, ... and low at the reads 1, 2, 5, 6, ...: every second
read sees an edge of that line, and nothing else changes. -/
def p1_th_edges : Trace :=
  { in0 := fun _ => 0, in1 := fun k => if k % 4 = 0 ∨ k % 4 = 3 then BIT 3 else 0 }

/-- Genesis with multitap disabled and every logical port a pad: both ports
resolve to the 3-button pad. -/
def genesis_three_cfg : Config := { multitap_cfg := MT_NONE, out_cfg := fun _ => DEV_PAD }

/-- The task state two steps after its start on the trace `p1_th_edges`, with
all output lines low before: the first wait has read TH of port 1 high, then
low. -/
def after_p1_fall : GenState :=
  step_edge_poll p1_th_edges
    (step_wait_edge p1_th_edges (sega_genesis_task_init idle_low (fun _ => 0)))

/-- The statics the resolver leaves for `genesis_three_cfg`. -/
def genesis_three_table : PortTable :=
  sega_io_init_resolver GENESIS genesis_three_cfg PortTable.initial

/-- The other core is stalled exactly while `lock` is non-zero. -/
def lock_inv (st : GenState) : Prop := st.stalled = true ↔ st.lock ≠ 0

instance (st : GenState) : Decidable (lock_inv st) := by
  unfold lock_inv
  infer_instance

instance (tr : Trace) (n : Nat) : Decidable (poll_silent tr n) := by
  unfold poll_silent
  infer_instance

/-- A task state in the bounded wait behind the Cycle0 low write of port 1,
with the other core stalled. -/
def waiting_p1 : GenState :=
  { sega_genesis_task_init idle_low (fun _ => 0) with
    pc := Pc.poll 0 0, lock := 1, stalled := true }

/-- The port whose section of `sega_genesis_task` a program point belongs to. -/
def Pc.port : Pc → Option Nat
  | Pc.poll_start p => some p
  | Pc.cycle p _ => some p
  | Pc.poll p _ => some p
  | _ => none

/-- An input trace on which TH of port 2 (bit 4 of `GPIO.in1.val`) is low at
the first read and high from the second read on; nothing else changes. -/
def p2_th_rise : Trace := { in0 := fun _ => 0, in1 := fun k => if k = 0 then 0 else BIT 4 }

/-- An input trace on which only bit 2 of `GPIO.in1.val` (pin 34, no TH line)
changes: it is high at the reads 1, 2, 5, 6, ... and low at the others. Both TH
bits are low throughout. -/
def stray_edges : Trace :=
  { in0 := fun _ => 0, in1 := fun k => if k % 4 = 1 ∨ k % 4 = 2 then BIT 2 else 0 }

/-- The task state four steps after its start on the trace `stray_edges`, both
ports resolved as 3-button pads, all output lines low before. -/
def after_stray_change : GenState :=
  sega_genesis_task stray_edges scenario_output genesis_three_table 4
    (sega_genesis_task_init idle_low (fun _ => 0))

/-- A task state at the dispatch of the first wait that has sampled a change
of bit 2 of `GPIO.in1.val` only. -/
def stray_at_dispatch : GenState :=
  { sega_genesis_task_init idle_low (fun _ => 0) with
    pc := Pc.edge_poll, cur_in := BIT 2, prev_in := 0 }

/-- Every output-map word of a port has all bits outside the port's own output
mask set: the words 0..2, stored to `GPIO.out`, outside `P1_OUT0_MASK` /
`P2_OUT0_MASK`, the words 3..5, stored to `GPIO.out1.val`, outside
`P1_OUT1_MASK` / `P2_OUT1_MASK`. -/
def maps_ok (output : WiredData) : Prop :=
  ∀ p k i, p < 2 → k < 3 → i < 32 →
    ((OUT0_MASK p).testBit i = false → (port_map output p k).testBit i = true) ∧
    ((OUT1_MASK p).testBit i = false → (port_map output p (k + 3)).testBit i = true)

/-- Each held image agrees with its output register on the bits of its own
port's mask and has every other bit (of the 32) set. -/
def images_agree (st : GenState) : Prop :=
  ∀ i, i < 32 →
    st.p1_out0.testBit i = (!P1_OUT0_MASK.testBit i || st.g.out.testBit i) ∧
    st.p1_out1.testBit i = (!P1_OUT1_MASK.testBit i || st.g.out1.testBit i) ∧
    st.p2_out0.testBit i = (!P2_OUT0_MASK.testBit i || st.g.out.testBit i) ∧
    st.p2_out1.testBit i = (!P2_OUT1_MASK.testBit i || st.g.out1.testBit i)

/-- The program point of the state belongs to no port or to port 0 or 1. -/
def pc_ok (st : GenState) : Prop := ∀ p, st.pc.port = some p → p < 2

/-- A controller state with every output byte `0xFF` (all lines released). -/
def all_ones_output : WiredData := fun _ _ => 0xFF

/-! # Properties -/

/-! ## Frame assembly: single-device frames (C1) -/

theorem Buffer.set_apply (b : Buffer) (i v k : Nat) :
    (b.set i v) k = if k = i then v else b k := rfl

theorem memcpy_apply (b : Buffer) (dst : Nat) (src : Nat → Nat) (n k : Nat) :
    memcpy b dst src n k = if dst ≤ k ∧ k < dst + n then src (k - dst) else b k := rfl

theorem saturn_keyboard_frame_header (output : WiredData) (kb : KbQuery) (src_port : Nat)
    (buffer : Buffer) :
    (saturn_keyboard_frame output kb src_port buffer).buf 0
      = ((ID2_SATURN_KB <<< 4) ||| 4) % 256 := by
  unfold saturn_keyboard_frame
  cases kb src_port with
  | none => rfl
  | some code => simp [Buffer.set, memcpy]

/-- C1, amended: for `set_analog_digital_pad`, `set_analog_pad` and
`set_saturn_keyboard` the length handed to `twh_tx` is the low nibble of
`buffer[0]` plus one header byte plus one trailer byte; the nibble is 2, 6 and
4. For the two pads it is the number of payload bytes placed between header and
trailer, the 2 resp. 6 state bytes. For the keyboard the nibble and the length
do not depend on the scancode query: the frame always carries the 2 state bytes
and the two buffer cells behind them, and the nibble is the number of bytes
placed (2 state bytes and the scancode bytes) whenever the query yields 2
bytes, a queued 2-byte code or the fallback `0x06, 0x00` stored when none is
available. On every port and from every hardware state, what a builder hands to
`twh_tx` is this frame. -/
theorem single_frame_length (output : WiredData) (kb : KbQuery) (src_port : Nat)
    (buffer : Buffer) :
    (let f := analog_digital_pad_frame output src_port buffer
     f.len = f.buf 0 % 16 + 1 + 1 ∧ f.bytes.length = f.len ∧
     f.bytes = f.buf 0 :: state_bytes output src_port 2 ++ [TRAILER] ∧
     f.buf 0 % 16 = (state_bytes output src_port 2).length) ∧
    (let f := analog_pad_frame output src_port buffer
     f.len = f.buf 0 % 16 + 1 + 1 ∧ f.bytes.length = f.len ∧
     f.bytes = f.buf 0 :: state_bytes output src_port 6 ++ [TRAILER] ∧
     f.buf 0 % 16 = (state_bytes output src_port 6).length) ∧
    (let f := saturn_keyboard_frame output kb src_port buffer
     f.len = f.buf 0 % 16 + 1 + 1 ∧ f.bytes.length = f.len ∧ f.buf 0 % 16 = 2 + 2 ∧
     f.bytes = f.buf 0 :: (state_bytes output src_port 2 ++ [f.buf 3, f.buf 4]) ++ [TRAILER] ∧
     ((scancode_bytes kb src_port).length = 2 →
       f.bytes = f.buf 0 :: (state_bytes output src_port 2 ++ scancode_bytes kb src_port)
         ++ [TRAILER] ∧
       f.buf 0 % 16 = (state_bytes output src_port 2 ++ scancode_bytes kb src_port).length)) ∧
    (∀ (tr : Trace) (port : Nat) (s : Gpio),
      (set_analog_digital_pad tr output port src_port buffer s).2
        = send_frame tr port (analog_digital_pad_frame output src_port buffer) s ∧
      (set_analog_pad tr output port src_port buffer s).2
        = send_frame tr port (analog_pad_frame output src_port buffer) s ∧
      (set_saturn_keyboard tr output kb port src_port buffer s).2
        = send_frame tr port (saturn_keyboard_frame output kb src_port buffer) s ∧
      ∀ f : Frame, send_frame tr port f s
        = set_sio port SIO_TL 1 (tx_nibble port (ID0_SATURN_THREEWIRE_HANDSHAKE >>> 4)
            (twh_tx tr port f.bytes
              (tx_nibble port (ID0_SATURN_THREEWIRE_HANDSHAKE &&& 0xF) s)))) := by
  have hd : (((ID2_SATURN_PAD <<< 4) ||| 2) % 256) % 16 = 2 := by decide
  have ha : (((ID2_SATURN_ANALOG_PAD <<< 4) ||| 6) % 256) % 16 = 6 := by decide
  have hk : (((ID2_SATURN_KB <<< 4) ||| 4) % 256) % 16 = 4 := by decide
  have h0 : (saturn_keyboard_frame output kb src_port buffer).buf 0 % 16 = 4 := by
    rw [saturn_keyboard_frame_header, hk]
  refine ⟨⟨?_, rfl, rfl, ?_⟩, ⟨?_, rfl, rfl, ?_⟩, ⟨?_, ?_, ?_, ?_, ?_⟩,
    fun _ _ _ => ⟨rfl, rfl, rfl, fun _ => rfl⟩⟩
  · show 4 = (((ID2_SATURN_PAD <<< 4) ||| 2) % 256) % 16 + 1 + 1
    rw [hd]
  · show (((ID2_SATURN_PAD <<< 4) ||| 2) % 256) % 16 = _
    rw [hd]; rfl
  · show 8 = (((ID2_SATURN_ANALOG_PAD <<< 4) ||| 6) % 256) % 16 + 1 + 1
    rw [ha]
  · show (((ID2_SATURN_ANALOG_PAD <<< 4) ||| 6) % 256) % 16 = _
    rw [ha]; rfl
  · show 6 = _
    rw [h0]
  · simp [Frame.bytes, Buffer.bytes, saturn_keyboard_frame]
  · exact h0
  · unfold saturn_keyboard_frame
    cases kb src_port with
    | none => rfl
    | some code =>
      simp [Frame.bytes, Buffer.bytes, List.range_succ, Buffer.set, memcpy, state_bytes,
        TRAILER]
      decide
  · intro h
    rw [h0]
    unfold scancode_bytes at h ⊢
    cases hq : kb src_port with
    | none =>
      simp only [saturn_keyboard_frame, hq]
      exact ⟨rfl, rfl⟩
    | some code =>
      rw [hq] at h
      simp only at h
      match code, h with
      | [a, b], _ =>
        simp only [saturn_keyboard_frame, hq]
        exact ⟨rfl, rfl⟩

/-- Witness of C1: a keyboard with the two-byte code `0x80, 0x1C` queued. -/
theorem single_frame_length_witness :
    (scancode_bytes queued_scancode 0).length = 2 ∧
    (saturn_keyboard_frame scenario_output queued_scancode 0 (fun _ => 0)).bytes
      = [0x34, 0xA0, 0xA1, 0x80, 0x1C, 0x01] ∧
    (saturn_keyboard_frame scenario_output queued_scancode 0 (fun _ => 0)).buf 0 % 16
      = (state_bytes scenario_output 0 2 ++ scancode_bytes queued_scancode 0).length :=
  ⟨by decide, by decide,
    ((single_frame_length scenario_output queued_scancode 0 (fun _ => 0)).2.2.1.2.2.2.2
      (by decide)).2⟩

/-- C1, counterexample: a keyboard whose scancode query yields the single byte
`0x80`, on a buffer that held `0x77` everywhere. Three payload bytes are placed
behind the header (the 2 state bytes and the scancode byte), the cell
`buffer[4]` keeps its old content, yet the header's low nibble is 4 and six
bytes are handed to `twh_tx`. -/
theorem keyboard_nibble_not_placed_count :
    scancode_bytes one_byte_scancode 0 = [0x80] ∧
    (saturn_keyboard_frame scenario_output one_byte_scancode 0 (fun _ => 0x77)).bytes
      = [0x34, 0xA0, 0xA1, 0x80, 0x77, 0x01] ∧
    (saturn_keyboard_frame scenario_output one_byte_scancode 0 (fun _ => 0x77)).buf 0 % 16
      = 4 ∧
    (state_bytes scenario_output 0 2 ++ scancode_bytes one_byte_scancode 0).length = 3 ∧
    (saturn_keyboard_frame scenario_output one_byte_scancode 0 (fun _ => 0x77)).buf 0 % 16
      ≠ (state_bytes scenario_output 0 2 ++ scancode_bytes one_byte_scancode 0).length := by
  decide

/-! ## Frame assembly: the multitap body (C2) -/

theorem standalone_subframe_digital (output : WiredData) (kb : KbQuery) (j : Nat)
    (buffer : Buffer) (ty : DevType)
    (h : ty = DEV_SATURN_DIGITAL ∨ ty = DEV_SATURN_DIGITAL_TWH) :
    standalone_subframe output kb ty j buffer
      = [((ID2_SATURN_PAD <<< 4) ||| 2) % 256, output j 0, output j 1] := by
  rcases h with h | h <;> subst h <;> rfl

theorem standalone_subframe_analog (output : WiredData) (kb : KbQuery) (j : Nat)
    (buffer : Buffer) :
    standalone_subframe output kb DEV_SATURN_ANALOG j buffer
      = [((ID2_SATURN_ANALOG_PAD <<< 4) ||| 6) % 256, output j 0, output j 1, output j 2,
          output j 3, output j 4, output j 5] := rfl

theorem standalone_subframe_kb (output : WiredData) (kb : KbQuery) (j : Nat)
    (buffer : Buffer) (a b : Nat) (h : kb j = some [a, b]) :
    standalone_subframe output kb DEV_SATURN_KB j buffer
      = [((ID2_SATURN_KB <<< 4) ||| 4) % 256, output j 0, output j 1, a, b] := by
  simp only [standalone_subframe, saturn_keyboard_frame, h]
  rfl

/-- A sub-slot whose keyboard query (if it is a keyboard) returns a two-byte code
appends to the multitap buffer exactly the header and payload of its standalone
frame and leaves the bytes before the pointer alone. -/
theorem saturn_multitap_slot_subframe (output : WiredData) (kb : KbQuery) (ty : DevType)
    (j : Nat) (st : MtState) (buffer : Buffer)
    (hkb : ty = DEV_SATURN_KB → ∃ a b, kb j = some [a, b]) :
    (saturn_multitap_slot output kb ty j st).data
      = st.data + (standalone_subframe output kb ty j buffer).length ∧
    (∀ k, k < st.data → (saturn_multitap_slot output kb ty j st).buf k = st.buf k) ∧
    (∀ k, k < (standalone_subframe output kb ty j buffer).length →
      (saturn_multitap_slot output kb ty j st).buf (st.data + k)
        = (standalone_subframe output kb ty j buffer).getD k 0) := by
  cases ty
  case DEV_SATURN_DIGITAL =>
    rw [standalone_subframe_digital output kb j buffer _ (Or.inl rfl)]
    refine ⟨rfl, fun k hk => ?_, fun k hk => ?_⟩
    · simp only [saturn_multitap_slot, Buffer.set_apply, memcpy_apply]
      split_ifs <;> first | rfl | omega
    · simp only [List.length_cons, List.length_nil] at hk
      interval_cases k <;> simp [saturn_multitap_slot, Buffer.set_apply, memcpy_apply]
  case DEV_SATURN_DIGITAL_TWH =>
    rw [standalone_subframe_digital output kb j buffer _ (Or.inr rfl)]
    refine ⟨rfl, fun k hk => ?_, fun k hk => ?_⟩
    · simp only [saturn_multitap_slot, Buffer.set_apply, memcpy_apply]
      split_ifs <;> first | rfl | omega
    · simp only [List.length_cons, List.length_nil] at hk
      interval_cases k <;> simp [saturn_multitap_slot, Buffer.set_apply, memcpy_apply]
  case DEV_SATURN_ANALOG =>
    rw [standalone_subframe_analog]
    refine ⟨rfl, fun k hk => ?_, fun k hk => ?_⟩
    · simp only [saturn_multitap_slot, Buffer.set_apply, memcpy_apply]
      split_ifs <;> first | rfl | omega
    · simp only [List.length_cons, List.length_nil] at hk
      interval_cases k <;> simp [saturn_multitap_slot, Buffer.set_apply, memcpy_apply]
  case DEV_SATURN_KB =>
    obtain ⟨a, b, hab⟩ := hkb rfl
    rw [standalone_subframe_kb output kb j buffer a b hab]
    refine ⟨?_, fun k hk => ?_, fun k hk => ?_⟩
    · simp only [saturn_multitap_slot, hab]
      rfl
    · simp only [saturn_multitap_slot, hab, Buffer.set_apply, memcpy_apply]
      split_ifs <;> first | rfl | omega
    · simp only [List.length_cons, List.length_nil] at hk
      interval_cases k <;> simp [saturn_multitap_slot, hab, Buffer.set_apply, memcpy_apply]
      intro h
      omega
  all_goals exact ⟨rfl, fun _ _ => rfl, fun k hk => absurd hk (Nat.not_lt_zero k)⟩

/-- The loop of `set_saturn_multitap` appends the standalone sub-frames of its
slots in order, as long as every keyboard slot has a two-byte code queued. -/
theorem saturn_multitap_loop_subframes (output : WiredData) (kb : KbQuery)
    (ty : Nat → DevType) (first_port : Nat) (buffer : Buffer) (l : List Nat)
    (hkb : ∀ i, i ∈ l → ty i = DEV_SATURN_KB → ∃ a b, kb (first_port + i) = some [a, b]) :
    ∀ st : MtState,
      (l.foldl (fun st i => saturn_multitap_slot output kb (ty i) (first_port + i) st)
          st).data
        = st.data
          + (l.flatMap (fun i =>
              standalone_subframe output kb (ty i) (first_port + i) buffer)).length ∧
      (∀ k, k < st.data →
        (l.foldl (fun st i => saturn_multitap_slot output kb (ty i) (first_port + i) st)
          st).buf k = st.buf k) ∧
      (∀ k, k < (l.flatMap (fun i =>
            standalone_subframe output kb (ty i) (first_port + i) buffer)).length →
        (l.foldl (fun st i => saturn_multitap_slot output kb (ty i) (first_port + i) st)
          st).buf (st.data + k)
          = (l.flatMap (fun i =>
              standalone_subframe output kb (ty i) (first_port + i) buffer)).getD k 0) := by
  induction l with
  | nil =>
    intro st
    exact ⟨rfl, fun _ _ => rfl, fun k hk => absurd hk (Nat.not_lt_zero k)⟩
  | cons i l ih =>
    intro st
    obtain ⟨s1, s2, s3⟩ := saturn_multitap_slot_subframe output kb (ty i) (first_port + i) st
      buffer (hkb i (List.mem_cons_self i l))
    obtain ⟨r1, r2, r3⟩ := ih (fun i' hi' => hkb i' (List.mem_cons_of_mem i hi'))
      (saturn_multitap_slot output kb (ty i) (first_port + i) st)
    simp only [List.foldl_cons, List.flatMap_cons, List.length_append]
    refine ⟨by rw [r1, s1]; omega, fun k hk => ?_, fun k hk => ?_⟩
    · rw [r2 k (by rw [s1]; omega), s2 k hk]
    · by_cases hlt : k < (standalone_subframe output kb (ty i) (first_port + i) buffer).length
      · rw [r2 _ (by rw [s1]; omega), s3 k hlt, List.getD_append _ _ _ _ hlt]
      · have hge : (standalone_subframe output kb (ty i) (first_port + i) buffer).length ≤ k :=
          Nat.le_of_not_lt hlt
        rw [List.getD_append_right _ _ _ _ hge]
        have := r3 (k - (standalone_subframe output kb (ty i) (first_port + i) buffer).length)
          (by omega)
        rw [s1] at this
        rw [← this]
        congr 1
        omega

/-- Where every keyboard sub-slot has a two-byte scancode queued, the bytes
`set_saturn_multitap` assembles between its two leading bytes and its trailer
are the concatenation, in slot order, of header and payload of the standalone
frames of the slots (whatever buffer contents the standalone builders start
from). The multitap frame departs from this only through the fallback branch
of a keyboard slot. -/
theorem multitap_body_eq_standalone (output : WiredData) (kb : KbQuery)
    (mt_dev_type : Nat → Nat → DevType) (port first_port nb_port : Nat)
    (buffer : Buffer) (len : Nat) (buffer' : Buffer)
    (hkb : ∀ i, i < nb_port → mt_dev_type port i = DEV_SATURN_KB →
      ∃ a b, kb (first_port + i) = some [a, b]) :
    multitap_body
        (saturn_multitap_frame output kb mt_dev_type port first_port nb_port buffer len)
      = (List.range nb_port).flatMap (fun i =>
          standalone_subframe output kb (mt_dev_type port i) (first_port + i) buffer') := by
  obtain ⟨r1, _, r3⟩ := saturn_multitap_loop_subframes output kb (mt_dev_type port) first_port
    buffer' (List.range nb_port) (fun i hi => hkb i (List.mem_range.1 hi))
    { buf := (buffer.set 0 (((ID2_SATURN_MULTITAP <<< 4) ||| 1) % 256)).set 1
        ((nb_port <<< 4) % 256), data := 2, len := len }
  simp only at r1 r3
  unfold multitap_body Frame.bytes Buffer.bytes saturn_multitap_frame
  simp only
  rw [r1, Nat.add_assoc, List.range_add, List.map_append, List.drop_left' (by simp),
    List.range_succ, List.map_append, List.map_append]
  simp only [List.map_cons, List.map_nil, List.dropLast_concat, List.map_map]
  apply List.ext_getElem
  · simp
  · intro n h1 h2
    rw [List.getElem_map, List.getElem_range, Function.comp_apply, Buffer.set_apply,
      if_neg (by omega), r3 n h2, List.getD_eq_getElem _ _ h2]

/-- Scenario B with a two-byte code queued for the keyboard slot. -/
theorem multitap_body_eq_standalone_witness :
    (∀ i, i < MT_PORT_MAX → scenario_mt 0 i = DEV_SATURN_KB →
      ∃ a b, queued_scancode (0 + i) = some [a, b]) ∧
    multitap_body
        (saturn_multitap_frame scenario_output queued_scancode scenario_mt 0 0 MT_PORT_MAX
          (fun _ => 0) 2)
      = (List.range MT_PORT_MAX).flatMap (fun i =>
          standalone_subframe scenario_output queued_scancode (scenario_mt 0 i) (0 + i)
            (fun _ => 0)) :=
  have h : ∀ i, i < MT_PORT_MAX → scenario_mt 0 i = DEV_SATURN_KB →
      ∃ a b, queued_scancode (0 + i) = some [a, b] := fun _ _ _ => ⟨0x80, 0x1C, rfl⟩
  ⟨h, multitap_body_eq_standalone scenario_output queued_scancode scenario_mt 0 0 MT_PORT_MAX
    (fun _ => 0) 2 (fun _ => 0) h⟩

/-- The resolver types scenario B as the sub-slot table `scenario_mt` on hub
port 0. -/
theorem scenario_resolved :
    (sega_io_init_resolver SATURN scenario_cfg PortTable.initial).dev_type 0
      = DEV_SATURN_MULTITAP ∧
    (sega_io_init_resolver SATURN scenario_cfg PortTable.initial).mt_first_port 0 = 0 ∧
    ∀ i, i < MT_PORT_MAX →
      (sega_io_init_resolver SATURN scenario_cfg PortTable.initial).mt_dev_type 0 i
        = scenario_mt 0 i := by
  decide

/-- C2 (failing input): in scenario B with no scancode queued, the bytes between
the two leading bytes and the trailer of the multitap frame are not the
concatenation of the standalone sub-frames of the six slots. -/
theorem multitap_body_differs_from_standalone :
    multitap_body scenario_frame ≠
      (List.range MT_PORT_MAX).flatMap (fun i =>
        standalone_subframe scenario_output no_scancode (scenario_mt 0 i) (0 + i)
          (fun _ => 0)) := by
  decide

/-! ## Frame assembly: the keyboard fallback in a multitap frame (C3) -/

/-- Whatever the buffer, the pointer `data` (at least 2 inside the loop) and the
local `len` hold, the fallback branch of a keyboard sub-slot of
`set_saturn_multitap` stores `0x06, 0x00` at `buffer[3]`, `buffer[4]` and leaves
the slot's own scancode bytes, at offsets 3 and 4 from its header, as they
were. -/
theorem saturn_multitap_kb_fallback_positions (output : WiredData) (kb : KbQuery) (j : Nat)
    (st : MtState) (hk : kb j = none) (hd : 2 ≤ st.data) :
    (saturn_multitap_slot output kb DEV_SATURN_KB j st).buf 3 = 0x06 ∧
    (saturn_multitap_slot output kb DEV_SATURN_KB j st).buf 4 = 0x00 ∧
    (saturn_multitap_slot output kb DEV_SATURN_KB j st).buf (st.data + 3)
      = st.buf (st.data + 3) ∧
    (saturn_multitap_slot output kb DEV_SATURN_KB j st).buf (st.data + 4)
      = st.buf (st.data + 4) ∧
    (saturn_multitap_slot output kb DEV_SATURN_KB j st).data = st.data + 3 + st.len := by
  have hs : saturn_multitap_slot output kb DEV_SATURN_KB j st
      = { buf := ((memcpy (st.buf.set st.data (((ID2_SATURN_KB <<< 4) ||| 4) % 256))
            (st.data + 1) (output j) 2).set 3 0x06).set 4 0x00,
          data := st.data + 1 + 2 + st.len, len := st.len } := by
    simp only [saturn_multitap_slot, hk]
  rw [hs]
  refine ⟨rfl, rfl, ?_, ?_, rfl⟩
  · simp only [Buffer.set_apply, memcpy_apply]
    split_ifs <;> first | rfl | omega
  · simp only [Buffer.set_apply, memcpy_apply]
    split_ifs <;> first | rfl | omega

/-- C3 (failing input): in scenario B with no scancode queued, the sub-frame of
keyboard slot 3 (frame bytes 15..19) carries in its two scancode bytes what the
buffer held before, not `0x06, 0x00`; the fallback bytes stand at `buffer[3]`,
`buffer[4]`, the state bytes of slot 0, whereas `set_saturn_keyboard` puts them
in the scancode bytes of its own frame. -/
theorem multitap_keyboard_fallback_misplaced :
    (scenario_frame.bytes.drop 15).take 5 = [0x34, 0xD0, 0xD1, 0x00, 0x00] ∧
    (scenario_frame.bytes.drop 18).take 2 ≠ [0x06, 0x00] ∧
    (scenario_frame.bytes.drop 2).take 3 = [0x02, 0x06, 0x00] ∧
    ((saturn_keyboard_frame scenario_output no_scancode 3 (fun _ => 0)).bytes.drop 3).take 2
      = [0x06, 0x00] := by
  decide

/-! ## Frame assembly: the multitap header (C4) -/

theorem saturn_multitap_slot_low (output : WiredData) (kb : KbQuery) (ty : DevType) (j : Nat)
    (st : MtState) (h : 2 ≤ st.data) :
    2 ≤ (saturn_multitap_slot output kb ty j st).data ∧
    ∀ k, k < 2 → (saturn_multitap_slot output kb ty j st).buf k = st.buf k := by
  unfold saturn_multitap_slot
  split
  · refine ⟨by dsimp only; omega, fun k hk => ?_⟩
    simp only [Buffer.set_apply, memcpy_apply]
    split_ifs <;> first | rfl | omega
  · refine ⟨by dsimp only; omega, fun k hk => ?_⟩
    simp only [Buffer.set_apply, memcpy_apply]
    split_ifs <;> first | rfl | omega
  · refine ⟨by dsimp only; omega, fun k hk => ?_⟩
    simp only [Buffer.set_apply, memcpy_apply]
    split_ifs <;> first | rfl | omega
  · split
    · refine ⟨by dsimp only; omega, fun k hk => ?_⟩
      simp only [Buffer.set_apply, memcpy_apply]
      split_ifs <;> first | rfl | omega
    · refine ⟨by dsimp only; omega, fun k hk => ?_⟩
      simp only [Buffer.set_apply, memcpy_apply]
      split_ifs <;> first | rfl | omega
  · exact ⟨h, fun _ _ => rfl⟩

theorem saturn_multitap_loop_low (output : WiredData) (kb : KbQuery) (ty : Nat → DevType)
    (first_port : Nat) (l : List Nat) :
    ∀ st : MtState, 2 ≤ st.data →
      2 ≤ (l.foldl (fun st i => saturn_multitap_slot output kb (ty i) (first_port + i) st)
        st).data ∧
      ∀ k, k < 2 →
        (l.foldl (fun st i => saturn_multitap_slot output kb (ty i) (first_port + i) st)
          st).buf k = st.buf k := by
  induction l with
  | nil => intro st h; exact ⟨h, fun _ _ => rfl⟩
  | cons i l ih =>
    intro st h
    have h1 := saturn_multitap_slot_low output kb (ty i) (first_port + i) st h
    have h2 := ih _ h1.1
    simp only [List.foldl_cons]
    exact ⟨h2.1, fun k hk => (h2.2 k hk).trans (h1.2 k hk)⟩

/-- C4 (amended): in every frame assembled by `set_saturn_multitap` the low
nibble of `buffer[0]` is 1 and its high nibble is `ID2_SATURN_MULTITAP`; the
sub-slot count is carried by the second byte, `buffer[1] = nb_port << 4`, whose
high nibble is `nb_port` and whose low nibble is 0 for `nb_port < 16`. -/
theorem saturn_multitap_header (output : WiredData) (kb : KbQuery)
    (mt_dev_type : Nat → Nat → DevType) (port first_port nb_port : Nat) (buffer : Buffer)
    (len : Nat) :
    let f := saturn_multitap_frame output kb mt_dev_type port first_port nb_port buffer len
    f.buf 0 % 16 = 1 ∧ f.buf 0 / 16 = ID2_SATURN_MULTITAP ∧
    f.buf 1 = (nb_port <<< 4) % 256 ∧
    (nb_port < 16 → f.buf 1 / 16 = nb_port ∧ f.buf 1 % 16 = 0) := by
  intro f
  have hl := saturn_multitap_loop_low output kb (mt_dev_type port) first_port
    (List.range nb_port)
    { buf := (buffer.set 0 (((ID2_SATURN_MULTITAP <<< 4) ||| 1) % 256)).set 1
        ((nb_port <<< 4) % 256), data := 2, len := len } (Nat.le_refl 2)
  have hd := hl.1
  have h0 : f.buf 0 = ((ID2_SATURN_MULTITAP <<< 4) ||| 1) % 256 := by
    show Buffer.set _ _ _ 0 = _
    rw [Buffer.set_apply, if_neg (by omega), hl.2 0 (by omega)]
    rfl
  have h1 : f.buf 1 = (nb_port <<< 4) % 256 := by
    show Buffer.set _ _ _ 1 = _
    rw [Buffer.set_apply, if_neg (by omega), hl.2 1 (by omega)]
    rfl
  refine ⟨by rw [h0]; decide, by rw [h0]; decide, h1, fun hn => ?_⟩
  rw [h1, Nat.shiftLeft_eq]
  constructor <;> omega

/-- C4 (counterexample): in scenario B the low nibble of `buffer[0]` is not the
sub-slot count 6. -/
theorem saturn_multitap_header_low_nibble_not_count :
    ¬ (scenario_frame.buf 0 % 16 = MT_PORT_MAX) := by
  decide

/-- Witness of C4: scenario B, `nb_port = 6`. -/
theorem saturn_multitap_header_witness :
    MT_PORT_MAX < 16 ∧ scenario_frame.buf 0 % 16 = 1 ∧ scenario_frame.buf 1 / 16 = MT_PORT_MAX ∧
    scenario_frame.buf 1 % 16 = 0 :=
  ⟨by decide,
    (saturn_multitap_header scenario_output no_scancode scenario_mt 0 0 MT_PORT_MAX
      (fun _ => 0) 2).1,
    (saturn_multitap_header scenario_output no_scancode scenario_mt 0 0 MT_PORT_MAX
      (fun _ => 0) 2).2.2.2 (by decide)⟩

/-! ## Frame assembly: extent of the writes (C5) -/

/-- The resolver types six alternate pads behind a hub on port 1 as six analog
sub-slots. -/
theorem six_analog_resolved :
    (sega_io_init_resolver SATURN six_analog_cfg PortTable.initial).dev_type 0
      = DEV_SATURN_MULTITAP ∧
    ∀ i, i < MT_PORT_MAX →
      (sega_io_init_resolver SATURN six_analog_cfg PortTable.initial).mt_dev_type 0 i
        = DEV_SATURN_ANALOG := by
  decide

/-- C5 (failing input): with six analog sub-slots `set_saturn_multitap` assembles
45 bytes, more than the 36 bytes of `buffer`; the trailer is stored at index 44. -/
theorem saturn_multitap_overruns_buffer :
    six_analog_frame.len = 45 ∧ BUFFER_SIZE < six_analog_frame.len ∧
    six_analog_frame.buf 44 = TRAILER := by
  decide

/-! ## Output lines -/

theorem and_mask_ne_zero (n k : Nat) : (n &&& 2 ^ k ≠ 0) ↔ n.testBit k = true := by
  rw [Nat.and_two_pow]
  cases n.testBit k <;> simp

theorem drive_step (port sio : Nat) (h : gpio_pin port sio < 32) (c : Prop) [Decidable c]
    (b : Bool) (hcb : c ↔ b = true) (s : Gpio) :
    (if c then s.out_w1ts (BIT (gpio_pin port sio)) else s.out_w1tc (BIT (gpio_pin port sio)))
      = apply_write s (drive port sio b) := by
  unfold drive
  rw [if_pos h]
  cases b with
  | true => rw [if_pos (hcb.2 rfl)]; rfl
  | false =>
    rw [if_neg (fun hc => Bool.noConfusion (hcb.1 hc))]
    rfl

theorem tx_nibble_eq (port data : Nat) (hp : port < 2) (s : Gpio) :
    tx_nibble port data s = (nibble_writes port data).foldl apply_write s := by
  have e8 : data &&& 8 ≠ 0 ↔ data.testBit 3 = true := and_mask_ne_zero data 3
  have e4 : data &&& 4 ≠ 0 ↔ data.testBit 2 = true := and_mask_ne_zero data 2
  have e2 : data &&& 2 ≠ 0 ↔ data.testBit 1 = true := and_mask_ne_zero data 1
  have e1 : data &&& 1 ≠ 0 ↔ data.testBit 0 = true := and_mask_ne_zero data 0
  have hR : gpio_pin port SIO_R < 32 := by interval_cases port <;> decide
  have hL : gpio_pin port (SIO_R + 1) < 32 := by interval_cases port <;> decide
  have hD : gpio_pin port (SIO_R + 1 + 1) < 32 := by interval_cases port <;> decide
  have hU : gpio_pin port (SIO_R + 1 + 1 + 1) < 32 := by interval_cases port <;> decide
  have hr : (8 : Nat) >>> 1 = 4 := by decide
  have hr2 : (4 : Nat) >>> 1 = 2 := by decide
  have hr3 : (2 : Nat) >>> 1 = 1 := by decide
  have hr4 : (1 : Nat) >>> 1 = 0 := by decide
  unfold tx_nibble
  rw [tx_nibble_loop, dif_neg (by decide), hr, tx_nibble_loop, dif_neg (by decide), hr2,
    tx_nibble_loop, dif_neg (by decide), hr3, tx_nibble_loop, dif_neg (by decide), hr4,
    tx_nibble_loop, dif_pos rfl]
  rw [drive_step port SIO_R hR _ _ e8, drive_step port (SIO_R + 1) hL _ _ e4,
    drive_step port (SIO_R + 1 + 1) hD _ _ e2, drive_step port (SIO_R + 1 + 1 + 1) hU _ _ e1]
  rfl

theorem set_sio_one (port sio : Nat) (s : Gpio) :
    set_sio port sio 1 s = apply_write s (drive port sio true) := by
  unfold set_sio drive
  by_cases h : gpio_pin port sio < 32 <;> simp [h, apply_write]

theorem set_sio_zero (port sio : Nat) (s : Gpio) :
    set_sio port sio 0 s = apply_write s (drive port sio false) := by
  unfold set_sio drive
  by_cases h : gpio_pin port sio < 32 <;> simp [h, apply_write]

theorem testBit_BIT (p q : Nat) : (BIT p).testBit q = decide (p = q) := by
  rw [BIT, Nat.one_shiftLeft, Nat.testBit_two_pow]

theorem testBit_clear_bit (x p q : Nat) :
    (clear_bits x (BIT p)).testBit q = (x.testBit q && !decide (p = q)) := by
  rw [clear_bits, Nat.testBit_xor, Nat.testBit_and, BIT, Nat.one_shiftLeft, Nat.testBit_two_pow]
  cases x.testBit q <;> cases decide (p = q) <;> rfl

/-- Driving a line sets its level. -/
theorem sio_level_drive (port sio : Nat) (level : Bool) (s : Gpio) :
    sio_level port sio (apply_write s (drive port sio level)) = level := by
  unfold sio_level drive
  by_cases h : gpio_pin port sio < 32 <;> cases level <;>
    simp [h, apply_write, Gpio.out_w1ts, Gpio.out_w1tc, Gpio.out1_w1ts, Gpio.out1_w1tc,
      testBit_BIT, testBit_clear_bit]

/-- Driving one of the output lines TL, R, L, D, U of a port leaves the other
four at their level. -/
theorem sio_level_drive_other (port sio sio' : Nat) (level : Bool) (s : Gpio) (hp : port < 2)
    (h1 : SIO_TL ≤ sio ∧ sio ≤ SIO_U) (h2 : SIO_TL ≤ sio' ∧ sio' ≤ SIO_U) (hne : sio' ≠ sio) :
    sio_level port sio' (apply_write s (drive port sio level)) = sio_level port sio' s := by
  obtain ⟨h1a, h1b⟩ := h1
  obtain ⟨h2a, h2b⟩ := h2
  unfold SIO_TL at h1a h2a
  unfold SIO_U at h1b h2b
  interval_cases port <;> interval_cases sio <;> interval_cases sio' <;>
    first
    | exact absurd rfl hne
    | (cases level <;>
        simp [sio_level, drive, gpio_pin, apply_write, Gpio.out_w1ts, Gpio.out_w1tc,
          Gpio.out1_w1ts, Gpio.out1_w1tc, testBit_BIT, testBit_clear_bit])

theorem twh_wait_bound (tr : Trace) (port : Nat) (while_high : Bool) :
    ∀ d timeout (s : Gpio), timeout ≤ TWH_TIMEOUT + 1 → TWH_TIMEOUT + 1 - timeout ≤ d →
      s.n_in + 1 ≤ (twh_wait tr port while_high timeout s).2.n_in ∧
      (twh_wait tr port while_high timeout s).2.n_in ≤ s.n_in + (TWH_TIMEOUT + 2 - timeout) ∧
      (twh_wait tr port while_high timeout s).2.n_in1 ≤ s.n_in1 + (TWH_TIMEOUT + 2 - timeout) ∧
      (twh_wait tr port while_high timeout s).2.out = s.out ∧
      (twh_wait tr port while_high timeout s).2.out1 = s.out1 ∧
      (twh_wait tr port while_high timeout s).2.log = s.log := by
  intro d
  induction d with
  | zero =>
    intro timeout s h1 h2
    rw [twh_wait]
    simp only [read_in, read_in1]
    split_ifs with ha hb
    · refine ⟨?_, ?_, ?_, rfl, rfl, rfl⟩ <;> dsimp only <;> omega
    · exfalso
      simp only [not_or, not_lt] at hb
      omega
    · refine ⟨?_, ?_, ?_, rfl, rfl, rfl⟩ <;> dsimp only <;> omega
  | succ d ih =>
    intro timeout s h1 h2
    rw [twh_wait]
    simp only [read_in, read_in1]
    split_ifs with ha hb
    · refine ⟨?_, ?_, ?_, rfl, rfl, rfl⟩ <;> dsimp only <;> omega
    · simp only [not_or, not_lt] at hb
      have := ih (timeout + 1) { s with n_in := s.n_in + 1, n_in1 := s.n_in1 + 1 }
        (by omega) (by omega)
      obtain ⟨a, b, c, e, f, g⟩ := this
      refine ⟨?_, ?_, ?_, e, f, g⟩
      · dsimp only at a; omega
      · dsimp only at b; omega
      · dsimp only at c; omega
    · refine ⟨?_, ?_, ?_, rfl, rfl, rfl⟩ <;> dsimp only <;> omega

theorem twh_wait_timeout (tr : Trace) (port : Nat) (while_high : Bool) (hth : th_low tr port)
    (hstuck : ∀ m, (tr.in0 m &&& BIT (gpio_pin port SIO_TR) != 0) = while_high) :
    ∀ d timeout (s : Gpio), timeout + d = TWH_TIMEOUT + 1 →
      twh_wait tr port while_high timeout s
        = (false, { s with n_in := s.n_in + d + 1, n_in1 := s.n_in1 + d + 1 }) := by
  intro d
  induction d with
  | zero =>
    intro timeout s h
    rw [twh_wait]
    simp only [read_in, read_in1]
    rw [if_pos (hstuck _), dif_pos (Or.inr (by omega))]
  | succ d ih =>
    intro timeout s h
    rw [twh_wait]
    simp only [read_in, read_in1]
    rw [if_pos (hstuck _), dif_neg (by rw [hth]; simp only [ne_eq, not_true_eq_false, false_or, not_lt]; omega)]
    rw [ih (timeout + 1) _ (by omega)]
    simp only [Prod.mk.injEq, true_and]
    congr 1 <;> omega

theorem twh_wait_ok (tr : Trace) (port : Nat) (while_high : Bool) (hth : th_low tr port) :
    ∀ k timeout (s : Gpio), timeout + k ≤ TWH_TIMEOUT + 1 →
      (∀ j, j < k →
        (tr.in0 (s.n_in + j) &&& BIT (gpio_pin port SIO_TR) != 0) = while_high) →
      (tr.in0 (s.n_in + k) &&& BIT (gpio_pin port SIO_TR) != 0) = (!while_high) →
      twh_wait tr port while_high timeout s
        = (true, { s with n_in := s.n_in + k + 1, n_in1 := s.n_in1 + k }) := by
  intro k
  induction k with
  | zero =>
    intro timeout s _ _ h3
    rw [twh_wait]
    simp only [read_in, Nat.add_zero] at h3 ⊢
    rw [if_neg (by rw [h3]; cases while_high <;> decide)]
  | succ k ih =>
    intro timeout s h1 h2 h3
    rw [twh_wait]
    simp only [read_in, read_in1]
    have h0 := h2 0 (Nat.succ_pos k)
    rw [Nat.add_zero] at h0
    rw [if_pos h0, dif_neg (by rw [hth]; simp only [ne_eq, not_true_eq_false, false_or, not_lt]; omega)]
    rw [ih (timeout + 1) _ (by omega)
      (fun j hj => by
        have := h2 (j + 1) (by omega)
        simpa only [Nat.add_assoc, Nat.add_comm 1 j] using this)
      (by simpa only [Nat.add_assoc, Nat.add_comm 1 k] using h3)]
    simp only [Prod.mk.injEq, true_and]
    congr 1 <;> omega

theorem apply_write_with_reads (s : Gpio) (n n1 : Nat) (w : RegWrite) :
    apply_write (with_reads s n n1) w = with_reads (apply_write s w) n n1 := by
  cases w <;> rfl

theorem foldl_apply_write_with_reads (ws : List RegWrite) :
    ∀ (s : Gpio) (n n1 : Nat),
      ws.foldl apply_write (with_reads s n n1) = with_reads (ws.foldl apply_write s) n n1 := by
  induction ws with
  | nil => intro s n n1; rfl
  | cons w ws ih =>
    intro s n n1
    rw [List.foldl_cons, List.foldl_cons, apply_write_with_reads, ih]

theorem foldl_apply_write_reads (ws : List RegWrite) :
    ∀ s : Gpio, (ws.foldl apply_write s).n_in = s.n_in ∧
      (ws.foldl apply_write s).n_in1 = s.n_in1 ∧
      (ws.foldl apply_write s).log = s.log ++ ws := by
  induction ws with
  | nil => intro s; simp
  | cons w ws ih =>
    intro s
    obtain ⟨a, b, c⟩ := ih (apply_write s w)
    rw [List.foldl_cons, a, b, c]
    cases w <;> simp [apply_write, Gpio.out_w1ts, Gpio.out_w1tc, Gpio.out1_w1ts, Gpio.out1_w1tc,
      Gpio.set_out, Gpio.set_out1]

theorem shiftRight_four (b : Nat) : b >>> 4 = b / 16 := by
  rw [Nat.shiftRight_eq_div_pow]

theorem and_fifteen (b : Nat) : b &&& 0xF = b % 16 :=
  Nat.and_pow_two_sub_one_eq_mod b 4

/-- One iteration of the loop of `twh_tx` whose two waits are satisfied. -/
theorem twh_tx_cons (tr : Trace) (port : Nat) (hp : port < 2) (hth : th_low tr port)
    (b : Nat) (rest : List Nat) (s : Gpio) (k1 k2 : Nat)
    (h1 : wait_satisfied tr port true s.n_in k1)
    (h2 : wait_satisfied tr port false (s.n_in + k1 + 1) k2) :
    twh_tx tr port (b :: rest) s
      = twh_tx tr port rest
          (with_reads ((byte_writes port b).foldl apply_write s)
            (s.n_in + k1 + 1 + k2 + 1) (s.n_in1 + k1 + k2)) := by
  have w1 := twh_wait_ok tr port true hth k1 0 s (by have := h1.1; omega) h1.2.1 h1.2.2
  rw [twh_tx, w1]
  simp only
  rw [tx_nibble_eq port _ hp, set_sio_zero, shiftRight_four]
  have e1 : ({ s with n_in := s.n_in + k1 + 1, n_in1 := s.n_in1 + k1 } : Gpio)
      = with_reads s (s.n_in + k1 + 1) (s.n_in1 + k1) := rfl
  rw [e1, foldl_apply_write_with_reads, apply_write_with_reads]
  have w2 := twh_wait_ok tr port false hth k2 0
    (with_reads (apply_write ((nibble_writes port (b / 16)).foldl apply_write s)
      (drive port SIO_TL false)) (s.n_in + k1 + 1) (s.n_in1 + k1))
    (by have := h2.1; omega) h2.2.1 h2.2.2
  rw [w2]
  simp only
  rw [tx_nibble_eq port _ hp, set_sio_one, and_fifteen]
  have e2 : ∀ t : Gpio, ({ with_reads t (s.n_in + k1 + 1) (s.n_in1 + k1) with
        n_in := (with_reads t (s.n_in + k1 + 1) (s.n_in1 + k1)).n_in + k2 + 1,
        n_in1 := (with_reads t (s.n_in + k1 + 1) (s.n_in1 + k1)).n_in1 + k2 } : Gpio)
      = with_reads t (s.n_in + k1 + 1 + k2 + 1) (s.n_in1 + k1 + k2) := fun _ => rfl
  rw [e2, foldl_apply_write_with_reads, apply_write_with_reads]
  simp only [byte_writes, List.foldl_append, List.foldl_cons, List.foldl_nil]

theorem twh_tx_ok (tr : Trace) (port : Nat) (hp : port < 2) (hth : th_low tr port) :
    ∀ (data : List Nat) (s : Gpio), acks_in_time tr port s.n_in data.length →
      ∃ n n1, twh_tx tr port data s
        = with_reads ((data.flatMap (byte_writes port)).foldl apply_write s) n n1 := by
  intro data
  induction data with
  | nil => intro s _; exact ⟨s.n_in, s.n_in1, rfl⟩
  | cons b rest ih =>
    intro s hack
    obtain ⟨k1, k2, h1, h2, h3⟩ := hack
    rw [twh_tx_cons tr port hp hth b rest s k1 k2 h1 h2]
    obtain ⟨n, n1, h⟩ := ih (with_reads ((byte_writes port b).foldl apply_write s)
      (s.n_in + k1 + 1 + k2 + 1) (s.n_in1 + k1 + k2)) h3
    refine ⟨n, n1, ?_⟩
    rw [h, foldl_apply_write_with_reads, List.flatMap_cons, List.foldl_append]
    rfl

theorem sio_level_with_reads (port sio : Nat) (s : Gpio) (n n1 : Nat) :
    sio_level port sio (with_reads s n n1) = sio_level port sio s := rfl

theorem flatMap_byte_writes_last (port : Nat) (data : List Nat) (h : data ≠ []) :
    ∃ ws, data.flatMap (byte_writes port) = ws ++ [drive port SIO_TL true] := by
  obtain ⟨b, hb⟩ : ∃ b, data = data.dropLast ++ [b] :=
    ⟨data.getLast h, (List.dropLast_append_getLast h).symm⟩
  rw [hb, List.flatMap_append]
  refine ⟨data.dropLast.flatMap (byte_writes port) ++
    (nibble_writes port (b / 16) ++ [drive port SIO_TL false] ++ nibble_writes port (b % 16)), ?_⟩
  simp [byte_writes]

theorem flatMap_byte_writes_length (port : Nat) (data : List Nat) :
    (data.flatMap (byte_writes port)).length = 2 * (4 + 1) * data.length := by
  induction data with
  | nil => rfl
  | cons b rest ih =>
    rw [List.flatMap_cons, List.length_append, ih, List.length_cons]
    simp only [byte_writes, nibble_writes, List.length_append, List.length_cons,
      List.length_nil]
    omega

theorem nibble_writes_levels (port : Nat) (hp : port < 2) (nib : Nat) (t : Gpio) :
    sio_level port SIO_R ((nibble_writes port nib).foldl apply_write t) = nib.testBit 3 ∧
    sio_level port SIO_L ((nibble_writes port nib).foldl apply_write t) = nib.testBit 2 ∧
    sio_level port SIO_D ((nibble_writes port nib).foldl apply_write t) = nib.testBit 1 ∧
    sio_level port SIO_U ((nibble_writes port nib).foldl apply_write t) = nib.testBit 0 ∧
    sio_level port SIO_TL ((nibble_writes port nib).foldl apply_write t)
      = sio_level port SIO_TL t := by
  simp only [nibble_writes, List.foldl_cons, List.foldl_nil]
  refine ⟨?_, ?_, ?_, ?_, ?_⟩
  · rw [sio_level_drive_other port SIO_U SIO_R _ _ hp (by decide) (by decide) (by decide),
      sio_level_drive_other port SIO_D SIO_R _ _ hp (by decide) (by decide) (by decide),
      sio_level_drive_other port SIO_L SIO_R _ _ hp (by decide) (by decide) (by decide),
      sio_level_drive]
  · rw [sio_level_drive_other port SIO_U SIO_L _ _ hp (by decide) (by decide) (by decide),
      sio_level_drive_other port SIO_D SIO_L _ _ hp (by decide) (by decide) (by decide),
      sio_level_drive]
  · rw [sio_level_drive_other port SIO_U SIO_D _ _ hp (by decide) (by decide) (by decide),
      sio_level_drive]
  · rw [sio_level_drive]
  · rw [sio_level_drive_other port SIO_U SIO_TL _ _ hp (by decide) (by decide) (by decide),
      sio_level_drive_other port SIO_D SIO_TL _ _ hp (by decide) (by decide) (by decide),
      sio_level_drive_other port SIO_L SIO_TL _ _ hp (by decide) (by decide) (by decide),
      sio_level_drive_other port SIO_R SIO_TL _ _ hp (by decide) (by decide) (by decide)]

/-- C7 (amended): on a port in {0, 1}, for every byte sequence and every input
trace on which TH stays low and every acknowledgment wait is satisfied in time,
the register writes of `twh_tx` are exactly, byte after byte: the high nibble
on R, L, D, U (bits 3, 2, 1, 0), TL low, the low nibble on the same lines, TL
high; the output registers are those writes applied in order, `2 * len` nibbles
of four line writes each, every one followed by a write of TL. TL ends high
when `len ≥ 1`; for `len = 0` nothing is driven and the state is left as it was.
Driving a nibble sets the four lines to its bits and leaves TL alone. -/
theorem twh_tx_emits_nibbles (tr : Trace) (port : Nat) (data : List Nat) (s : Gpio)
    (hp : port < 2) (hth : th_low tr port)
    (hack : acks_in_time tr port s.n_in data.length) :
    (twh_tx tr port data s).log = s.log ++ data.flatMap (byte_writes port) ∧
    (twh_tx tr port data s).out = ((data.flatMap (byte_writes port)).foldl apply_write s).out ∧
    (twh_tx tr port data s).out1
      = ((data.flatMap (byte_writes port)).foldl apply_write s).out1 ∧
    (data.flatMap (byte_writes port)).length = 2 * (4 + 1) * data.length ∧
    (data ≠ [] → sio_level port SIO_TL (twh_tx tr port data s) = true) ∧
    (data = [] → twh_tx tr port data s = s) ∧
    (∀ (nib : Nat) (t : Gpio),
      sio_level port SIO_R ((nibble_writes port nib).foldl apply_write t) = nib.testBit 3 ∧
      sio_level port SIO_L ((nibble_writes port nib).foldl apply_write t) = nib.testBit 2 ∧
      sio_level port SIO_D ((nibble_writes port nib).foldl apply_write t) = nib.testBit 1 ∧
      sio_level port SIO_U ((nibble_writes port nib).foldl apply_write t) = nib.testBit 0 ∧
      sio_level port SIO_TL ((nibble_writes port nib).foldl apply_write t)
        = sio_level port SIO_TL t) := by
  obtain ⟨n, n1, h⟩ := twh_tx_ok tr port hp hth data s hack
  refine ⟨?_, ?_, ?_, flatMap_byte_writes_length port data, ?_, ?_,
    nibble_writes_levels port hp⟩
  · rw [h]
    exact (foldl_apply_write_reads _ s).2.2
  · rw [h]; rfl
  · rw [h]; rfl
  · intro hne
    obtain ⟨ws, hws⟩ := flatMap_byte_writes_last port data hne
    rw [h, sio_level_with_reads, hws, List.foldl_append, List.foldl_cons, List.foldl_nil,
      sio_level_drive]
  · intro he
    rw [he]
    rfl

/-- Witness of C7: port 0, the byte `0xA5`, TR alternating at every read. -/
theorem twh_tx_emits_nibbles_witness :
    0 < 2 ∧ th_low alternating 0 ∧ acks_in_time alternating 0 idle_low.n_in [0xA5].length ∧
    (twh_tx alternating 0 [0xA5] idle_low).log
      = idle_low.log ++ [0xA5].flatMap (byte_writes 0) ∧
    sio_level 0 SIO_TL (twh_tx alternating 0 [0xA5] idle_low) = true :=
  have hth : th_low alternating 0 := fun _ => Nat.zero_and _
  have hack : acks_in_time alternating 0 idle_low.n_in [0xA5].length :=
    ⟨0, 0, ⟨by decide, fun j hj => absurd hj (Nat.not_lt_zero j), by decide⟩,
      ⟨by decide, fun j hj => absurd hj (Nat.not_lt_zero j), by decide⟩, trivial⟩
  ⟨by decide, hth, hack,
    (twh_tx_emits_nibbles alternating 0 [0xA5] idle_low (by decide) hth hack).1,
    (twh_tx_emits_nibbles alternating 0 [0xA5] idle_low (by decide) hth hack).2.2.2.2.1
      (by decide)⟩

/-- C7 (counterexample): for `len = 0` on a state where TL of port 0 is low,
TH stays low and there is no wait to satisfy, yet TL is still low after
`twh_tx`. -/
theorem twh_tx_empty_keeps_tl_low :
    th_low alternating 0 ∧ acks_in_time alternating 0 idle_low.n_in ([] : List Nat).length ∧
    sio_level 0 SIO_TL (twh_tx alternating 0 [] idle_low) = false :=
  ⟨fun _ => Nat.zero_and _, trivial, by decide⟩

/-! ## Resolver: closed form -/

theorem hub_loop_spec (slot : Nat → PortTable × Nat → PortTable × Nat)
    (f : Nat → Option DevType) (i : Nat)
    (hslot : ∀ j st, (slot j st).2 = st.2 + 1 ∧ (slot j st).1.dev_type = st.1.dev_type ∧
      (slot j st).1.mt_first_port = st.1.mt_first_port ∧
      (slot j st).1.mt_dev_type =
        (match f st.2 with
         | some v => Function.update st.1.mt_dev_type i (Function.update (st.1.mt_dev_type i) j v)
         | none => st.1.mt_dev_type)) :
    ∀ (n : Nat) (st : PortTable × Nat),
      ((List.range n).foldl (fun st j => slot j st) st).2 = st.2 + n ∧
      ((List.range n).foldl (fun st j => slot j st) st).1.dev_type = st.1.dev_type ∧
      ((List.range n).foldl (fun st j => slot j st) st).1.mt_first_port
        = st.1.mt_first_port ∧
      ∀ a b, ((List.range n).foldl (fun st j => slot j st) st).1.mt_dev_type a b
        = if a = i ∧ b < n then (f (st.2 + b)).getD (st.1.mt_dev_type a b)
          else st.1.mt_dev_type a b := by
  intro n
  induction n with
  | zero =>
    intro st
    refine ⟨rfl, rfl, rfl, fun a b => ?_⟩
    rw [if_neg (by omega)]
    rfl
  | succ n ih =>
    intro st
    obtain ⟨h1, h2, h3, h4⟩ := ih st
    obtain ⟨g1, g2, g3, g4⟩ := hslot n ((List.range n).foldl (fun st j => slot j st) st)
    rw [List.range_succ, List.foldl_append, List.foldl_cons, List.foldl_nil]
    refine ⟨by rw [g1, h1]; omega, by rw [g2, h2], by rw [g3, h3], fun a b => ?_⟩
    rw [g4, h1]
    cases hf : f (st.2 + n) with
    | none =>
      simp only
      rw [h4]
      by_cases hab : a = i ∧ b < n
      · rw [if_pos hab, if_pos ⟨hab.1, by omega⟩]
      · rw [if_neg hab]
        by_cases hn : a = i ∧ b = n
        · rw [if_pos ⟨hn.1, by omega⟩, hn.2, hf]
          rfl
        · rw [if_neg (by omega)]
    | some v =>
      simp only
      by_cases ha : a = i
      · subst ha
        rw [Function.update_same]
        by_cases hb : b = n
        · subst hb
          rw [Function.update_same, if_pos ⟨rfl, by omega⟩, hf]
          rfl
        · rw [Function.update_noteq hb, h4]
          by_cases hlt : b < n
          · rw [if_pos ⟨rfl, hlt⟩, if_pos ⟨rfl, by omega⟩]
          · rw [if_neg (by omega), if_neg (by omega)]
      · rw [Function.update_noteq ha, h4, if_neg (by tauto), if_neg (by tauto)]

theorem saturn_mt_slot_spec (cfg : Config) (i j : Nat) (st : PortTable × Nat) :
    (saturn_mt_slot cfg i j st).2 = st.2 + 1 ∧
    (saturn_mt_slot cfg i j st).1.dev_type = st.1.dev_type ∧
    (saturn_mt_slot cfg i j st).1.mt_first_port = st.1.mt_first_port ∧
    (saturn_mt_slot cfg i j st).1.mt_dev_type =
      (match mode_type SATURN (cfg.out_cfg st.2) with
       | some v => Function.update st.1.mt_dev_type i (Function.update (st.1.mt_dev_type i) j v)
       | none => st.1.mt_dev_type) := by
  unfold saturn_mt_slot
  cases cfg.out_cfg st.2 <;> exact ⟨rfl, rfl, rfl, rfl⟩

theorem genesis_mt_slot_spec (cfg : Config) (i j : Nat) (st : PortTable × Nat) :
    (genesis_mt_slot cfg i j st).2 = st.2 + 1 ∧
    (genesis_mt_slot cfg i j st).1.dev_type = st.1.dev_type ∧
    (genesis_mt_slot cfg i j st).1.mt_first_port = st.1.mt_first_port ∧
    (genesis_mt_slot cfg i j st).1.mt_dev_type =
      (match mode_type GENESIS (cfg.out_cfg st.2) with
       | some v => Function.update st.1.mt_dev_type i (Function.update (st.1.mt_dev_type i) j v)
       | none => st.1.mt_dev_type) := by
  unfold genesis_mt_slot
  cases cfg.out_cfg st.2 <;> exact ⟨rfl, rfl, rfl, rfl⟩

theorem saturn_leaf_spec (cfg : Config) (i : Nat) (st : PortTable × Nat) :
    (saturn_leaf cfg i st).2 = st.2 + 1 ∧
    (saturn_leaf cfg i st).1.mt_dev_type = st.1.mt_dev_type ∧
    (saturn_leaf cfg i st).1.mt_first_port = st.1.mt_first_port ∧
    (saturn_leaf cfg i st).1.dev_type =
      (match mode_type SATURN (cfg.out_cfg st.2) with
       | some v => Function.update st.1.dev_type i v
       | none => st.1.dev_type) := by
  unfold saturn_leaf
  cases cfg.out_cfg st.2 <;> exact ⟨rfl, rfl, rfl, rfl⟩

theorem genesis_leaf_spec (cfg : Config) (i : Nat) (st : PortTable × Nat) :
    (genesis_leaf cfg i st).2 = st.2 + 1 ∧
    (genesis_leaf cfg i st).1.mt_dev_type = st.1.mt_dev_type ∧
    (genesis_leaf cfg i st).1.mt_first_port = st.1.mt_first_port ∧
    (genesis_leaf cfg i st).1.dev_type =
      (match mode_type GENESIS (cfg.out_cfg st.2) with
       | some v => Function.update st.1.dev_type i v
       | none => st.1.dev_type) := by
  unfold genesis_leaf
  cases cfg.out_cfg st.2 <;> exact ⟨rfl, rfl, rfl, rfl⟩

theorem saturn_port_view (cfg : Config) (i : Nat) (st : PortTable × Nat) :
    (view (saturn_port cfg i st).1, (saturn_port cfg i st).2)
      = port_view SATURN cfg i (view st.1, st.2) := by
  unfold saturn_port port_view
  simp only [view, hub_type, hub_slots]
  by_cases h1 : st.1.dev_type i = DEV_SATURN_MULTITAP
  · rw [if_pos h1, if_pos h1]
    obtain ⟨a, b, c, d⟩ := hub_loop_spec (fun j st => saturn_mt_slot cfg i j st)
      (fun k => mode_type SATURN (cfg.out_cfg k)) i
      (fun j st => saturn_mt_slot_spec cfg i j st) MT_PORT_MAX st
    rw [a, b, c]
    congr 2
    funext x y
    exact d x y
  · rw [if_neg h1, if_neg h1]
    by_cases h2 : st.1.dev_type i = DEV_NONE
    · rw [if_pos h2, if_pos h2]
      obtain ⟨a, b, c, d⟩ := saturn_leaf_spec cfg i st
      rw [a, b, c, d]
    · rw [if_neg h2, if_neg h2]

theorem genesis_port_view (cfg : Config) (i : Nat) (st : PortTable × Nat) :
    (view (genesis_port cfg i st).1, (genesis_port cfg i st).2)
      = port_view GENESIS cfg i (view st.1, st.2) := by
  unfold genesis_port port_view
  simp only [view, hub_type, hub_slots]
  by_cases h1 : st.1.dev_type i = DEV_GENESIS_MULTITAP
  · rw [if_pos h1, if_pos h1]
    obtain ⟨a, b, c, d⟩ := hub_loop_spec (fun j st => genesis_mt_slot cfg i j st)
      (fun k => mode_type GENESIS (cfg.out_cfg k)) i
      (fun j st => genesis_mt_slot_spec cfg i j st) MT_GEN_PORT_MAX st
    rw [a, b, c]
    congr 2
    funext x y
    exact d x y
  · rw [if_neg h1, if_neg h1]
    by_cases h2 : st.1.dev_type i = DEV_NONE
    · rw [if_pos h2, if_pos h2]
      obtain ⟨a, b, c, d⟩ := genesis_leaf_spec cfg i st
      rw [a, b, c, d]
    · rw [if_neg h2, if_neg h2]

theorem cfg_view_eq (sys : SystemId) (m : MultitapCfg) (t : PortTable) :
    cfg_view sys m (view t)
      = match sys with
        | SATURN => view (saturn_multitap_cfg m t)
        | GENESIS => view (genesis_multitap_cfg m t) := by
  cases sys <;> cases m <;> rfl

theorem resolver_view_eq (sys : SystemId) (cfg : Config) (t : PortTable) :
    view (sega_io_init_resolver sys cfg t) = resolver_view sys cfg (view t) := by
  unfold resolver_view sega_io_init_resolver
  have hr : List.range 2 = [0, 1] := rfl
  cases sys with
  | SATURN =>
    simp only [hr, List.foldl_cons, List.foldl_nil, cfg_view_eq]
    rw [← saturn_port_view cfg 0 (saturn_multitap_cfg cfg.multitap_cfg t, 0),
      ← saturn_port_view cfg 1]
  | GENESIS =>
    simp only [hr, List.foldl_cons, List.foldl_nil, cfg_view_eq]
    rw [← genesis_port_view cfg 0 (genesis_multitap_cfg cfg.multitap_cfg t, 0),
      ← genesis_port_view cfg 1]

/-! ## Resolver: multitap disabled (C8) -/

/-- C8 (amended): for both systems, with the multitap mode disabled and the
device modes of logical ports 0 and 1 recognised, the resolver run from the
initial statics gives each port `p` in {0, 1} a non-multitap leaf device type
(the one its device mode maps to) and the logical offset `mt_first_port[p] = p`:
0 for port 0 and 1 for port 1. -/
theorem resolver_disabled (sys : SystemId) (out_cfg : Nat → DevMode)
    (h0 : recognised sys (out_cfg 0) = true) (h1 : recognised sys (out_cfg 1) = true) :
    ∀ p, p < 2 →
      is_leaf ((sega_io_init_resolver sys { multitap_cfg := MT_NONE, out_cfg := out_cfg }
        PortTable.initial).dev_type p) = true ∧
      mode_type sys (out_cfg p) = some ((sega_io_init_resolver sys
        { multitap_cfg := MT_NONE, out_cfg := out_cfg } PortTable.initial).dev_type p) ∧
      (sega_io_init_resolver sys { multitap_cfg := MT_NONE, out_cfg := out_cfg }
        PortTable.initial).mt_first_port p = p := by
  intro p hp
  have hv := resolver_view_eq sys { multitap_cfg := MT_NONE, out_cfg := out_cfg }
    PortTable.initial
  have hd : (sega_io_init_resolver sys { multitap_cfg := MT_NONE, out_cfg := out_cfg }
      PortTable.initial).dev_type = (resolver_view sys
        { multitap_cfg := MT_NONE, out_cfg := out_cfg } (view PortTable.initial)).dev_type :=
    congrArg View.dev_type hv
  have hf : (sega_io_init_resolver sys { multitap_cfg := MT_NONE, out_cfg := out_cfg }
      PortTable.initial).mt_first_port = (resolver_view sys
        { multitap_cfg := MT_NONE, out_cfg := out_cfg }
        (view PortTable.initial)).mt_first_port :=
    congrArg View.mt_first_port hv
  rw [hd, hf]
  unfold recognised at h0 h1
  cases sys <;> cases e0 : out_cfg 0 <;> rw [e0] at h0 <;>
    first
    | exact absurd h0 (by decide)
    | (cases e1 : out_cfg 1 <;> rw [e1] at h1 <;>
        first
        | exact absurd h1 (by decide)
        | (interval_cases p <;>
            simp [resolver_view, port_view, cfg_view, view, saturn_multitap_cfg,
              genesis_multitap_cfg, PortTable.set_first, PortTable.initial, hub_type,
              mode_type, e0, e1, is_leaf, Function.update]))

/-- Witness of C8: Saturn, port 1 of the configuration `[pad, alternate-pad]`. -/
theorem resolver_disabled_witness :
    recognised SATURN (pad_then_alt 0) = true ∧ recognised SATURN (pad_then_alt 1) = true ∧
    (1 : Nat) < 2 ∧
    is_leaf ((sega_io_init_resolver SATURN { multitap_cfg := MT_NONE, out_cfg := pad_then_alt }
      PortTable.initial).dev_type 1) = true ∧
    (sega_io_init_resolver SATURN { multitap_cfg := MT_NONE, out_cfg := pad_then_alt }
      PortTable.initial).mt_first_port 1 = 1 :=
  ⟨by decide, by decide, by decide,
    (resolver_disabled SATURN pad_then_alt (by decide) (by decide) 1 (by decide)).1,
    (resolver_disabled SATURN pad_then_alt (by decide) (by decide) 1 (by decide)).2.2⟩

/-- C8 (counterexample): with the multitap mode disabled and recognised device
modes, `mt_first_port[1]` is not 0, on Saturn and on Genesis. -/
theorem resolver_disabled_offset_not_zero :
    recognised SATURN (pad_then_alt 0) = true ∧ recognised SATURN (pad_then_alt 1) = true ∧
    recognised GENESIS (pad_then_alt 0) = true ∧ recognised GENESIS (pad_then_alt 1) = true ∧
    (sega_io_init_resolver SATURN { multitap_cfg := MT_NONE, out_cfg := pad_then_alt }
      PortTable.initial).mt_first_port 1 ≠ 0 ∧
    (sega_io_init_resolver GENESIS { multitap_cfg := MT_NONE, out_cfg := pad_then_alt }
      PortTable.initial).mt_first_port 1 ≠ 0 := by
  decide

/-! ## Resolver: hub on both ports (C9) -/

/-- C9: for both systems, with multitap mode `MT_DUAL` the resolver run from the
initial statics types both ports as the system's multitap, and the ranges
`[mt_first_port[p], mt_first_port[p] + n)`, `p = 0, 1`, lie inside `[0, 2n)` and
every logical index below `2n` belongs to exactly one of them (`n = 6` for
Saturn, `n = 4` for Genesis). -/
theorem resolver_dual (sys : SystemId) (out_cfg : Nat → DevMode) :
    (sega_io_init_resolver sys { multitap_cfg := MT_DUAL, out_cfg := out_cfg }
      PortTable.initial).dev_type 0 = hub_type sys ∧
    (sega_io_init_resolver sys { multitap_cfg := MT_DUAL, out_cfg := out_cfg }
      PortTable.initial).dev_type 1 = hub_type sys ∧
    (∀ p, p < 2 →
      (sega_io_init_resolver sys { multitap_cfg := MT_DUAL, out_cfg := out_cfg }
        PortTable.initial).mt_first_port p + hub_slots sys ≤ 2 * hub_slots sys) ∧
    (∀ k, k < 2 * hub_slots sys →
      ∃! p, p < 2 ∧
        (sega_io_init_resolver sys { multitap_cfg := MT_DUAL, out_cfg := out_cfg }
          PortTable.initial).mt_first_port p ≤ k ∧
        k < (sega_io_init_resolver sys { multitap_cfg := MT_DUAL, out_cfg := out_cfg }
          PortTable.initial).mt_first_port p + hub_slots sys) := by
  have hv := resolver_view_eq sys { multitap_cfg := MT_DUAL, out_cfg := out_cfg }
    PortTable.initial
  have hd : (sega_io_init_resolver sys { multitap_cfg := MT_DUAL, out_cfg := out_cfg }
      PortTable.initial).dev_type = (resolver_view sys
        { multitap_cfg := MT_DUAL, out_cfg := out_cfg } (view PortTable.initial)).dev_type :=
    congrArg View.dev_type hv
  have hf : (sega_io_init_resolver sys { multitap_cfg := MT_DUAL, out_cfg := out_cfg }
      PortTable.initial).mt_first_port = (resolver_view sys
        { multitap_cfg := MT_DUAL, out_cfg := out_cfg }
        (view PortTable.initial)).mt_first_port :=
    congrArg View.mt_first_port hv
  rw [hd, hf]
  have hfirst : ∀ p, (resolver_view sys { multitap_cfg := MT_DUAL, out_cfg := out_cfg }
      (view PortTable.initial)).mt_first_port p = if p = 1 then hub_slots sys else 0 := by
    intro p
    cases sys <;>
      simp [resolver_view, port_view, cfg_view, view, saturn_multitap_cfg,
        genesis_multitap_cfg, PortTable.set_first, PortTable.set_dev, PortTable.initial,
        hub_type, hub_slots, Function.update]
  refine ⟨?_, ?_, ?_, ?_⟩
  · cases sys <;>
      simp [resolver_view, port_view, cfg_view, view, saturn_multitap_cfg,
        genesis_multitap_cfg, PortTable.set_first, PortTable.set_dev, PortTable.initial,
        hub_type, Function.update]
  · cases sys <;>
      simp [resolver_view, port_view, cfg_view, view, saturn_multitap_cfg,
        genesis_multitap_cfg, PortTable.set_first, PortTable.set_dev, PortTable.initial,
        hub_type, Function.update]
  · intro p hp
    rw [hfirst]
    split_ifs <;> omega
  · intro k hk
    by_cases hlt : k < hub_slots sys
    · refine ⟨0, ⟨by omega, by rw [hfirst]; simp, by rw [hfirst]; simpa using hlt⟩, ?_⟩
      rintro q ⟨hq, hq1, _⟩
      rw [hfirst] at hq1
      split_ifs at hq1 <;> omega
    · refine ⟨1, ⟨by omega, by rw [hfirst]; simp; omega, by rw [hfirst]; simp; omega⟩, ?_⟩
      rintro q ⟨hq, _, hq2⟩
      rw [hfirst] at hq2
      split_ifs at hq2 <;> omega

/-! ## Resolver: a second run (C10) -/

theorem port_view_first (sys : SystemId) (cfg : Config) (i : Nat) (v : View × Nat) :
    (port_view sys cfg i v).1.mt_first_port = v.1.mt_first_port := by
  unfold port_view
  split_ifs <;> rfl

theorem resolver_view_first (sys : SystemId) (cfg : Config) (v : View) :
    (resolver_view sys cfg v).mt_first_port = (cfg_view sys cfg.multitap_cfg v).mt_first_port := by
  unfold resolver_view
  rw [port_view_first, port_view_first]

theorem resolver_view_first_twice (sys : SystemId) (cfg : Config) (v : View) :
    (resolver_view sys cfg (resolver_view sys cfg v)).mt_first_port
      = (resolver_view sys cfg v).mt_first_port := by
  rw [resolver_view_first, resolver_view_first]
  obtain ⟨m, oc⟩ := cfg
  cases sys <;> cases m <;>
    simp [cfg_view, view, saturn_multitap_cfg, genesis_multitap_cfg, PortTable.set_first,
      PortTable.set_dev, resolver_view_first]

theorem getD_getD (o : Option DevType) (d : DevType) : o.getD (o.getD d) = o.getD d := by
  cases o <;> rfl

theorem twice_saturn_mt_none (oc : Nat → DevMode)
    (h : recognised SATURN (oc 0) = false ∨ recognised SATURN (oc 1) = true) :
    resolver_view SATURN { multitap_cfg := MT_NONE, out_cfg := oc }
        (resolver_view SATURN { multitap_cfg := MT_NONE, out_cfg := oc } (view PortTable.initial))
      = resolver_view SATURN { multitap_cfg := MT_NONE, out_cfg := oc }
          (view PortTable.initial) := by
  unfold recognised at h
  cases e0 : oc 0 <;> cases e1 : oc 1 <;> simp [e0, e1, mode_type] at h <;>
    ext a b <;>
    simp [resolver_view, port_view, cfg_view, view, saturn_multitap_cfg,
      genesis_multitap_cfg, PortTable.set_first, PortTable.set_dev, PortTable.initial,
      hub_type, hub_slots, Function.update, mode_type, e0, e1]

theorem twice_saturn_mt_slot_1 (oc : Nat → DevMode) :
    resolver_view SATURN { multitap_cfg := MT_SLOT_1, out_cfg := oc }
        (resolver_view SATURN { multitap_cfg := MT_SLOT_1, out_cfg := oc } (view PortTable.initial))
      = resolver_view SATURN { multitap_cfg := MT_SLOT_1, out_cfg := oc }
          (view PortTable.initial) := by
  have hn : MT_PORT_MAX = 6 := rfl
  cases e0 : oc 6 <;>
    ext a b <;>
    simp [resolver_view, port_view, cfg_view, view, saturn_multitap_cfg,
      genesis_multitap_cfg, PortTable.set_first, PortTable.set_dev, PortTable.initial,
      hub_type, hub_slots, Function.update, mode_type, e0, hn] <;>
    split_ifs <;> simp_all [getD_getD]

theorem twice_saturn_mt_slot_2 (oc : Nat → DevMode)
    (h : recognised SATURN (oc 0) = false) :
    resolver_view SATURN { multitap_cfg := MT_SLOT_2, out_cfg := oc }
        (resolver_view SATURN { multitap_cfg := MT_SLOT_2, out_cfg := oc } (view PortTable.initial))
      = resolver_view SATURN { multitap_cfg := MT_SLOT_2, out_cfg := oc }
          (view PortTable.initial) := by
  unfold recognised at h
  cases e0 : oc 0 <;> simp [e0, mode_type] at h
  ext a b <;>
    simp [resolver_view, port_view, cfg_view, view, saturn_multitap_cfg,
      genesis_multitap_cfg, PortTable.set_first, PortTable.set_dev, PortTable.initial,
      hub_type, hub_slots, Function.update, mode_type, e0]
  split_ifs <;> simp_all [getD_getD]

theorem twice_saturn_mt_dual (oc : Nat → DevMode) :
    resolver_view SATURN { multitap_cfg := MT_DUAL, out_cfg := oc }
        (resolver_view SATURN { multitap_cfg := MT_DUAL, out_cfg := oc } (view PortTable.initial))
      = resolver_view SATURN { multitap_cfg := MT_DUAL, out_cfg := oc }
          (view PortTable.initial) := by
  ext a b <;>
    simp [resolver_view, port_view, cfg_view, view, saturn_multitap_cfg,
      genesis_multitap_cfg, PortTable.set_first, PortTable.set_dev, PortTable.initial,
      hub_type, hub_slots, Function.update, mode_type] <;>
    split_ifs <;> simp_all [getD_getD]

theorem twice_saturn_mt_alt (oc : Nat → DevMode)
    (h : recognised SATURN (oc 0) = false ∨ recognised SATURN (oc 1) = true) :
    resolver_view SATURN { multitap_cfg := MT_ALT, out_cfg := oc }
        (resolver_view SATURN { multitap_cfg := MT_ALT, out_cfg := oc } (view PortTable.initial))
      = resolver_view SATURN { multitap_cfg := MT_ALT, out_cfg := oc }
          (view PortTable.initial) := by
  unfold recognised at h
  cases e0 : oc 0 <;> cases e1 : oc 1 <;> simp [e0, e1, mode_type] at h <;>
    ext a b <;>
    simp [resolver_view, port_view, cfg_view, view, saturn_multitap_cfg,
      genesis_multitap_cfg, PortTable.set_first, PortTable.set_dev, PortTable.initial,
      hub_type, hub_slots, Function.update, mode_type, e0, e1]

theorem twice_genesis_mt_none (oc : Nat → DevMode)
    (h : recognised GENESIS (oc 0) = false ∨ recognised GENESIS (oc 1) = true) :
    resolver_view GENESIS { multitap_cfg := MT_NONE, out_cfg := oc }
        (resolver_view GENESIS { multitap_cfg := MT_NONE, out_cfg := oc } (view PortTable.initial))
      = resolver_view GENESIS { multitap_cfg := MT_NONE, out_cfg := oc }
          (view PortTable.initial) := by
  unfold recognised at h
  cases e0 : oc 0 <;> cases e1 : oc 1 <;> simp [e0, e1, mode_type] at h <;>
    ext a b <;>
    simp [resolver_view, port_view, cfg_view, view, saturn_multitap_cfg,
      genesis_multitap_cfg, PortTable.set_first, PortTable.set_dev, PortTable.initial,
      hub_type, hub_slots, Function.update, mode_type, e0, e1]

theorem twice_genesis_mt_slot_1 (oc : Nat → DevMode) :
    resolver_view GENESIS { multitap_cfg := MT_SLOT_1, out_cfg := oc }
        (resolver_view GENESIS { multitap_cfg := MT_SLOT_1, out_cfg := oc } (view PortTable.initial))
      = resolver_view GENESIS { multitap_cfg := MT_SLOT_1, out_cfg := oc }
          (view PortTable.initial) := by
  have hn : MT_GEN_PORT_MAX = 4 := rfl
  cases e0 : oc 4 <;>
    ext a b <;>
    simp [resolver_view, port_view, cfg_view, view, saturn_multitap_cfg,
      genesis_multitap_cfg, PortTable.set_first, PortTable.set_dev, PortTable.initial,
      hub_type, hub_slots, Function.update, mode_type, e0, hn] <;>
    split_ifs <;> simp_all [getD_getD]

theorem twice_genesis_mt_slot_2 (oc : Nat → DevMode)
    (h : recognised GENESIS (oc 0) = false) :
    resolver_view GENESIS { multitap_cfg := MT_SLOT_2, out_cfg := oc }
        (resolver_view GENESIS { multitap_cfg := MT_SLOT_2, out_cfg := oc } (view PortTable.initial))
      = resolver_view GENESIS { multitap_cfg := MT_SLOT_2, out_cfg := oc }
          (view PortTable.initial) := by
  unfold recognised at h
  cases e0 : oc 0 <;> simp [e0, mode_type] at h <;>
    ext a b <;>
    simp [resolver_view, port_view, cfg_view, view, saturn_multitap_cfg,
      genesis_multitap_cfg, PortTable.set_first, PortTable.set_dev, PortTable.initial,
      hub_type, hub_slots, Function.update, mode_type, e0] <;>
    split_ifs <;> simp_all [getD_getD]

theorem twice_genesis_mt_dual (oc : Nat → DevMode) :
    resolver_view GENESIS { multitap_cfg := MT_DUAL, out_cfg := oc }
        (resolver_view GENESIS { multitap_cfg := MT_DUAL, out_cfg := oc } (view PortTable.initial))
      = resolver_view GENESIS { multitap_cfg := MT_DUAL, out_cfg := oc }
          (view PortTable.initial) := by
  ext a b <;>
    simp [resolver_view, port_view, cfg_view, view, saturn_multitap_cfg,
      genesis_multitap_cfg, PortTable.set_first, PortTable.set_dev, PortTable.initial,
      hub_type, hub_slots, Function.update, mode_type] <;>
    split_ifs <;> simp_all [getD_getD]

theorem twice_genesis_mt_alt (oc : Nat → DevMode) :
    resolver_view GENESIS { multitap_cfg := MT_ALT, out_cfg := oc }
        (resolver_view GENESIS { multitap_cfg := MT_ALT, out_cfg := oc } (view PortTable.initial))
      = resolver_view GENESIS { multitap_cfg := MT_ALT, out_cfg := oc }
          (view PortTable.initial) := by
  ext a b <;>
    simp [resolver_view, port_view, cfg_view, view, saturn_multitap_cfg,
      genesis_multitap_cfg, PortTable.set_first, PortTable.set_dev, PortTable.initial,
      hub_type, hub_slots, Function.update, mode_type]
  split_ifs <;> rfl

theorem resolver_view_twice (sys : SystemId) (cfg : Config) (h : second_run_safe sys cfg) :
    resolver_view sys cfg (resolver_view sys cfg (view PortTable.initial))
      = resolver_view sys cfg (view PortTable.initial) := by
  obtain ⟨m, oc⟩ := cfg
  unfold second_run_safe at h
  cases sys <;> cases m
  · exact twice_saturn_mt_none oc (by simpa using h)
  · exact twice_saturn_mt_slot_1 oc
  · exact twice_saturn_mt_slot_2 oc (by simpa using h)
  · exact twice_saturn_mt_dual oc
  · exact twice_saturn_mt_alt oc (by simpa using h)
  · exact twice_genesis_mt_none oc (by simpa using h)
  · exact twice_genesis_mt_slot_1 oc
  · exact twice_genesis_mt_slot_2 oc (by simpa using h)
  · exact twice_genesis_mt_dual oc
  · exact twice_genesis_mt_alt oc

/-- C10 (amended): for every system, multitap mode and device-mode sequence, a
second run of the resolver on the statics left by the first run leaves
`mt_first_port` as it was; it also leaves `dev_type` and `mt_dev_type` as they
were when port 0 is a hub or the EA multitap, or port 0's device mode is not
recognised, or port 1 is a leaf with a recognised device mode. -/
theorem resolver_second_run (sys : SystemId) (cfg : Config) :
    (sega_io_init_resolver sys cfg
        (sega_io_init_resolver sys cfg PortTable.initial)).mt_first_port
      = (sega_io_init_resolver sys cfg PortTable.initial).mt_first_port ∧
    (second_run_safe sys cfg →
      (sega_io_init_resolver sys cfg
          (sega_io_init_resolver sys cfg PortTable.initial)).dev_type
        = (sega_io_init_resolver sys cfg PortTable.initial).dev_type ∧
      (sega_io_init_resolver sys cfg
          (sega_io_init_resolver sys cfg PortTable.initial)).mt_dev_type
        = (sega_io_init_resolver sys cfg PortTable.initial).mt_dev_type) := by
  have h2 : view (sega_io_init_resolver sys cfg
        (sega_io_init_resolver sys cfg PortTable.initial))
      = resolver_view sys cfg (resolver_view sys cfg (view PortTable.initial)) := by
    rw [resolver_view_eq, resolver_view_eq]
  have h1 := resolver_view_eq sys cfg PortTable.initial
  refine ⟨?_, fun h => ?_⟩
  · have := resolver_view_first_twice sys cfg (view PortTable.initial)
    rw [← h2, ← h1] at this
    exact this
  · have := resolver_view_twice sys cfg h
    rw [← h2, ← h1] at this
    exact ⟨congrArg View.dev_type this, congrArg View.mt_dev_type this⟩

/-- Witness of C10: Saturn scenario B (hub on port 1). -/
theorem resolver_second_run_witness :
    second_run_safe SATURN scenario_cfg ∧
    (sega_io_init_resolver SATURN scenario_cfg
        (sega_io_init_resolver SATURN scenario_cfg PortTable.initial)).mt_dev_type
      = (sega_io_init_resolver SATURN scenario_cfg PortTable.initial).mt_dev_type :=
  ⟨Or.inl rfl, ((resolver_second_run SATURN scenario_cfg).2 (Or.inl rfl)).2⟩

/-- C10 (counterexample): Saturn, hub on port 2, device modes
`[pad, alternate-pad, alternate-pad, ...]`: the first run types sub-slot 0 of
port 2 as analog (from `out_cfg[1]`), the second run retypes it as digital
handshake (from `out_cfg[0]`), so `mt_dev_type` is not the same after the second
run. -/
theorem resolver_second_run_differs :
    (sega_io_init_resolver SATURN hub_on_port_2_cfg PortTable.initial).mt_dev_type 1 0
      = DEV_SATURN_ANALOG ∧
    (sega_io_init_resolver SATURN hub_on_port_2_cfg
        (sega_io_init_resolver SATURN hub_on_port_2_cfg PortTable.initial)).mt_dev_type 1 0
      = DEV_SATURN_DIGITAL_TWH ∧
    (sega_io_init_resolver SATURN hub_on_port_2_cfg
        (sega_io_init_resolver SATURN hub_on_port_2_cfg PortTable.initial)).mt_dev_type
      ≠ (sega_io_init_resolver SATURN hub_on_port_2_cfg PortTable.initial).mt_dev_type := by
  refine ⟨by decide, by decide, fun h => ?_⟩
  have := congrFun (congrFun h 1) 0
  revert this
  decide

/-! ## Keyboard source registration (C18) -/

theorem saturn_multitap_frame_kb_congr (output : WiredData) (kb kb' : KbQuery)
    (mt : Nat → Nat → DevType) (port first_port nb_port : Nat) (buffer : Buffer) (len : Nat)
    (h : ∀ i, i < nb_port → mt port i = DEV_SATURN_KB →
      kb (first_port + i) = kb' (first_port + i)) :
    saturn_multitap_frame output kb mt port first_port nb_port buffer len
      = saturn_multitap_frame output kb' mt port first_port nb_port buffer len := by
  unfold saturn_multitap_frame
  have hf : ∀ st : MtState, ∀ i ∈ List.range nb_port,
      saturn_multitap_slot output kb (mt port i) (first_port + i) st
        = saturn_multitap_slot output kb' (mt port i) (first_port + i) st := by
    intro st i hi
    have hi' : i < nb_port := List.mem_range.mp hi
    cases hty : mt port i <;> try rfl
    unfold saturn_multitap_slot
    simp only [h i hi' hty]
  simp only [List.foldl_ext _ _ _ hf]

theorem saturn_keyboard_frame_kb_congr (output : WiredData) (kb kb' : KbQuery)
    (src_port : Nat) (buffer : Buffer) (h : kb src_port = kb' src_port) :
    saturn_keyboard_frame output kb src_port buffer
      = saturn_keyboard_frame output kb' src_port buffer := by
  unfold saturn_keyboard_frame
  rw [h]

/-- C18, at the failing inputs: with a hub on both ports and a keyboard on
sub-slot 0 of the hub on port 2 the resolver registers the scancode source
under logical index 2 while the multitap framer of port 2 queries index 6; with
a hub on port 1 and a keyboard leaf on port 2 the resolver registers index 1
while the keyboard framer of port 2 queries index 6. -/
theorem kbmon_index_mismatch :
    (sega_io_init_resolver SATURN kb_on_second_hub_cfg PortTable.initial).kbmon = [2] ∧
    kb_query_ports (sega_io_init_resolver SATURN kb_on_second_hub_cfg PortTable.initial) 1
      = [6] ∧
    kb_query_ports (sega_io_init_resolver SATURN kb_on_second_hub_cfg PortTable.initial) 0
      = [] ∧
    (sega_io_init_resolver SATURN kb_leaf_after_hub_cfg PortTable.initial).kbmon = [1] ∧
    kb_query_ports (sega_io_init_resolver SATURN kb_leaf_after_hub_cfg PortTable.initial) 1
      = [6] ∧
    kb_query_ports (sega_io_init_resolver SATURN kb_leaf_after_hub_cfg PortTable.initial) 0
      = [] := by
  refine ⟨by decide, by decide, by decide, by decide, by decide, by decide⟩

theorem range_two : List.range 2 = [0, 1] := by decide

theorem kbmon_matches_without_hub (cfg : Config) (h : cfg.multitap_cfg = MT_NONE) :
    (sega_io_init_resolver SATURN cfg PortTable.initial).kbmon
      = kb_query_ports (sega_io_init_resolver SATURN cfg PortTable.initial) 0
        ++ kb_query_ports (sega_io_init_resolver SATURN cfg PortTable.initial) 1 := by
  obtain ⟨m, oc⟩ := cfg
  simp only at h
  subst h
  cases h0 : oc 0 <;> cases h1 : oc 1 <;>
    simp [sega_io_init_resolver, range_two, saturn_multitap_cfg, saturn_port, saturn_leaf,
      PortTable.initial, PortTable.set_dev, PortTable.set_first, PortTable.kbmon_init,
      kb_query_ports, h0, h1, Function.update]

/-! ## Genesis multitap frame (C17) -/

theorem pack_nibbles_append_even : ∀ (xs ys : List Nat), xs.length % 2 = 0 →
    pack_nibbles (xs ++ ys) = pack_nibbles xs ++ pack_nibbles ys
  | [], ys, _ => by simp [pack_nibbles]
  | [a], ys, h => by simp at h
  | a :: b :: rest, ys, h => by
    have h' : rest.length % 2 = 0 := by
      simp only [List.length_cons] at h
      omega
    simp [pack_nibbles, pack_nibbles_append_even rest ys h']

theorem pack_nibbles_length : ∀ ns : List Nat, (pack_nibbles ns).length = (ns.length + 1) / 2
  | [] => by simp [pack_nibbles]
  | [a] => by simp [pack_nibbles]
  | a :: b :: rest => by
    simp only [pack_nibbles, List.length_cons, pack_nibbles_length rest]
    omega

theorem Buffer.holds_set_beyond (buf : Buffer) (B : List Nat) (k v : Nat)
    (h : buf.holds B) (hk : B.length ≤ k) : (buf.set k v).holds B := by
  intro i hi
  rw [Buffer.set_apply, if_neg (by omega)]
  exact h i hi

theorem Buffer.holds_concat (buf : Buffer) (B : List Nat) (v : Nat)
    (h : buf.holds B) (hv : buf B.length = v) : buf.holds (B ++ [v]) := by
  intro i hi
  rw [List.length_append, List.length_singleton] at hi
  by_cases hlt : i < B.length
  · rw [List.getD_append _ _ _ _ hlt]
    exact h i hlt
  · have hi' : i = B.length := by omega
    subst hi'
    rw [List.getD_append_right _ _ _ _ (Nat.le_refl _)]
    simpa using hv

theorem Buffer.holds_bytes (buf : Buffer) (B : List Nat) (h : buf.holds B) :
    buf.bytes B.length = B := by
  apply List.ext_getElem
  · simp [Buffer.bytes]
  · intro i h1 h2
    simp only [Buffer.bytes, List.getElem_map, List.getElem_range]
    rw [h i h2, List.getD_eq_getElem _ _ h2]

set_option maxRecDepth 8000 in
theorem or_fifteen_byte : ∀ b, b < 256 → (b ||| 0xF) % 256 = b / 16 * 16 + 0xF := by
  decide

set_option maxRecDepth 8000 in
theorem shl_or_fifteen_byte : ∀ b, b < 256 → ((b <<< 4) ||| 0xF) % 256 = b % 16 * 16 + 0xF := by
  decide

theorem and_merge_nibble : ∀ a, a < 16 → ∀ h, h < 16 →
    ((a * 16 + 0xF) &&& (h ||| 0xF0)) % 256 = a * 16 + h := by
  decide

theorem Buffer.holds_push (buf : Buffer) (B : List Nat) (v : Nat) (h : buf.holds B) :
    (buf.set B.length v).holds (B ++ [v]) :=
  Buffer.holds_concat _ _ _ (Buffer.holds_set_beyond _ _ _ _ h (Nat.le_refl _))
    (by rw [Buffer.set_apply, if_pos rfl])

theorem Buffer.set_set (b : Buffer) (k x y : Nat) : (b.set k x).set k y = b.set k y := by
  funext i
  simp only [Buffer.set_apply]
  split_ifs <;> rfl

theorem gen_multitap_slot_packed (output : WiredData) (ty : DevType) (j : Nat)
    (st : GenMtState) (H ns : List Nat) (h : st.packed H ns) :
    (gen_multitap_slot output ty j st).packed H (ns ++ gen_slot_nibbles output ty j) := by
  obtain ⟨buf, data, odd⟩ := st
  obtain ⟨hlt, hcase⟩ := h
  simp only at hcase
  have h24 : output j 24 % 256 < 256 := Nat.mod_lt _ (by decide)
  have h25 : output j 25 % 256 < 256 := Nat.mod_lt _ (by decide)
  by_cases h3 : ty = DEV_GENESIS_3BTNS
  · subst h3
    simp only [gen_multitap_slot, gen_slot_nibbles]
    generalize output j 24 % 256 = b24 at h24 ⊢
    generalize output j 25 % 256 = b25 at h25 ⊢
    have hsplit : b24 = b24 / 16 * 16 + b24 % 16 := by omega
    have hh : b24 / 16 < 16 := by omega
    have hl : b24 % 16 < 16 := by omega
    have hh2 : b25 / 16 < 16 := by omega
    refine ⟨?_, ?_⟩
    · intro x hx
      rcases List.mem_append.mp hx with hx | hx
      · exact hlt x hx
      · simp only [List.mem_cons, List.mem_singleton, List.not_mem_nil, or_false] at hx
        rcases hx with rfl | rfl <;> assumption
    · rcases hcase with ⟨ho, hev, hd, hb⟩ | ⟨ho, ns', a, rfl, hev, hd, hb, hp⟩
      · subst ho
        left
        have hpk : pack_nibbles (ns ++ [b24 / 16, b24 % 16])
            = pack_nibbles ns ++ [b24] := by
          rw [pack_nibbles_append_even _ _ hev]
          simp only [pack_nibbles]
          rw [← hsplit]
        simp only [ne_eq, not_true_eq_false, if_false]
        refine ⟨trivial, ?_, ?_, ?_⟩
        · simp only [List.length_append, List.length_cons, List.length_nil]
          omega
        · rw [hpk, ← List.append_assoc, List.length_append, List.length_singleton, hd]
        · rw [hpk, ← List.append_assoc, hd]
          exact Buffer.holds_push _ _ _ hb
      · subst ho
        right
        have ha : a < 16 := hlt a (by simp)
        have hpk : pack_nibbles (ns' ++ [a, b24 / 16]) = pack_nibbles ns' ++ [a * 16 + b24 / 16] := by
          rw [pack_nibbles_append_even _ _ hev]
          simp only [pack_nibbles]
        simp only [ne_eq, one_ne_zero, not_false_eq_true, if_true]
        refine ⟨trivial, ns' ++ [a, b24 / 16], b24 % 16, by simp, ?_, ?_, ?_, ?_⟩
        · simp only [List.length_append, List.length_cons, List.length_nil]
          omega
        · rw [hpk, ← List.append_assoc, List.length_append, List.length_singleton, hd]
        · rw [hpk, ← List.append_assoc]
          apply Buffer.holds_set_beyond _ _ _ _ _ (by simp only [hd, List.length_append, List.length_singleton]; omega)
          rw [hp, shiftRight_four, and_merge_nibble a ha _ hh, hd]
          exact Buffer.holds_push _ _ _ hb
        · rw [Buffer.set_apply, if_pos rfl, shl_or_fifteen_byte _ h24]
  · by_cases h6 : ty = DEV_GENESIS_6BTNS
    · subst h6
      simp only [gen_multitap_slot, gen_slot_nibbles]
      generalize output j 24 % 256 = b24 at h24 ⊢
      generalize output j 25 % 256 = b25 at h25 ⊢
      have hsplit : b24 = b24 / 16 * 16 + b24 % 16 := by omega
      have hh : b24 / 16 < 16 := by omega
      have hl : b24 % 16 < 16 := by omega
      have hh2 : b25 / 16 < 16 := by omega
      refine ⟨?_, ?_⟩
      · intro x hx
        rcases List.mem_append.mp hx with hx | hx
        · exact hlt x hx
        · simp only [List.mem_cons, List.mem_singleton, List.not_mem_nil, or_false] at hx
          rcases hx with rfl | rfl | rfl <;> assumption
      · rcases hcase with ⟨ho, hev, hd, hb⟩ | ⟨ho, ns', a, rfl, hev, hd, hb, hp⟩
        · subst ho
          right
          have hpk : pack_nibbles (ns ++ [b24 / 16, b24 % 16])
              = pack_nibbles ns ++ [b24] := by
            rw [pack_nibbles_append_even _ _ hev]
            simp only [pack_nibbles]
            rw [← hsplit]
          simp only [ne_eq, not_true_eq_false, if_false]
          refine ⟨trivial, ns ++ [b24 / 16, b24 % 16], b25 / 16, by simp, ?_, ?_, ?_, ?_⟩
          · simp only [List.length_append, List.length_cons, List.length_nil]
            omega
          · rw [hpk, ← List.append_assoc, List.length_append, List.length_singleton, hd]
          · rw [hpk, ← List.append_assoc]
            apply Buffer.holds_set_beyond _ _ _ _ _ (by simp only [hd, List.length_append, List.length_singleton]; omega)
            rw [hd]
            exact Buffer.holds_push _ _ _ hb
          · rw [Buffer.set_apply, if_pos rfl, or_fifteen_byte _ h25]
        · subst ho
          left
          have ha : a < 16 := hlt a (by simp)
          have hpk : pack_nibbles (ns' ++ [a] ++ [b24 / 16, b24 % 16, b25 / 16])
              = pack_nibbles ns' ++ [a * 16 + b24 / 16] ++ [b24 % 16 * 16 + b25 / 16] := by
            rw [List.append_assoc, pack_nibbles_append_even _ _ hev]
            simp only [pack_nibbles, List.singleton_append, List.append_assoc,
              List.cons_append, List.nil_append]
          simp only [ne_eq, one_ne_zero, not_false_eq_true, if_true]
          refine ⟨trivial, ?_, ?_, ?_⟩
          · simp only [List.length_append, List.length_cons, List.length_nil]
            omega
          · rw [hpk]
            simp only [← List.append_assoc, List.length_append, List.length_singleton, hd]
          · rw [hpk, ← List.append_assoc, ← List.append_assoc]
            have e1 : (buf.set data ((buf data &&& (b24 >>> 4 ||| 0xF0)) % 256))
                = buf.set (H ++ pack_nibbles ns').length (a * 16 + b24 / 16) := by
              rw [hp, shiftRight_four, and_merge_nibble a ha _ hh, hd]
            rw [e1, Buffer.set_apply, if_pos rfl, shl_or_fifteen_byte _ h24, shiftRight_four,
              and_merge_nibble _ hl _ hh2]
            have hstep := Buffer.holds_push _ _ (a * 16 + b24 / 16) hb
            have hstep2 := Buffer.holds_push _ _ (b24 % 16 * 16 + b25 / 16) hstep
            have hlen : (H ++ pack_nibbles ns' ++ [a * 16 + b24 / 16]).length = data + 1 := by
              rw [List.length_append, List.length_singleton, hd]
            rw [hlen] at hstep2
            rw [Buffer.set_set, hd]
            rw [hd] at hstep2
            exact hstep2
    · have e1 : gen_multitap_slot output ty j ⟨buf, data, odd⟩ = ⟨buf, data, odd⟩ := by
        cases ty <;> first | rfl | contradiction
      have e2 : gen_slot_nibbles output ty j = [] := by
        cases ty <;> first | rfl | contradiction
      rw [e1, e2, List.append_nil]
      exact ⟨hlt, hcase⟩

theorem gen_multitap_loop_packed (output : WiredData) (mt : Nat → Nat → DevType)
    (port first_port : Nat) (H : List Nat) :
    ∀ (l : List Nat) (st : GenMtState) (ns : List Nat), st.packed H ns →
      (l.foldl (fun st i => gen_multitap_slot output (mt port i) (first_port + i) st) st).packed
        H (ns ++ l.flatMap (fun i => gen_slot_nibbles output (mt port i) (first_port + i)))
  | [], st, ns, h => by simpa using h
  | i :: l, st, ns, h => by
    have h1 := gen_multitap_slot_packed output (mt port i) (first_port + i) st H ns h
    have h2 := gen_multitap_loop_packed output mt port first_port H l _ _ h1
    simpa [List.flatMap_cons, List.append_assoc] using h2

theorem gen_ids_lt (ty : DevType) : gen_ids ty < 16 := by
  cases ty <;> decide

theorem pack_id_nibbles : ∀ a, a < 16 → ∀ b, b < 16 →
    ((a <<< 4) ||| (b &&& 0xF)) % 256 = a * 16 + b := by
  decide

theorem gen_multitap_frame_packed (output : WiredData) (mt : Nat → Nat → DevType)
    (port first_port nb_port : Nat) (buffer : Buffer) :
    (gen_multitap_frame output mt port first_port nb_port buffer).bytes
      = [0x00, gen_ids (mt port 0) * 16 + gen_ids (mt port 1),
          gen_ids (mt port 2) * 16 + gen_ids (mt port 3)]
        ++ pack_nibbles (gen_nibble_stream output mt port first_port nb_port) ∧
    (gen_multitap_frame output mt port first_port nb_port buffer).len
      = 3 + ((gen_nibble_stream output mt port first_port nb_port).length + 1) / 2 := by
  have h0 : (GenMtState.mk (((buffer.set 0 0x00).set 1
      (((gen_ids (mt port 0) <<< 4) ||| (gen_ids (mt port 1) &&& 0xF)) % 256)).set 2
      (((gen_ids (mt port 2) <<< 4) ||| (gen_ids (mt port 3) &&& 0xF)) % 256)) 3 0).packed
      [0x00, gen_ids (mt port 0) * 16 + gen_ids (mt port 1),
        gen_ids (mt port 2) * 16 + gen_ids (mt port 3)] [] := by
    refine ⟨by simp, Or.inl ⟨rfl, rfl, rfl, ?_⟩⟩
    intro i hi
    simp only [pack_nibbles, List.append_nil, List.length_cons, List.length_nil] at hi
    rw [pack_id_nibbles _ (gen_ids_lt _) _ (gen_ids_lt _),
      pack_id_nibbles _ (gen_ids_lt _) _ (gen_ids_lt _)]
    interval_cases i <;> simp [Buffer.set]
  have h := gen_multitap_loop_packed output mt port first_port _ (List.range nb_port) _ _ h0
  rw [List.nil_append] at h
  unfold gen_multitap_frame Frame.bytes gen_nibble_stream
  simp only
  obtain ⟨-, ⟨ho, hev, hd, hb⟩ | ⟨ho, ns', a, hns, hev, hd, hb, hp⟩⟩ := h
  · rw [ho, if_neg (by decide), hd]
    refine ⟨Buffer.holds_bytes _ _ hb, ?_⟩
    rw [List.length_append, pack_nibbles_length]
    simp only [List.length_cons, List.length_nil]
  · rw [ho, if_pos (by decide), hns, pack_nibbles_append_even _ _ hev]
    have hb' := Buffer.holds_concat _ _ (a * 16 + 0xF) hb (by rw [← hd]; exact hp)
    have hl : ∀ B : List Nat, B.length + 1 = (B ++ [a * 16 + 0xF]).length := by
      intro B; simp
    rw [hd, hl, ← List.append_assoc]
    refine ⟨Buffer.holds_bytes _ _ hb', ?_⟩
    simp only [List.length_append, pack_nibbles_length, List.length_cons, List.length_nil]
    omega

/-- C17: the frame `set_gen_multitap` assembles for the four sub-slots of a hub
is the byte `0x00`, the four identity nibbles `gen_ids` of the sub-slot types
packed high nibble first into bytes 1 and 2, then the nibble stream of the
sub-slots (high and low nibble of output byte 24 for a 3-button sub-slot,
followed by the high nibble of output byte 25 for a 6-button one, nothing for
any other type) packed two per byte, high nibble first, with a padding nibble
`0xF` when their number `n` is odd; the length handed to `twh_tx` is
`3 + ceil(n / 2)`, and these bytes are what `twh_tx` is given. -/
theorem set_gen_multitap_frame (tr : Trace) (output : WiredData) (mt : Nat → Nat → DevType)
    (port first_port : Nat) (buffer : Buffer) (s : Gpio) :
    (gen_multitap_frame output mt port first_port MT_GEN_PORT_MAX buffer).bytes
      = [0x00, gen_ids (mt port 0) * 16 + gen_ids (mt port 1),
          gen_ids (mt port 2) * 16 + gen_ids (mt port 3)]
        ++ pack_nibbles (gen_nibble_stream output mt port first_port MT_GEN_PORT_MAX) ∧
    (gen_multitap_frame output mt port first_port MT_GEN_PORT_MAX buffer).len
      = 3 + ((gen_nibble_stream output mt port first_port MT_GEN_PORT_MAX).length + 1) / 2 ∧
    (set_gen_multitap tr output mt port first_port MT_GEN_PORT_MAX buffer s).2
      = twh_tx tr port
          ([0x00, gen_ids (mt port 0) * 16 + gen_ids (mt port 1),
            gen_ids (mt port 2) * 16 + gen_ids (mt port 3)]
            ++ pack_nibbles (gen_nibble_stream output mt port first_port MT_GEN_PORT_MAX)) s := by
  have h := gen_multitap_frame_packed output mt port first_port MT_GEN_PORT_MAX buffer
  refine ⟨h.1, h.2, ?_⟩
  unfold set_gen_multitap
  simp only
  rw [h.1]

/-! ## EA multitap task: the selected word (C11) -/

theorem and_BIT_eq (x k : Nat) : x &&& BIT k = if x.testBit k then BIT k else 0 := by
  unfold BIT
  rw [Nat.one_shiftLeft]
  apply Nat.eq_of_testBit_eq
  intro i
  rw [Nat.testBit_and, Nat.testBit_two_pow]
  by_cases h : k = i
  · subst h
    cases hx : x.testBit k <;> simp [Nat.testBit_two_pow]
  · cases hx : x.testBit k <;> simp [Nat.testBit_two_pow, h]

theorem and_BIT_ne_zero (x k : Nat) : (x &&& BIT k ≠ 0) ↔ x.testBit k = true := by
  rw [and_BIT_eq]
  cases x.testBit k <;> simp [BIT, Nat.one_shiftLeft]

theorem ea_select_id_two (st : EaState) (h : ea_selects_two st) :
    ((st.cur_in0 &&& BIT P2_TR_PIN) >>> (P2_TR_PIN - 1)) |||
      ((st.cur_in1 &&& BIT (P2_TL_PIN - 32)) >>> (P2_TL_PIN - 32)) = 2 := by
  rw [and_BIT_eq, and_BIT_eq, h.1, h.2.1]
  decide

/-- C11, amended: when the sampled select lines encode sub-port 2 (TR of port 2
high, TL of port 2 low, with TH of port 2 low), the word `ea_genesis_task`
stores to `GPIO.out` is the word formed by bytes 0..3 of logical port 2's
output buffer while the handshake line TH of port 1 is high, and the word
formed by bytes 4..7 while it is low. -/
theorem ea_select_sub_port_two (output : WiredData) (st : EaState) (h : ea_selects_two st) :
    (st.cur_in1.testBit (P1_TH_PIN - 32) = true →
      (ea_select output st).g = st.g.set_out (output_word output 2 0)) ∧
    (st.cur_in1.testBit (P1_TH_PIN - 32) = false →
      (ea_select output st).g = st.g.set_out (output_word output 2 4)) := by
  have hth : ¬ (st.cur_in1 &&& BIT (P2_TH_PIN - 32) ≠ 0) := by
    rw [and_BIT_ne_zero, h.2.2]
    simp
  have hid := ea_select_id_two st h
  constructor
  · intro h1
    have h1' : st.cur_in1 &&& BIT (P1_TH_PIN - 32) ≠ 0 := (and_BIT_ne_zero _ _).mpr h1
    unfold ea_select
    rw [if_neg hth]
    simp only [hid]
    rw [if_pos h1']
  · intro h1
    have h1' : ¬ (st.cur_in1 &&& BIT (P1_TH_PIN - 32) ≠ 0) := by
      rw [and_BIT_ne_zero, h1]
      simp
    unfold ea_select
    rw [if_neg hth]
    simp only [hid]
    rw [if_neg h1']

theorem ea_select_sub_port_two_witness :
    ea_selects_two ea_two_high ∧
    (ea_select scenario_output ea_two_high).g
      = ea_two_high.g.set_out (output_word scenario_output 2 0) :=
  ⟨by decide,
    (ea_select_sub_port_two scenario_output ea_two_high (by decide)).1 (by decide)⟩

/-- C11, counterexample: with the select lines encoding sub-port 2 and the
handshake line high, the word stored to `GPIO.out` is `0xC3C2C1C0`, the bytes
0..3 of logical port 2, and not `0xC7C6C5C4`, its bytes 4..7. -/
theorem ea_select_high_is_first_half :
    ea_selects_two ea_two_high ∧
    ea_two_high.cur_in1.testBit (P1_TH_PIN - 32) = true ∧
    (ea_select scenario_output ea_two_high).g.out = 0xC3C2C1C0 ∧
    (ea_select scenario_output ea_two_high).g.log = [RegWrite.out 0xC3C2C1C0] ∧
    output_word scenario_output 2 0 = 0xC3C2C1C0 ∧
    output_word scenario_output 2 4 = 0xC7C6C5C4 ∧
    (ea_select scenario_output ea_two_high).g.out ≠ output_word scenario_output 2 4 := by
  refine ⟨by decide, by decide, by decide, by decide, by decide, by decide, by decide⟩

/-! ## Interrupt handler: an invocation without a status bit (C13) -/

theorem isr_port_spurious (low_io high_io : Nat) (h : isr_spurious low_io high_io) :
    isr_port low_io high_io = 0 := by
  unfold isr_port
  simp [h.1, h.2.1, h.2.2.1, h.2.2.2]

/-- C13, amended: an invocation of `sega_io_isr` whose latched status has
neither port's bit set is handled as an event of port 0. When the handshake
line TH of port 0 reads high, no frame builder is run and no output line is
written: the hardware state is the one after the read of `GPIO.in1.val`, the
buffer is untouched. When it reads low, the frame builder of port 0's device
type is run as for a genuine event of port 0. In both cases the status
registers are cleared of the bits that were set. -/
theorem isr_spurious_is_port_0 (tr : Trace) (output : WiredData) (kb : KbQuery)
    (t : PortTable) (low_io high_io len : Nat) (buffer : Buffer) (s : Gpio)
    (h : isr_spurious low_io high_io) :
    (sega_io_isr tr output kb t low_io high_io len buffer s).g
      = (isr_dispatch tr output kb t 0 len buffer s).1.2 ∧
    (sega_io_isr tr output kb t low_io high_io len buffer s).buffer
      = (isr_dispatch tr output kb t 0 len buffer s).1.1 ∧
    (tr.in1 s.n_in1 &&& BIT (gpio_pin 0 SIO_TH - 32) ≠ 0 →
      (sega_io_isr tr output kb t low_io high_io len buffer s).g = (read_in1 tr s).2 ∧
      (sega_io_isr tr output kb t low_io high_io len buffer s).g.log = s.log ∧
      (sega_io_isr tr output kb t low_io high_io len buffer s).g.out = s.out ∧
      (sega_io_isr tr output kb t low_io high_io len buffer s).g.out1 = s.out1 ∧
      (sega_io_isr tr output kb t low_io high_io len buffer s).buffer = buffer) ∧
    (tr.in1 s.n_in1 &&& BIT (gpio_pin 0 SIO_TH - 32) = 0 →
      t.dev_type 0 = DEV_SATURN_ANALOG →
      (sega_io_isr tr output kb t low_io high_io len buffer s).g
        = (set_analog_pad tr output 0 (t.mt_first_port 0) buffer (read_in1 tr s).2).2) ∧
    (sega_io_isr tr output kb t low_io high_io len buffer s).status1_w1tc
      = (if high_io ≠ 0 then some high_io else none) ∧
    (sega_io_isr tr output kb t low_io high_io len buffer s).status_w1tc
      = (if low_io ≠ 0 then some low_io else none) := by
  have hp := isr_port_spurious low_io high_io h
  refine ⟨?_, ?_, ?_, ?_, rfl, rfl⟩
  · simp only [sega_io_isr, hp]
  · simp only [sega_io_isr, hp]
  · intro hth
    have hd : isr_dispatch tr output kb t 0 len buffer s = ((buffer, (read_in1 tr s).2), false) := by
      unfold isr_dispatch
      simp only
      rw [if_neg]
      exact hth
    have hg : (sega_io_isr tr output kb t low_io high_io len buffer s).g = (read_in1 tr s).2 := by
      simp only [sega_io_isr, hp, hd]
    have hbuf : (sega_io_isr tr output kb t low_io high_io len buffer s).buffer = buffer := by
      simp only [sega_io_isr, hp, hd]
    refine ⟨hg, ?_, ?_, ?_, hbuf⟩
    · rw [hg]; rfl
    · rw [hg]; rfl
    · rw [hg]; rfl
  · intro hth hty
    simp only [sega_io_isr, hp, isr_dispatch]
    rw [if_pos (show (read_in1 tr s).1 &&& BIT (gpio_pin 0 SIO_TH - 32) = 0 from hth), hty]

theorem isr_spurious_is_port_0_witness :
    isr_spurious 0 0 ∧
    (sega_io_isr th0_high scenario_output no_scancode
      (sega_io_init_resolver SATURN two_analog_cfg PortTable.initial) 0 0 2 (fun _ => 0)
      idle_low).g.log = idle_low.log :=
  ⟨by decide,
    ((isr_spurious_is_port_0 th0_high scenario_output no_scancode
      (sega_io_init_resolver SATURN two_analog_cfg PortTable.initial) 0 0 2 (fun _ => 0)
      idle_low (by decide)).2.2.1 (by decide)).2.1⟩

theorem send_frame_stuck (tr : Trace) (port : Nat) (hp : port < 2) (hth : th_low tr port)
    (hstuck : ∀ m, (tr.in0 m &&& BIT (gpio_pin port SIO_TR) != 0) = true)
    (f : Frame) (b : Nat) (rest : List Nat) (hf : f.bytes = b :: rest) (s : Gpio) :
    (send_frame tr port f s).log
      = s.log ++ (nibble_writes port (ID0_SATURN_THREEWIRE_HANDSHAKE &&& 0xF)
          ++ nibble_writes port (ID0_SATURN_THREEWIRE_HANDSHAKE >>> 4)
          ++ [drive port SIO_TL true]) := by
  unfold send_frame
  simp only
  rw [hf, twh_tx, twh_wait_timeout tr port true hth hstuck (TWH_TIMEOUT + 1) 0 _ (Nat.zero_add _)]
  simp only
  rw [set_sio_one, tx_nibble_eq _ _ hp, tx_nibble_eq _ _ hp]
  have e : ∀ (t : Gpio) (n n1 : Nat), ({ t with n_in := n, n_in1 := n1 } : Gpio) = with_reads t n n1 :=
    fun _ _ _ => rfl
  rw [e, foldl_apply_write_with_reads, apply_write_with_reads]
  have h1 := (foldl_apply_write_reads
    (nibble_writes port (ID0_SATURN_THREEWIRE_HANDSHAKE &&& 0xF)) s).2.2
  have h2 := (foldl_apply_write_reads
    (nibble_writes port (ID0_SATURN_THREEWIRE_HANDSHAKE >>> 4))
    ((nibble_writes port (ID0_SATURN_THREEWIRE_HANDSHAKE &&& 0xF)).foldl apply_write s)).2.2
  have h3 := (foldl_apply_write_reads [drive port SIO_TL true]
    ((nibble_writes port (ID0_SATURN_THREEWIRE_HANDSHAKE >>> 4)).foldl apply_write
      ((nibble_writes port (ID0_SATURN_THREEWIRE_HANDSHAKE &&& 0xF)).foldl apply_write s))).2.2
  simp only [List.foldl_cons, List.foldl_nil] at h3
  show (apply_write _ _).log = _
  rw [h3, h2, h1]
  simp only [List.append_assoc]

/-- C13, counterexample: with no status bit latched (`low_io = high_io = 0`),
port 0 resolved as an analog pad and TH of port 0 reading low, `sega_io_isr`
assembles the analog frame in the buffer and drives the output lines of port 0
(here nine register writes, the acknowledgment line never answering). -/
theorem isr_spurious_runs_builder :
    isr_spurious 0 0 ∧
    (sega_io_init_resolver SATURN two_analog_cfg PortTable.initial).dev_type 0
      = DEV_SATURN_ANALOG ∧
    (sega_io_isr stuck_high scenario_output no_scancode
      (sega_io_init_resolver SATURN two_analog_cfg PortTable.initial) 0 0 2 (fun _ => 0)
      idle_low).g.log
      = [RegWrite.out_w1tc (BIT 23), RegWrite.out_w1tc (BIT 18), RegWrite.out_w1tc (BIT 5),
         RegWrite.out_w1ts (BIT 3), RegWrite.out_w1tc (BIT 23), RegWrite.out_w1tc (BIT 18),
         RegWrite.out_w1tc (BIT 5), RegWrite.out_w1ts (BIT 3), RegWrite.out_w1ts (BIT 26)] ∧
    (sega_io_isr stuck_high scenario_output no_scancode
      (sega_io_init_resolver SATURN two_analog_cfg PortTable.initial) 0 0 2 (fun _ => 0)
      idle_low).buffer 0 = 0x16 := by
  have hth : th_low stuck_high 0 := fun _ => Nat.zero_and _
  have hst : ∀ m, (stuck_high.in0 m &&& BIT (gpio_pin 0 SIO_TR) != 0) = true :=
    fun _ => (by decide : (BIT 27 &&& BIT (gpio_pin 0 SIO_TR) != 0) = true)
  have hT : (sega_io_init_resolver SATURN two_analog_cfg PortTable.initial).dev_type 0
      = DEV_SATURN_ANALOG := by decide
  have hF : (sega_io_init_resolver SATURN two_analog_cfg PortTable.initial).mt_first_port 0
      = 0 := by decide
  have hb : (analog_pad_frame scenario_output 0 (fun _ => 0)).bytes
      = 0x16 :: [0xA0, 0xA1, 0xA2, 0xA3, 0xA4, 0xA5, 0x1] := by decide
  refine ⟨by decide, hT, ?_, ?_⟩
  · simp only [sega_io_isr, isr_port_spurious 0 0 (by decide), isr_dispatch]
    rw [if_pos (by decide), hT, hF]
    simp only [set_analog_pad]
    rw [send_frame_stuck stuck_high 0 (by decide) hth hst _ _ _ hb]
    decide
  · simp only [sega_io_isr, isr_port_spurious 0 0 (by decide), isr_dispatch]
    rw [if_pos (by decide), hT, hF]
    decide

/-! ## Genesis task: the bounded wait (C15) -/

theorem poll_loop_exit (tr : Trace) (timeout prev_in cur_in : Nat) (g : Gpio)
    (h : cur_in ^^^ prev_in ≠ 0) :
    poll_loop tr timeout prev_in cur_in g
      = { g := g, cur_in := cur_in, prev_in := prev_in, change := cur_in ^^^ prev_in,
          timed_out := false } := by
  rw [poll_loop, if_pos h]

theorem poll_loop_again (tr : Trace) (timeout prev_in cur_in : Nat) (g : Gpio)
    (h : cur_in ^^^ prev_in = 0) (ht : timeout + 1 ≤ POLL_TIMEOUT) :
    poll_loop tr timeout prev_in cur_in g
      = poll_loop tr (timeout + 1) cur_in (tr.in1 g.n_in1) { g with n_in1 := g.n_in1 + 1 } := by
  rw [poll_loop, if_neg (by rw [h]; simp), dif_neg (by omega)]
  rfl

theorem poll_loop_timeout (tr : Trace) (timeout prev_in cur_in : Nat) (g : Gpio)
    (h : cur_in ^^^ prev_in = 0) (ht : POLL_TIMEOUT < timeout + 1) :
    poll_loop tr timeout prev_in cur_in g
      = { g := { g with n_in1 := g.n_in1 + 1 }, cur_in := tr.in1 g.n_in1, prev_in := cur_in,
          change := 0, timed_out := true } := by
  rw [poll_loop, if_neg (by rw [h]; simp), dif_pos (by omega), h]
  rfl

theorem poll_loop_bound (tr : Trace) :
    ∀ d timeout prev_in cur_in (g : Gpio), timeout ≤ POLL_TIMEOUT → POLL_TIMEOUT - timeout ≤ d →
      (poll_loop tr timeout prev_in cur_in g).g.n_in1 ≤ g.n_in1 + (POLL_TIMEOUT + 1 - timeout) ∧
      ((poll_loop tr timeout prev_in cur_in g).timed_out = true →
        (poll_loop tr timeout prev_in cur_in g).g.n_in1
          = g.n_in1 + (POLL_TIMEOUT + 1 - timeout)) ∧
      (poll_loop tr timeout prev_in cur_in g).g.n_in = g.n_in ∧
      (poll_loop tr timeout prev_in cur_in g).g.out = g.out ∧
      (poll_loop tr timeout prev_in cur_in g).g.out1 = g.out1 ∧
      (poll_loop tr timeout prev_in cur_in g).g.log = g.log := by
  intro d
  induction d with
  | zero =>
    intro timeout prev_in cur_in g h1 h2
    by_cases hc : cur_in ^^^ prev_in = 0
    · rw [poll_loop_timeout tr _ _ _ g hc (by omega)]
      refine ⟨?_, ?_, rfl, rfl, rfl, rfl⟩
      · dsimp only; omega
      · intro _; dsimp only; omega
    · rw [poll_loop_exit tr _ _ _ g hc]
      refine ⟨?_, ?_, rfl, rfl, rfl, rfl⟩
      · dsimp only; omega
      · intro h; simp at h
  | succ d ih =>
    intro timeout prev_in cur_in g h1 h2
    by_cases hc : cur_in ^^^ prev_in = 0
    · by_cases ht : timeout + 1 ≤ POLL_TIMEOUT
      · rw [poll_loop_again tr _ _ _ g hc ht]
        obtain ⟨a, b, c, e, f, k⟩ := ih (timeout + 1) cur_in (tr.in1 g.n_in1)
          { g with n_in1 := g.n_in1 + 1 } ht (by omega)
        refine ⟨?_, ?_, c, e, f, k⟩
        · dsimp only at a; omega
        · intro h
          have := b h
          dsimp only at this; omega
      · rw [poll_loop_timeout tr _ _ _ g hc (by omega)]
        refine ⟨?_, ?_, rfl, rfl, rfl, rfl⟩
        · dsimp only; omega
        · intro _; dsimp only; omega
    · rw [poll_loop_exit tr _ _ _ g hc]
      refine ⟨?_, ?_, rfl, rfl, rfl, rfl⟩
      · dsimp only; omega
      · intro h; simp at h

theorem poll_wait_bound (tr : Trace) (g : Gpio) :
    (poll_wait tr g).g.n_in1 ≤ g.n_in1 + 1 + (POLL_TIMEOUT + 1) ∧
    ((poll_wait tr g).timed_out = true →
      (poll_wait tr g).g.n_in1 = g.n_in1 + 1 + (POLL_TIMEOUT + 1)) ∧
    (poll_wait tr g).g.n_in = g.n_in ∧
    (poll_wait tr g).g.out = g.out ∧
    (poll_wait tr g).g.out1 = g.out1 ∧
    (poll_wait tr g).g.log = g.log := by
  unfold poll_wait
  exact poll_loop_bound tr POLL_TIMEOUT 0 _ _ _ (Nat.zero_le _) (Nat.le_refl _)

theorem poll_loop_changed (tr : Trace) :
    ∀ k timeout prev_in cur_in (g : Gpio), timeout + k < POLL_TIMEOUT →
      cur_in ^^^ prev_in = 0 →
      (∀ i, i < k → tr.in1 (g.n_in1 + i) = cur_in) → tr.in1 (g.n_in1 + k) ≠ cur_in →
      poll_loop tr timeout prev_in cur_in g
        = { g := { g with n_in1 := g.n_in1 + k + 1 }, cur_in := tr.in1 (g.n_in1 + k),
            prev_in := cur_in, change := tr.in1 (g.n_in1 + k) ^^^ cur_in,
            timed_out := false } := by
  intro k
  induction k with
  | zero =>
    intro timeout prev_in cur_in g ht hc _ hne
    rw [poll_loop_again tr _ _ _ g hc (by omega), poll_loop_exit]
    · rfl
    · intro h
      exact hne (Nat.xor_eq_zero.mp h)
  | succ k ih =>
    intro timeout prev_in cur_in g ht hc hq hne
    have h0 := hq 0 (Nat.succ_pos k)
    rw [Nat.add_zero] at h0
    rw [poll_loop_again tr _ _ _ g hc (by omega), h0,
      ih (timeout + 1) cur_in cur_in _ (by omega) (Nat.xor_self _)
        (fun i hi => by
          have := hq (i + 1) (by omega)
          simpa only [Nat.add_assoc, Nat.add_comm 1 i] using this)
        (by simpa only [Nat.add_assoc, Nat.add_comm 1 k] using hne)]
    simp only [Nat.add_assoc, Nat.add_comm 1 k]

theorem poll_loop_silent (tr : Trace) :
    ∀ d timeout prev_in cur_in (g : Gpio), timeout + d = POLL_TIMEOUT →
      cur_in ^^^ prev_in = 0 → (∀ i, i < d → tr.in1 (g.n_in1 + i) = cur_in) →
      poll_loop tr timeout prev_in cur_in g
        = { g := { g with n_in1 := g.n_in1 + d + 1 }, cur_in := tr.in1 (g.n_in1 + d),
            prev_in := cur_in, change := 0, timed_out := true } := by
  intro d
  induction d with
  | zero =>
    intro timeout prev_in cur_in g ht hc _
    rw [poll_loop_timeout tr _ _ _ g hc (by omega)]
    rfl
  | succ d ih =>
    intro timeout prev_in cur_in g ht hc hq
    have h0 := hq 0 (Nat.succ_pos d)
    rw [Nat.add_zero] at h0
    rw [poll_loop_again tr _ _ _ g hc (by omega), h0,
      ih (timeout + 1) cur_in cur_in _ (by omega) (Nat.xor_self _)
        (fun i hi => by
          have := hq (i + 1) (by omega)
          simpa only [Nat.add_assoc, Nat.add_comm 1 i] using this)]
    simp only [Nat.add_assoc, Nat.add_comm 1 d]

theorem poll_wait_changed (tr : Trace) (g : Gpio) (k : Nat) (h : poll_changes tr g.n_in1 k) :
    poll_wait tr g
      = { g := { g with n_in1 := g.n_in1 + 1 + k + 1 }, cur_in := tr.in1 (g.n_in1 + 1 + k),
          prev_in := tr.in1 g.n_in1, change := tr.in1 (g.n_in1 + 1 + k) ^^^ tr.in1 g.n_in1,
          timed_out := false } := by
  unfold poll_wait
  simp only [read_in1]
  rw [poll_loop_changed tr k 0 _ _ _ (by have := h.1; omega) (Nat.xor_self _) h.2.1 h.2.2]

theorem poll_wait_silent (tr : Trace) (g : Gpio) (h : poll_silent tr g.n_in1) :
    poll_wait tr g
      = { g := { g with n_in1 := g.n_in1 + 1 + POLL_TIMEOUT + 1 },
          cur_in := tr.in1 (g.n_in1 + 1 + POLL_TIMEOUT),
          prev_in := tr.in1 g.n_in1, change := 0, timed_out := true } := by
  unfold poll_wait
  simp only [read_in1]
  rw [poll_loop_silent tr POLL_TIMEOUT 0 (tr.in1 g.n_in1) (tr.in1 g.n_in1)
    { g with n_in1 := g.n_in1 + 1 } (Nat.zero_add _) (Nat.xor_self _) (fun i hi => h i hi)]

/-! ## Genesis task: single steps -/

theorem genesis_task_add (tr : Trace) (output : WiredData) (t : PortTable) :
    ∀ (a b : Nat) (st : GenState),
      sega_genesis_task tr output t (a + b) st
        = sega_genesis_task tr output t b (sega_genesis_task tr output t a st)
  | 0, b, st => by rw [Nat.zero_add]; rfl
  | a + 1, b, st => by
    rw [Nat.add_right_comm]
    exact genesis_task_add tr output t a b _

theorem genesis_task_one (tr : Trace) (output : WiredData) (t : PortTable) (st : GenState) :
    sega_genesis_task tr output t 1 st = genesis_step tr output t st := rfl

theorem genesis_step_wait_edge (tr : Trace) (output : WiredData) (t : PortTable)
    (st : GenState) (h : st.pc = Pc.wait_edge) :
    genesis_step tr output t st = step_wait_edge tr st := by
  unfold genesis_step; rw [h]

theorem genesis_step_edge_poll (tr : Trace) (output : WiredData) (t : PortTable)
    (st : GenState) (h : st.pc = Pc.edge_poll) :
    genesis_step tr output t st = step_edge_poll tr st := by
  unfold genesis_step; rw [h]

theorem genesis_step_poll_start (tr : Trace) (output : WiredData) (t : PortTable)
    (st : GenState) (p : Nat) (h : st.pc = Pc.poll_start p) :
    genesis_step tr output t st = step_poll_start p st := by
  unfold genesis_step; rw [h]

theorem genesis_step_cycle (tr : Trace) (output : WiredData) (t : PortTable)
    (st : GenState) (p k : Nat) (h : st.pc = Pc.cycle p k) :
    genesis_step tr output t st = step_cycle tr output t p k st := by
  unfold genesis_step; rw [h]

theorem genesis_step_poll (tr : Trace) (output : WiredData) (t : PortTable)
    (st : GenState) (p k : Nat) (h : st.pc = Pc.poll p k) :
    genesis_step tr output t st = step_poll tr p k st := by
  unfold genesis_step; rw [h]

theorem genesis_step_next_poll (tr : Trace) (output : WiredData) (t : PortTable)
    (st : GenState) (h : st.pc = Pc.next_poll) :
    genesis_step tr output t st = step_next_poll st := by
  unfold genesis_step; rw [h]

theorem stall_start_fields (st : GenState) :
    (stall_start st).g = st.g ∧ (stall_start st).pc = st.pc ∧
    (stall_start st).buffer = st.buffer ∧
    (stall_start st).p1_out0 = st.p1_out0 ∧ (stall_start st).p1_out1 = st.p1_out1 ∧
    (stall_start st).p2_out0 = st.p2_out0 ∧ (stall_start st).p2_out1 = st.p2_out1 := by
  unfold stall_start
  split_ifs <;> exact ⟨rfl, rfl, rfl, rfl, rfl, rfl, rfl⟩

theorem stall_end_fields (st : GenState) :
    (stall_end st).g = st.g ∧ (stall_end st).pc = st.pc ∧
    (stall_end st).buffer = st.buffer ∧
    (stall_end st).p1_out0 = st.p1_out0 ∧ (stall_end st).p1_out1 = st.p1_out1 ∧
    (stall_end st).p2_out0 = st.p2_out0 ∧ (stall_end st).p2_out1 = st.p2_out1 ∧
    (stall_end st).lock = 0 := by
  unfold stall_end
  split_ifs with h
  · exact ⟨rfl, rfl, rfl, rfl, rfl, rfl, rfl, rfl⟩
  · exact ⟨rfl, rfl, rfl, rfl, rfl, rfl, rfl, by simpa using h⟩

theorem refresh_image_fields (p : Nat) (st : GenState) :
    (refresh_image p st).g = st.g ∧ (refresh_image p st).pc = st.pc ∧
    (refresh_image p st).buffer = st.buffer ∧
    (refresh_image p st).lock = st.lock ∧ (refresh_image p st).stalled = st.stalled ∧
    (refresh_image p st).held0 p = st.held0 p ∧ (refresh_image p st).held1 p = st.held1 p := by
  unfold refresh_image GenState.held0 GenState.held1
  by_cases h : p = 0
  · simp [h]
  · simp [h]

theorem stall_start_held (st : GenState) (p : Nat) :
    (stall_start st).held0 p = st.held0 p ∧ (stall_start st).held1 p = st.held1 p := by
  have h := stall_start_fields st
  unfold GenState.held0 GenState.held1
  rw [h.2.2.2.1, h.2.2.2.2.1, h.2.2.2.2.2.1, h.2.2.2.2.2.2]
  exact ⟨rfl, rfl⟩

theorem cycle_store_fields (output : WiredData) (p k : Nat) (st : GenState) :
    (cycle_store output p k st).g.log
      = st.g.log ++ cycle_writes output p (st.held0 p) (st.held1 p) k ∧
    (cycle_store output p k st).g.n_in1 = st.g.n_in1 ∧
    (cycle_store output p k st).g.n_in = st.g.n_in ∧
    (cycle_store output p k st).g.out = cycle_word0 output p k &&& st.held0 p ∧
    (cycle_store output p k st).g.out1 = cycle_word1 output p k &&& st.held1 p ∧
    (cycle_store output p k st).held0 p = st.held0 p ∧
    (cycle_store output p k st).held1 p = st.held1 p ∧
    (cycle_store output p k st).pc = st.pc := by
  refine ⟨?_, rfl, rfl, rfl, rfl, rfl, rfl, rfl⟩
  simp [cycle_store, Gpio.set_out, Gpio.set_out1, cycle_writes]

/-- What a cycle write that is followed by a wait leaves behind. -/
theorem step_cycle_continues (tr : Trace) (output : WiredData) (t : PortTable) (p k : Nat)
    (st : GenState) (hc : continues t p k) :
    (step_cycle tr output t p k st).pc = Pc.poll p k ∧
    (step_cycle tr output t p k st).g.log
      = st.g.log ++ cycle_writes output p (st.held0 p) (st.held1 p) k ∧
    (step_cycle tr output t p k st).g.n_in1 = st.g.n_in1 ∧
    (step_cycle tr output t p k st).held0 p = st.held0 p ∧
    (step_cycle tr output t p k st).held1 p = st.held1 p := by
  obtain ⟨h7, h0, h2⟩ := hc
  have hcs := cycle_store_fields output p k st
  have key : ∀ s : GenState, s.g = (cycle_store output p k st).g →
      s.held0 p = st.held0 p → s.held1 p = st.held1 p →
      ({ refresh_image p s with pc := Pc.poll p k } : GenState).pc = Pc.poll p k ∧
      ({ refresh_image p s with pc := Pc.poll p k } : GenState).g.log
        = st.g.log ++ cycle_writes output p (st.held0 p) (st.held1 p) k ∧
      ({ refresh_image p s with pc := Pc.poll p k } : GenState).g.n_in1 = st.g.n_in1 ∧
      ({ refresh_image p s with pc := Pc.poll p k } : GenState).held0 p = st.held0 p ∧
      ({ refresh_image p s with pc := Pc.poll p k } : GenState).held1 p = st.held1 p := by
    intro s hg hh0 hh1
    have hr := refresh_image_fields p s
    refine ⟨rfl, ?_, ?_, ?_, ?_⟩
    · show (refresh_image p s).g.log = _
      rw [hr.1, hg, hcs.1]
    · show (refresh_image p s).g.n_in1 = _
      rw [hr.1, hg, hcs.2.1]
    · show (refresh_image p s).held0 p = _
      rw [hr.2.2.2.2.2.1, hh0]
    · show (refresh_image p s).held1 p = _
      rw [hr.2.2.2.2.2.2, hh1]
  unfold step_cycle
  simp only
  by_cases hk0 : k = 0
  · subst hk0
    rw [if_pos rfl, if_neg (h0 rfl), if_pos (by decide)]
    exact key _ (stall_start_fields _).1
      (by rw [(stall_start_held _ p).1, hcs.2.2.2.2.2.1])
      (by rw [(stall_start_held _ p).2, hcs.2.2.2.2.2.2.1])
  · rw [if_neg hk0]
    by_cases hk2 : k = 2
    · subst hk2
      rw [if_pos rfl, if_pos (h2 rfl), if_neg (by decide)]
      exact key _ rfl hcs.2.2.2.2.2.1 hcs.2.2.2.2.2.2.1
    · rw [if_neg hk2, if_neg (by omega)]
      by_cases hk1 : k < 2
      · rw [if_pos hk1]
        exact key _ (stall_start_fields _).1
          (by rw [(stall_start_held _ p).1, hcs.2.2.2.2.2.1])
          (by rw [(stall_start_held _ p).2, hcs.2.2.2.2.2.2.1])
      · rw [if_neg hk1]
        exact key _ rfl hcs.2.2.2.2.2.1 hcs.2.2.2.2.2.2.1

theorem step_poll_changed (tr : Trace) (p k : Nat) (st : GenState) (j : Nat)
    (h : poll_changes tr st.g.n_in1 j)
    (hs : (tr.in1 (st.g.n_in1 + 1 + j) ^^^ tr.in1 st.g.n_in1) &&& TH_BIT (1 - p) = 0) :
    (step_poll tr p k st).pc = Pc.cycle p (k + 1) ∧
    (step_poll tr p k st).g.log = st.g.log ∧
    (step_poll tr p k st).g.n_in1 = st.g.n_in1 + 1 + j + 1 ∧
    (step_poll tr p k st).held0 p = st.held0 p ∧
    (step_poll tr p k st).held1 p = st.held1 p ∧
    (step_poll tr p k st).g.out = st.g.out ∧
    (step_poll tr p k st).g.out1 = st.g.out1 ∧
    (step_poll tr p k st).lock = st.lock := by
  unfold step_poll
  simp only [poll_wait_changed tr st.g j h]
  rw [if_neg (by simp), if_neg (by rw [hs]; simp)]
  exact ⟨rfl, rfl, rfl, rfl, rfl, rfl, rfl, rfl⟩

theorem step_poll_preempted (tr : Trace) (p k : Nat) (st : GenState) (j : Nat)
    (h : poll_changes tr st.g.n_in1 j)
    (hs : (tr.in1 (st.g.n_in1 + 1 + j) ^^^ tr.in1 st.g.n_in1) &&& TH_BIT (1 - p) ≠ 0) :
    (step_poll tr p k st).pc = Pc.poll_start (1 - p) ∧
    (step_poll tr p k st).g.log = st.g.log ∧
    (step_poll tr p k st).g.n_in1 = st.g.n_in1 + 1 + j + 1 ∧
    (step_poll tr p k st).cur_in = tr.in1 (st.g.n_in1 + 1 + j) ∧
    (step_poll tr p k st).g.out = st.g.out ∧
    (step_poll tr p k st).g.out1 = st.g.out1 ∧
    (step_poll tr p k st).p1_out0 = st.p1_out0 ∧ (step_poll tr p k st).p1_out1 = st.p1_out1 ∧
    (step_poll tr p k st).p2_out0 = st.p2_out0 ∧ (step_poll tr p k st).p2_out1 = st.p2_out1 := by
  unfold step_poll
  simp only [poll_wait_changed tr st.g j h]
  rw [if_neg (by simp), if_pos hs]
  exact ⟨rfl, rfl, rfl, rfl, rfl, rfl, rfl, rfl, rfl, rfl⟩

theorem step_poll_silent (tr : Trace) (p k : Nat) (st : GenState)
    (h : poll_silent tr st.g.n_in1) :
    (step_poll tr p k st).pc = Pc.next_poll ∧
    (step_poll tr p k st).g.log = st.g.log ∧
    (step_poll tr p k st).g.n_in1 = st.g.n_in1 + 1 + POLL_TIMEOUT + 1 ∧
    (step_poll tr p k st).g.out = st.g.out ∧
    (step_poll tr p k st).g.out1 = st.g.out1 ∧
    (step_poll tr p k st).lock = st.lock := by
  unfold step_poll
  simp only [poll_wait_silent tr st.g h]
  rw [if_pos trivial]
  exact ⟨rfl, rfl, rfl, rfl, rfl, rfl⟩

/-- A cycle write that is the last store of its sequence. -/
theorem step_cycle_last (tr : Trace) (output : WiredData) (t : PortTable) (p k : Nat)
    (st : GenState) (hk : k = 7 ∨ (k = 2 ∧ t.dev_type p ≠ DEV_GENESIS_6BTNS)) :
    (step_cycle tr output t p k st).pc = Pc.next_poll ∧
    (step_cycle tr output t p k st).g.log
      = st.g.log ++ cycle_writes output p (st.held0 p) (st.held1 p) k := by
  have hcs := cycle_store_fields output p k st
  have hr := refresh_image_fields p (cycle_store output p k st)
  unfold step_cycle
  simp only
  rcases hk with rfl | ⟨rfl, h6⟩
  · rw [if_neg (show ¬ (7 = 0) by decide), if_neg (show ¬ (7 = 2) by decide),
      if_pos (show 7 ≤ 7 by decide), if_neg (show ¬ (7 < 2) by decide)]
    refine ⟨rfl, ?_⟩
    show (refresh_image p _).g.log = _
    rw [hr.1, hcs.1]
  · rw [if_neg (show ¬ (2 = 0) by decide), if_pos (show 2 = 2 from rfl), if_neg h6,
      if_neg (show ¬ (2 < 2) by decide)]
    refine ⟨rfl, ?_⟩
    show (refresh_image p _).g.log = _
    rw [hr.1, hcs.1]

theorem step_next_poll_fields (st : GenState) :
    (step_next_poll st).pc = Pc.wait_edge ∧ (step_next_poll st).lock = 0 ∧
    (step_next_poll st).g = st.g := by
  have h := stall_end_fields st
  exact ⟨rfl, h.2.2.2.2.2.2.2, h.1⟩

theorem cycles_run (tr : Trace) (output : WiredData) (t : PortTable) (p : Nat) :
    ∀ (m k : Nat) (st : GenState), st.pc = Pc.cycle p k →
      (∀ j, k ≤ j → j < k + m → continues t p j) → edges_in_time tr p st.g.n_in1 m →
      (sega_genesis_task tr output t (2 * m) st).pc = Pc.cycle p (k + m) ∧
      (sega_genesis_task tr output t (2 * m) st).g.log
        = st.g.log ++ (List.range' k m).flatMap
            (cycle_writes output p (st.held0 p) (st.held1 p)) ∧
      (sega_genesis_task tr output t (2 * m) st).held0 p = st.held0 p ∧
      (sega_genesis_task tr output t (2 * m) st).held1 p = st.held1 p
  | 0, k, st, hpc, _, _ => by
    refine ⟨hpc, ?_, rfl, rfl⟩
    simp [sega_genesis_task]
  | m + 1, k, st, hpc, hcont, hedge => by
    obtain ⟨j, hj, hs, hrest⟩ := hedge
    have hc := step_cycle_continues tr output t p k st (hcont k (Nat.le_refl _) (by omega))
    have e1 : genesis_step tr output t st = step_cycle tr output t p k st :=
      genesis_step_cycle tr output t st p k hpc
    have e2 : genesis_step tr output t (step_cycle tr output t p k st)
        = step_poll tr p k (step_cycle tr output t p k st) :=
      genesis_step_poll tr output t _ p k hc.1
    have hn := hc.2.2.1
    have hp := step_poll_changed tr p k (step_cycle tr output t p k st) j
      (by rw [hn]; exact hj) (by rw [hn]; exact hs)
    have ih := cycles_run tr output t p m (k + 1)
      (step_poll tr p k (step_cycle tr output t p k st)) hp.1
      (fun i h1 h2 => hcont i (by omega) (by omega))
      (by rw [hp.2.2.1, hn]; exact hrest)
    have e3 : sega_genesis_task tr output t (2 * (m + 1)) st
        = sega_genesis_task tr output t (2 * m)
            (step_poll tr p k (step_cycle tr output t p k st)) := by
      have : 2 * (m + 1) = (2 * m + 1) + 1 := by omega
      rw [this]
      show sega_genesis_task tr output t (2 * m + 1) (genesis_step tr output t st) = _
      rw [e1]
      show sega_genesis_task tr output t (2 * m) (genesis_step tr output t _) = _
      rw [e2]
    rw [e3]
    refine ⟨?_, ?_, ?_, ?_⟩
    · rw [ih.1]; congr 1; omega
    · rw [ih.2.1, hp.2.1, hc.2.1, hp.2.2.2.1, hp.2.2.2.2.1, hc.2.2.2.1, hc.2.2.2.2,
        List.range'_succ, List.flatMap_cons, List.append_assoc]
    · rw [ih.2.2.1, hp.2.2.2.1, hc.2.2.2.1]
    · rw [ih.2.2.2, hp.2.2.2.2.1, hc.2.2.2.2]

theorem activation_start (tr : Trace) (output : WiredData) (t : PortTable) (st : GenState)
    (p : Nat) (hp : p < 2) (h : falling_edge st p) :
    (sega_genesis_task tr output t 2 st).pc = Pc.cycle p 0 ∧
    (sega_genesis_task tr output t 2 st).g = st.g ∧
    (sega_genesis_task tr output t 2 st).held0 p = st.held0 p ∧
    (sega_genesis_task tr output t 2 st).held1 p = st.held1 p := by
  obtain ⟨hpc, hown, hother, hlow⟩ := h
  have hne : st.cur_in ^^^ st.prev_in ≠ 0 := by
    intro h0
    rw [h0, Nat.zero_and] at hown
    exact hown rfl
  have e1 : genesis_step tr output t st
      = { st with change := st.cur_in ^^^ st.prev_in, pc := Pc.poll_start p } := by
    rw [genesis_step_edge_poll tr output t st hpc]
    unfold step_edge_poll
    simp only
    rw [if_neg hne]
    interval_cases p
    · rw [if_pos (show (st.cur_in ^^^ st.prev_in) &&& BIT (P1_TH_PIN - 32) ≠ 0 from hown)]
    · rw [if_neg (show ¬ ((st.cur_in ^^^ st.prev_in) &&& BIT (P1_TH_PIN - 32) ≠ 0) by
        rw [ne_eq, not_not]; exact hother)]
  have e0 : sega_genesis_task tr output t 2 st
      = genesis_step tr output t (genesis_step tr output t st) := rfl
  rw [e0, e1, genesis_step_poll_start tr output t _ p rfl]
  unfold step_poll_start
  simp only
  rw [if_neg (by rw [ne_eq, not_not]; exact hlow)]
  exact ⟨rfl, rfl, rfl, rfl⟩

/-! ## Genesis task: the 6-button sequence (C19) -/

theorem p1_th_edges_step (n : Nat) (hn : n % 2 = 0) :
    poll_changes p1_th_edges n 0 ∧
    (p1_th_edges.in1 (n + 1 + 0) ^^^ p1_th_edges.in1 n) &&& TH_BIT (1 - 0) = 0 := by
  have h4 : n % 4 = 0 ∨ n % 4 = 2 := by omega
  unfold poll_changes p1_th_edges
  simp only [Nat.add_zero]
  rcases h4 with h | h
  · have h1 : (n + 1) % 4 = 1 := by omega
    simp only [h, h1]
    refine ⟨⟨by decide, fun i hi => absurd hi (Nat.not_lt_zero i), by decide⟩, by decide⟩
  · have h1 : (n + 1) % 4 = 3 := by omega
    simp only [h, h1]
    refine ⟨⟨by decide, fun i hi => absurd hi (Nat.not_lt_zero i), by decide⟩, by decide⟩

theorem p1_th_edges_in_time : ∀ (m n : Nat), n % 2 = 0 → edges_in_time p1_th_edges 0 n m
  | 0, _, _ => trivial
  | m + 1, n, hn =>
    ⟨0, (p1_th_edges_step n hn).1, (p1_th_edges_step n hn).2,
      p1_th_edges_in_time m (n + 1 + 0 + 1) (by omega)⟩

theorem after_p1_fall_falling :
    falling_edge after_p1_fall 0 ∧ after_p1_fall.g.n_in1 = 2 ∧ after_p1_fall.g.log = [] := by
  decide

theorem step_cycle_two_pc (tr : Trace) (output : WiredData) (t : PortTable) (p : Nat)
    (st : GenState) :
    (step_cycle tr output t p 2 st).pc
      = if t.dev_type p = DEV_GENESIS_6BTNS then Pc.poll p 2 else Pc.next_poll := by
  by_cases h : t.dev_type p = DEV_GENESIS_6BTNS
  · simp [step_cycle, h]
  · simp [step_cycle, h]

theorem three_button_run (tr : Trace) (output : WiredData) (t : PortTable) (st : GenState)
    (p : Nat) (hp : p < 2) (h3 : t.dev_type p = DEV_GENESIS_3BTNS) (hf : falling_edge st p)
    (he : edges_in_time tr p st.g.n_in1 2) :
    (sega_genesis_task tr output t 7 st).pc = Pc.next_poll ∧
    (sega_genesis_task tr output t 8 st).pc = Pc.wait_edge ∧
    (sega_genesis_task tr output t 8 st).g.log
      = st.g.log ++ (List.range 3).flatMap
          (cycle_writes output p (st.held0 p) (st.held1 p)) := by
  have hs := activation_start tr output t st p hp hf
  have hc := cycles_run tr output t p 2 0 (sega_genesis_task tr output t 2 st) hs.1
    (fun j _ hj => ⟨by omega, fun _ => by rw [h3]; decide, fun h => by omega⟩)
    (by rw [hs.2.1]; exact he)
  rw [← genesis_task_add tr output t 2 (2 * 2) st, Nat.zero_add] at hc
  have e7 : sega_genesis_task tr output t 7 st
      = step_cycle tr output t p 2 (sega_genesis_task tr output t (2 + 2 * 2) st) := by
    rw [show 7 = (2 + 2 * 2) + 1 from rfl, genesis_task_add, genesis_task_one,
      genesis_step_cycle tr output t _ p 2 hc.1]
  have hl := step_cycle_last tr output t p 2 (sega_genesis_task tr output t (2 + 2 * 2) st)
    (Or.inr ⟨rfl, by rw [h3]; decide⟩)
  have hlog : (sega_genesis_task tr output t 7 st).g.log
      = st.g.log ++ (List.range 3).flatMap
          (cycle_writes output p (st.held0 p) (st.held1 p)) := by
    rw [e7, hl.2, hc.2.1, hc.2.2.1, hc.2.2.2, hs.2.1, hs.2.2.1, hs.2.2.2, List.append_assoc]
    rfl
  have hpc : (sega_genesis_task tr output t 7 st).pc = Pc.next_poll := by
    rw [e7]; exact hl.1
  have e8 : sega_genesis_task tr output t 8 st
      = step_next_poll (sega_genesis_task tr output t 7 st) := by
    rw [show 8 = 7 + 1 from rfl, genesis_task_add, genesis_task_one,
      genesis_step_next_poll tr output t _ hpc]
  refine ⟨hpc, ?_, ?_⟩
  · rw [e8]; rfl
  · rw [e8, (step_next_poll_fields _).2.2, hlog]

theorem genesis_task_succ (tr : Trace) (output : WiredData) (t : PortTable) (n : Nat)
    (st : GenState) :
    sega_genesis_task tr output t (n + 1) st
      = genesis_step tr output t (sega_genesis_task tr output t n st) := by
  rw [genesis_task_add, genesis_task_one]

theorem three_button_run_timeout (tr : Trace) (output : WiredData) (t : PortTable)
    (st : GenState) (p : Nat) (hp : p < 2) (h3 : t.dev_type p = DEV_GENESIS_3BTNS)
    (hf : falling_edge st p) (j : Nat) (hj : poll_changes tr st.g.n_in1 j)
    (ho : (tr.in1 (st.g.n_in1 + 1 + j) ^^^ tr.in1 st.g.n_in1) &&& TH_BIT (1 - p) = 0)
    (hq : poll_silent tr (st.g.n_in1 + 1 + j + 1)) :
    (sega_genesis_task tr output t 6 st).pc = Pc.next_poll ∧
    (sega_genesis_task tr output t 7 st).pc = Pc.wait_edge ∧
    (sega_genesis_task tr output t 7 st).g.log
      = st.g.log ++ (List.range 2).flatMap
          (cycle_writes output p (st.held0 p) (st.held1 p)) := by
  have hs := activation_start tr output t st p hp hf
  have hcont : ∀ k, k < 2 → continues t p k := fun k hk =>
    ⟨by omega, fun _ => by rw [h3]; decide, fun h => by omega⟩
  have c0 := step_cycle_continues tr output t p 0 (sega_genesis_task tr output t 2 st)
    (hcont 0 (by decide))
  have e3 : sega_genesis_task tr output t 3 st
      = step_cycle tr output t p 0 (sega_genesis_task tr output t 2 st) := by
    rw [genesis_task_succ, genesis_step_cycle tr output t _ p 0 hs.1]
  rw [← e3] at c0
  have p0 := step_poll_changed tr p 0 (sega_genesis_task tr output t 3 st) j
    (by rw [c0.2.2.1, hs.2.1]; exact hj) (by rw [c0.2.2.1, hs.2.1]; exact ho)
  have e4 : sega_genesis_task tr output t 4 st
      = step_poll tr p 0 (sega_genesis_task tr output t 3 st) := by
    rw [genesis_task_succ, genesis_step_poll tr output t _ p 0 c0.1]
  rw [← e4] at p0
  have c1 := step_cycle_continues tr output t p 1 (sega_genesis_task tr output t 4 st)
    (hcont 1 (by decide))
  have e5 : sega_genesis_task tr output t 5 st
      = step_cycle tr output t p 1 (sega_genesis_task tr output t 4 st) := by
    rw [genesis_task_succ, genesis_step_cycle tr output t _ p 1 p0.1]
  rw [← e5] at c1
  have p1 := step_poll_silent tr p 1 (sega_genesis_task tr output t 5 st)
    (by rw [c1.2.2.1, p0.2.2.1, c0.2.2.1, hs.2.1]; exact hq)
  have e6 : sega_genesis_task tr output t 6 st
      = step_poll tr p 1 (sega_genesis_task tr output t 5 st) := by
    rw [genesis_task_succ, genesis_step_poll tr output t _ p 1 c1.1]
  rw [← e6] at p1
  have e7 : sega_genesis_task tr output t 7 st
      = step_next_poll (sega_genesis_task tr output t 6 st) := by
    rw [genesis_task_succ, genesis_step_next_poll tr output t _ p1.1]
  refine ⟨p1.1, ?_, ?_⟩
  · rw [e7]; rfl
  · rw [e7, (step_next_poll_fields _).2.2, p1.2.1, c1.2.1, p0.2.1, c0.2.1, p0.2.2.2.1,
      p0.2.2.2.2.1, c0.2.2.2.1, c0.2.2.2.2, hs.2.1, hs.2.2.1, hs.2.2.2, List.append_assoc]
    rfl

/-- C14, amended: for a port resolved as Genesis 3-button, an activation
started by a falling edge of its TH line, with TH of the other port silent,
performs three cycle writes when the two following edges arrive before the
timeout of their waits: the CycleLow word `map[1]`, the CycleHigh word `map[0]`
and the CycleLow word `map[1]` again (Cycle1 low), each combined with the other
port's held image; it is then back at the first wait. It performs only the
first two when one edge arrives and the wait behind the CycleHigh write times
out. The Cycle1 low write is the last one for every port that is not a
6-button pad. -/
theorem three_button_activation (tr : Trace) (output : WiredData) (t : PortTable)
    (st : GenState) (p : Nat) (hp : p < 2) (h3 : t.dev_type p = DEV_GENESIS_3BTNS)
    (hf : falling_edge st p) :
    (edges_in_time tr p st.g.n_in1 2 →
      (sega_genesis_task tr output t 8 st).pc = Pc.wait_edge ∧
      (sega_genesis_task tr output t 8 st).g.log
        = st.g.log ++
          [RegWrite.out (port_map output p 1 &&& st.held0 p),
           RegWrite.out1 (port_map output p 4 &&& st.held1 p),
           RegWrite.out (port_map output p 0 &&& st.held0 p),
           RegWrite.out1 (port_map output p 3 &&& st.held1 p),
           RegWrite.out (port_map output p 1 &&& st.held0 p),
           RegWrite.out1 (port_map output p 4 &&& st.held1 p)]) ∧
    (∀ j, poll_changes tr st.g.n_in1 j →
      (tr.in1 (st.g.n_in1 + 1 + j) ^^^ tr.in1 st.g.n_in1) &&& TH_BIT (1 - p) = 0 →
      poll_silent tr (st.g.n_in1 + 1 + j + 1) →
      (sega_genesis_task tr output t 7 st).pc = Pc.wait_edge ∧
      (sega_genesis_task tr output t 7 st).g.log
        = st.g.log ++
          [RegWrite.out (port_map output p 1 &&& st.held0 p),
           RegWrite.out1 (port_map output p 4 &&& st.held1 p),
           RegWrite.out (port_map output p 0 &&& st.held0 p),
           RegWrite.out1 (port_map output p 3 &&& st.held1 p)]) ∧
    (∀ s : GenState, (step_cycle tr output t p 2 s).pc = Pc.next_poll) ∧
    (∀ (t' : PortTable) (s : GenState),
      (step_cycle tr output t' p 2 s).pc
        = if t'.dev_type p = DEV_GENESIS_6BTNS then Pc.poll p 2 else Pc.next_poll) := by
  refine ⟨?_, ?_, ?_, ?_⟩
  · intro he
    have h := three_button_run tr output t st p hp h3 hf he
    exact ⟨h.2.1, h.2.2⟩
  · intro j hj ho hq
    have h := three_button_run_timeout tr output t st p hp h3 hf j hj ho hq
    exact ⟨h.2.1, h.2.2⟩
  · intro s
    rw [step_cycle_two_pc, h3, if_neg (by decide)]
  · intro t' s
    exact step_cycle_two_pc tr output t' p s

theorem three_button_activation_witness :
    0 < 2 ∧ genesis_three_table.dev_type 0 = DEV_GENESIS_3BTNS ∧
    falling_edge after_p1_fall 0 ∧
    edges_in_time p1_th_edges 0 after_p1_fall.g.n_in1 2 ∧
    (sega_genesis_task p1_th_edges scenario_output genesis_three_table 8 after_p1_fall).pc
      = Pc.wait_edge :=
  ⟨by decide, by decide, after_p1_fall_falling.1, p1_th_edges_in_time 2 2 (by decide),
    ((three_button_activation p1_th_edges scenario_output genesis_three_table after_p1_fall 0
      (by decide) (by decide) after_p1_fall_falling.1).1
      (p1_th_edges_in_time 2 2 (by decide))).1⟩

/-- C14, counterexample: port 1 resolved as 3-button, TH of port 1 toggling at
every second read and nothing else changing. The activation started by the
falling edge performs three cycle writes (six register stores), the third one
repeating the CycleLow word, before the task is back at the first wait. -/
theorem three_button_third_write :
    genesis_three_table.dev_type 0 = DEV_GENESIS_3BTNS ∧
    falling_edge after_p1_fall 0 ∧ after_p1_fall.g.log = [] ∧
    edges_in_time p1_th_edges 0 after_p1_fall.g.n_in1 2 ∧
    (sega_genesis_task p1_th_edges scenario_output genesis_three_table 8 after_p1_fall).pc
      = Pc.wait_edge ∧
    (sega_genesis_task p1_th_edges scenario_output genesis_three_table 8 after_p1_fall).g.log
      = [RegWrite.out 0xA586A5A4, RegWrite.out1 0xB3B2B1B0,
         RegWrite.out 0xA182A1A0, RegWrite.out1 0xAFAEADAC,
         RegWrite.out 0xA586A5A4, RegWrite.out1 0xB3B2B1B0] ∧
    (sega_genesis_task p1_th_edges scenario_output genesis_three_table 8
      after_p1_fall).g.log.length ≠ 2 * 2 := by
  have h := three_button_run p1_th_edges scenario_output genesis_three_table after_p1_fall 0
    (by decide) (by decide) after_p1_fall_falling.1 (p1_th_edges_in_time 2 2 (by decide))
  have hl : after_p1_fall.g.log ++ (List.range 3).flatMap
      (cycle_writes scenario_output 0 (after_p1_fall.held0 0) (after_p1_fall.held1 0))
      = [RegWrite.out 0xA586A5A4, RegWrite.out1 0xB3B2B1B0,
         RegWrite.out 0xA182A1A0, RegWrite.out1 0xAFAEADAC,
         RegWrite.out 0xA586A5A4, RegWrite.out1 0xB3B2B1B0] := by decide
  refine ⟨by decide, after_p1_fall_falling.1, after_p1_fall_falling.2.2,
    p1_th_edges_in_time 2 2 (by decide), h.2.1, ?_, ?_⟩
  · rw [h.2.2, hl]
  · rw [h.2.2, hl]
    decide

/-! ## Genesis task: timeout of a wait (C15) -/

theorem lock_inv_init (g : Gpio) (buffer : Buffer) :
    lock_inv (sega_genesis_task_init g buffer) := by
  simp [lock_inv, sega_genesis_task_init]

theorem lock_inv_congr (s s' : GenState) (h1 : s'.lock = s.lock) (h2 : s'.stalled = s.stalled)
    (h : lock_inv s) : lock_inv s' := by
  unfold lock_inv at h ⊢
  rw [h1, h2]
  exact h

theorem lock_inv_stall_start (s : GenState) (h : lock_inv s) : lock_inv (stall_start s) := by
  unfold stall_start
  split_ifs with h0
  · simp [lock_inv, h0]
  · exact h

theorem lock_inv_stall_end (s : GenState) (h : lock_inv s) : lock_inv (stall_end s) := by
  unfold stall_end
  split_ifs with h0
  · simp [lock_inv]
  · exact h

theorem lock_inv_refresh (p : Nat) (s : GenState) (h : lock_inv s) :
    lock_inv (refresh_image p s) :=
  lock_inv_congr s _ (refresh_image_fields p s).2.2.2.1 (refresh_image_fields p s).2.2.2.2.1 h

theorem lock_inv_multitap (tr : Trace) (output : WiredData) (t : PortTable) (p : Nat)
    (s : GenState) (h : lock_inv s) : lock_inv (step_multitap tr output t p s) := by
  have h1 : lock_inv (stall_end { s with g := s.g.out1_w1ts (BIT (TP_CTRL_PIN - 32)) }) :=
    lock_inv_stall_end _ (lock_inv_congr s _ rfl rfl h)
  unfold step_multitap
  simp only
  split_ifs
  · exact lock_inv_congr _ _ rfl rfl
      (lock_inv_refresh p _ (lock_inv_congr _ _ rfl rfl h1))
  · exact lock_inv_congr _ _ rfl rfl h1

theorem lock_inv_cycle (tr : Trace) (output : WiredData) (t : PortTable) (p k : Nat)
    (s : GenState) (h : lock_inv s) : lock_inv (step_cycle tr output t p k s) := by
  have h1 : lock_inv (cycle_store output p k s) := lock_inv_congr s _ rfl rfl h
  have h2 : lock_inv (refresh_image p
      (if k < 2 then stall_start (cycle_store output p k s) else cycle_store output p k s)) := by
    apply lock_inv_refresh
    split_ifs
    · exact lock_inv_stall_start _ h1
    · exact h1
  unfold step_cycle
  simp only
  generalize refresh_image p
    (if k < 2 then stall_start (cycle_store output p k s) else cycle_store output p k s) = s3
    at h2 ⊢
  split_ifs
  · exact lock_inv_multitap tr output t p _ h2
  all_goals exact lock_inv_congr _ _ rfl rfl h2

theorem lock_inv_step (tr : Trace) (output : WiredData) (t : PortTable) (st : GenState)
    (h : lock_inv st) : lock_inv (genesis_step tr output t st) := by
  unfold genesis_step
  split
  · exact lock_inv_congr st _ rfl rfl h
  · unfold step_edge_poll
    simp only
    split_ifs <;> exact lock_inv_congr st _ rfl rfl h
  · unfold step_poll_start
    split_ifs <;> exact lock_inv_congr st _ rfl rfl h
  · exact lock_inv_cycle tr output t _ _ st h
  · unfold step_poll
    simp only
    split_ifs <;> exact lock_inv_congr st _ rfl rfl h
  · exact lock_inv_congr _ _ rfl rfl (lock_inv_stall_end st h)

theorem lock_inv_task (tr : Trace) (output : WiredData) (t : PortTable) :
    ∀ (n : Nat) (st : GenState), lock_inv st → lock_inv (sega_genesis_task tr output t n st)
  | 0, _, h => h
  | n + 1, st, h => lock_inv_task tr output t n _ (lock_inv_step tr output t st h)

theorem step_next_poll_released (st : GenState) (h : lock_inv st) :
    (step_next_poll st).stalled = false := by
  have h1 := lock_inv_stall_end st h
  have h2 := (stall_end_fields st).2.2.2.2.2.2.2
  unfold lock_inv at h1
  rw [h2] at h1
  show (stall_end st).stalled = false
  cases hs : (stall_end st).stalled
  · rfl
  · exact absurd rfl (h1.mp hs)

theorem step_poll_timed_out (tr : Trace) (p k : Nat) (st : GenState)
    (h : (poll_wait tr st.g).timed_out = true) :
    (step_poll tr p k st).pc = Pc.next_poll ∧
    (step_poll tr p k st).lock = st.lock ∧ (step_poll tr p k st).stalled = st.stalled := by
  unfold step_poll
  simp only
  rw [if_pos h]
  exact ⟨rfl, rfl, rfl⟩

theorem step_poll_fields (tr : Trace) (p k : Nat) (st : GenState) :
    (step_poll tr p k st).g = (poll_wait tr st.g).g ∧
    (step_poll tr p k st).lock = st.lock ∧ (step_poll tr p k st).stalled = st.stalled := by
  unfold step_poll
  simp only
  split_ifs <;> exact ⟨rfl, rfl, rfl⟩

/-- C15: a wait that follows a cycle write performs at most
`POLL_TIMEOUT + 1 = 513` iterations (one read of `GPIO.in1.val` each, after
the initial sample) and writes no register. It times out whenever its first
`POLL_TIMEOUT` iterations read no change, and then in its 513th iteration.
After a timeout the task is at `next_poll` and, one step later, at the first
wait of the `while (1)` with `lock = 0` and the other core released, without
any register write and with both output registers as the last cycle write left
them. -/
theorem genesis_wait_bounded (tr : Trace) (output : WiredData) (t : PortTable)
    (st : GenState) (p k : Nat) (hpc : st.pc = Pc.poll p k) :
    POLL_TIMEOUT + 1 = 513 ∧
    (genesis_step tr output t st).g.n_in1 ≤ st.g.n_in1 + 1 + (POLL_TIMEOUT + 1) ∧
    (genesis_step tr output t st).g.log = st.g.log ∧
    (poll_silent tr st.g.n_in1 → (poll_wait tr st.g).timed_out = true) ∧
    ((poll_wait tr st.g).timed_out = true →
      (genesis_step tr output t st).g.n_in1 = st.g.n_in1 + 1 + (POLL_TIMEOUT + 1) ∧
      (genesis_step tr output t st).pc = Pc.next_poll ∧
      (sega_genesis_task tr output t 2 st).pc = Pc.wait_edge ∧
      (sega_genesis_task tr output t 2 st).lock = 0 ∧
      (lock_inv st → (sega_genesis_task tr output t 2 st).stalled = false) ∧
      (sega_genesis_task tr output t 2 st).g.log = st.g.log ∧
      (sega_genesis_task tr output t 2 st).g.out = st.g.out ∧
      (sega_genesis_task tr output t 2 st).g.out1 = st.g.out1) := by
  have e1 : genesis_step tr output t st = step_poll tr p k st :=
    genesis_step_poll tr output t st p k hpc
  have hb := poll_wait_bound tr st.g
  have hf := step_poll_fields tr p k st
  refine ⟨rfl, ?_, ?_, ?_, ?_⟩
  · rw [e1, hf.1]; exact hb.1
  · rw [e1, hf.1]; exact hb.2.2.2.2.2
  · intro hq
    rw [poll_wait_silent tr st.g hq]
  · intro hto
    have ht := step_poll_timed_out tr p k st hto
    have e2 : sega_genesis_task tr output t 2 st = step_next_poll (step_poll tr p k st) := by
      show genesis_step tr output t (genesis_step tr output t st) = _
      rw [e1, genesis_step_next_poll tr output t _ ht.1]
    have hn := step_next_poll_fields (step_poll tr p k st)
    refine ⟨?_, ?_, ?_, ?_, ?_, ?_, ?_, ?_⟩
    · rw [e1, hf.1]; exact hb.2.1 hto
    · rw [e1]; exact ht.1
    · rw [e2]; exact hn.1
    · rw [e2]; exact hn.2.1
    · intro hl
      rw [e2]
      exact step_next_poll_released _ (lock_inv_congr st _ ht.2.1 ht.2.2 hl)
    · rw [e2, hn.2.2, hf.1]; exact hb.2.2.2.2.2
    · rw [e2, hn.2.2, hf.1]; exact hb.2.2.2.1
    · rw [e2, hn.2.2, hf.1]; exact hb.2.2.2.2.1

theorem genesis_wait_bounded_witness :
    waiting_p1.pc = Pc.poll 0 0 ∧ poll_silent th0_high waiting_p1.g.n_in1 ∧
    (sega_genesis_task th0_high scenario_output genesis_three_table 2 waiting_p1).pc
      = Pc.wait_edge ∧
    (sega_genesis_task th0_high scenario_output genesis_three_table 2 waiting_p1).lock = 0 :=
  have hq : poll_silent th0_high waiting_p1.g.n_in1 := fun _ _ => rfl
  have h := genesis_wait_bounded th0_high scenario_output genesis_three_table waiting_p1 0 0 rfl
  ⟨rfl, hq, (h.2.2.2.2 (h.2.2.2.1 hq)).2.2.1, (h.2.2.2.2 (h.2.2.2.1 hq)).2.2.2.1⟩

/-- The first wait of the `while (1)` has no timeout: while the input register
reads the same value, the task stays in it, whatever the number of steps. -/
theorem edge_poll_unbounded (tr : Trace) (output : WiredData) (t : PortTable) (c : Nat)
    (hc : ∀ m, tr.in1 m = c) :
    ∀ (n : Nat) (st : GenState), st.pc = Pc.edge_poll → st.cur_in = c → st.prev_in = c →
      (sega_genesis_task tr output t n st).pc = Pc.edge_poll ∧
      (sega_genesis_task tr output t n st).g.log = st.g.log ∧
      (sega_genesis_task tr output t n st).g.n_in1 = st.g.n_in1 + n
  | 0, st, hpc, _, _ => ⟨hpc, rfl, rfl⟩
  | n + 1, st, hpc, h1, h2 => by
    have e : genesis_step tr output t st
        = { st with g := { st.g with n_in1 := st.g.n_in1 + 1 }, change := 0, prev_in := c,
                    cur_in := c } := by
      rw [genesis_step_edge_poll tr output t st hpc]
      unfold step_edge_poll
      simp only [h1, h2, Nat.xor_self, if_true, read_in1, hc]
    have ih := edge_poll_unbounded tr output t c hc n (genesis_step tr output t st)
      (by rw [e]; exact hpc) (by rw [e]) (by rw [e])
    have e0 : sega_genesis_task tr output t (n + 1) st
        = sega_genesis_task tr output t n (genesis_step tr output t st) := rfl
    rw [e0]
    refine ⟨ih.1, ?_, ?_⟩
    · rw [ih.2.1, e]
    · rw [ih.2.2, e]
      show st.g.n_in1 + 1 + n = _
      omega

/-! ## Genesis task: preemption by the other port (C12) -/

theorem twh_tx_log_prefix (tr : Trace) (port : Nat) (hp : port < 2) :
    ∀ (data : List Nat) (s : Gpio), ∃ ws, (twh_tx tr port data s).log = s.log ++ ws
  | [], s => ⟨[], by simp [twh_tx]⟩
  | b :: rest, s => by
    have hw1 := (twh_wait_bound tr port true (TWH_TIMEOUT + 1) 0 s (Nat.zero_le _)
      (Nat.le_refl _)).2.2.2.2.2
    rw [twh_tx]
    cases h1 : twh_wait tr port true 0 s with
    | mk b1 s1 =>
      rw [h1] at hw1
      cases b1 with
      | false => exact ⟨[], by simpa using hw1⟩
      | true =>
        simp only
        have hw2 := (twh_wait_bound tr port false (TWH_TIMEOUT + 1) 0
          (set_sio port SIO_TL 0 (tx_nibble port (b >>> 4) s1)) (Nat.zero_le _)
          (Nat.le_refl _)).2.2.2.2.2
        have hl1 : (set_sio port SIO_TL 0 (tx_nibble port (b >>> 4) s1)).log
            = s.log ++ (nibble_writes port (b >>> 4) ++ [drive port SIO_TL false]) := by
          rw [set_sio_zero, tx_nibble_eq _ _ hp]
          have a1 := (foldl_apply_write_reads (nibble_writes port (b >>> 4)) s1).2.2
          have a2 := (foldl_apply_write_reads [drive port SIO_TL false]
            ((nibble_writes port (b >>> 4)).foldl apply_write s1)).2.2
          simp only [List.foldl_cons, List.foldl_nil] at a2
          rw [a2, a1]
          simp only at hw1
          rw [hw1, List.append_assoc]
        cases h2 : twh_wait tr port false 0
            (set_sio port SIO_TL 0 (tx_nibble port (b >>> 4) s1)) with
        | mk b2 s3 =>
          rw [h2] at hw2
          simp only at hw2
          cases b2 with
          | false => exact ⟨_, by simp only; rw [hw2, hl1]⟩
          | true =>
            simp only
            obtain ⟨ws, hws⟩ := twh_tx_log_prefix tr port hp rest
              (set_sio port SIO_TL 1 (tx_nibble port (b &&& 0xF) s3))
            have hl2 : (set_sio port SIO_TL 1 (tx_nibble port (b &&& 0xF) s3)).log
                = s3.log ++ (nibble_writes port (b &&& 0xF) ++ [drive port SIO_TL true]) := by
              rw [set_sio_one, tx_nibble_eq _ _ hp]
              have a1 := (foldl_apply_write_reads (nibble_writes port (b &&& 0xF)) s3).2.2
              have a2 := (foldl_apply_write_reads [drive port SIO_TL true]
                ((nibble_writes port (b &&& 0xF)).foldl apply_write s3)).2.2
              simp only [List.foldl_cons, List.foldl_nil] at a2
              rw [a2, a1, List.append_assoc]
            exact ⟨_, by rw [hws, hl2, hw2, hl1, List.append_assoc, List.append_assoc]⟩

theorem step_multitap_log_prefix (tr : Trace) (output : WiredData) (t : PortTable) (p : Nat)
    (hp : p < 2) (s : GenState) :
    s.g.log <+: (step_multitap tr output t p s).g.log := by
  obtain ⟨ws, hws⟩ := twh_tx_log_prefix tr p hp
    (gen_multitap_frame output t.mt_dev_type p (t.mt_first_port p) MT_GEN_PORT_MAX
      (stall_end { s with g := s.g.out1_w1ts (BIT (TP_CTRL_PIN - 32)) }).buffer).bytes
    (stall_end { s with g := s.g.out1_w1ts (BIT (TP_CTRL_PIN - 32)) }).g
  have hg : (stall_end { s with g := s.g.out1_w1ts (BIT (TP_CTRL_PIN - 32)) }).g
      = s.g.out1_w1ts (BIT (TP_CTRL_PIN - 32)) := (stall_end_fields _).1
  rw [hg] at hws
  have hl : (s.g.out1_w1ts (BIT (TP_CTRL_PIN - 32))).log
      = s.g.log ++ [RegWrite.out1_w1ts (BIT (TP_CTRL_PIN - 32))] := rfl
  rw [hl, List.append_assoc] at hws
  have hpre : s.g.log <+: (twh_tx tr p
      (gen_multitap_frame output t.mt_dev_type p (t.mt_first_port p) MT_GEN_PORT_MAX
        (stall_end { s with g := s.g.out1_w1ts (BIT (TP_CTRL_PIN - 32)) }).buffer).bytes
      (s.g.out1_w1ts (BIT (TP_CTRL_PIN - 32)))).log := ⟨_, hws.symm⟩
  unfold step_multitap
  simp only [set_gen_multitap, read_in1]
  rw [hg]
  split_ifs
  · show _ <+: (refresh_image p (cycle_store output p 1 _)).g.log
    rw [(refresh_image_fields p _).1, (cycle_store_fields output p 1 _).1]
    exact hpre.trans (List.prefix_append _ _)
  · exact hpre

theorem step_cycle_log_prefix (tr : Trace) (output : WiredData) (t : PortTable) (p k : Nat)
    (hp : p < 2) (st : GenState) :
    (st.g.log ++ cycle_writes output p (st.held0 p) (st.held1 p) k)
      <+: (step_cycle tr output t p k st).g.log := by
  have hcs := cycle_store_fields output p k st
  have h3 : (refresh_image p
      (if k < 2 then stall_start (cycle_store output p k st) else cycle_store output p k st)).g.log
      = st.g.log ++ cycle_writes output p (st.held0 p) (st.held1 p) k := by
    rw [(refresh_image_fields p _).1]
    split_ifs
    · rw [(stall_start_fields _).1, hcs.1]
    · rw [hcs.1]
  unfold step_cycle
  simp only
  generalize refresh_image p
    (if k < 2 then stall_start (cycle_store output p k st) else cycle_store output p k st) = s3
    at h3 ⊢
  rw [← h3]
  split_ifs
  · exact step_multitap_log_prefix tr output t p hp s3
  all_goals exact List.prefix_refl _

theorem step_multitap_pc (tr : Trace) (output : WiredData) (t : PortTable) (p : Nat)
    (s : GenState) :
    (step_multitap tr output t p s).pc = Pc.next_poll ∨
    (step_multitap tr output t p s).pc = Pc.poll p 0 := by
  unfold step_multitap
  simp only
  split_ifs
  · exact Or.inl rfl
  · exact Or.inr rfl

theorem step_cycle_pc (tr : Trace) (output : WiredData) (t : PortTable) (p k : Nat)
    (s : GenState) :
    (step_cycle tr output t p k s).pc = Pc.next_poll ∨
    (step_cycle tr output t p k s).pc = Pc.poll p k := by
  unfold step_cycle
  simp only
  generalize refresh_image p
    (if k < 2 then stall_start (cycle_store output p k s) else cycle_store output p k s) = s3
  by_cases h0 : k = 0
  · subst h0
    rw [if_pos rfl]
    split_ifs
    · exact step_multitap_pc tr output t p _
    · exact Or.inr rfl
  · rw [if_neg h0]
    split_ifs
    · exact Or.inr (by subst k; rfl)
    · exact Or.inl rfl
    · exact Or.inl rfl
    · exact Or.inr rfl

/-- Every way into a port's section of the task from outside of it leads to the
port's `poll_start` label, and from there to one of its two Cycle0 writes; a
later cycle write of a port is only reached from the port's own preceding
wait. -/
theorem genesis_step_entry (tr : Trace) (output : WiredData) (t : PortTable) (st : GenState)
    (p : Nat) (hnew : (genesis_step tr output t st).pc.port = some p) :
    (st.pc.port ≠ some p → (genesis_step tr output t st).pc = Pc.poll_start p) ∧
    (st.pc = Pc.poll_start p →
      (genesis_step tr output t st).pc = Pc.cycle p 0 ∨
      (genesis_step tr output t st).pc = Pc.cycle p 1) ∧
    (∀ k, 2 ≤ k → (genesis_step tr output t st).pc = Pc.cycle p k →
      st.pc = Pc.poll p (k - 1)) := by
  cases hpc : st.pc with
  | wait_edge =>
    rw [genesis_step_wait_edge tr output t st hpc] at hnew ⊢
    simp [step_wait_edge, Pc.port] at hnew
  | edge_poll =>
    rw [genesis_step_edge_poll tr output t st hpc] at hnew ⊢
    unfold step_edge_poll at hnew ⊢
    simp only at hnew ⊢
    split_ifs at hnew ⊢ <;> simp_all [Pc.port]
  | poll_start q =>
    rw [genesis_step_poll_start tr output t st q hpc] at hnew ⊢
    unfold step_poll_start at hnew ⊢
    split_ifs at hnew ⊢ <;> simp_all [Pc.port] <;> intro k hk h <;> omega
  | cycle q k =>
    rw [genesis_step_cycle tr output t st q k hpc] at hnew ⊢
    rcases step_cycle_pc tr output t q k st with h | h <;> rw [h] at hnew ⊢ <;>
      simp_all [Pc.port]
  | poll q k =>
    rw [genesis_step_poll tr output t st q k hpc] at hnew ⊢
    unfold step_poll at hnew ⊢
    simp only at hnew ⊢
    split_ifs at hnew ⊢ <;> simp_all [Pc.port]
    intro k hk h
    omega
  | next_poll =>
    rw [genesis_step_next_poll tr output t st hpc] at hnew ⊢
    simp [step_next_poll, Pc.port] at hnew

/-- C12: when the task is in a wait that follows a cycle write of port 1 and
that wait sees, before its timeout, a change that includes TH of port 2, the
task goes to `p2_poll_start` without any register write, and the next register
writes are those of port 2's first cycle: Cycle0 high when the sampled TH of
port 2 is high, Cycle0 low when it is low, combined with the held image of
port 1. No cycle write of port 1 is performed in between. Port 1's section of
the task is only entered through `p1_poll_start`, which leads to one of its two
Cycle0 writes: a later cycle write of port 1 is only reached from port 1's own
preceding wait, never from the point where a sequence was interrupted. -/
theorem port_two_preempts (tr : Trace) (output : WiredData) (t : PortTable) (st : GenState)
    (k j : Nat) (hpc : st.pc = Pc.poll 0 k) (hj : poll_changes tr st.g.n_in1 j)
    (h2 : (tr.in1 (st.g.n_in1 + 1 + j) ^^^ tr.in1 st.g.n_in1) &&& TH_BIT 1 ≠ 0) :
    (sega_genesis_task tr output t 1 st).pc = Pc.poll_start 1 ∧
    (sega_genesis_task tr output t 1 st).g.log = st.g.log ∧
    (sega_genesis_task tr output t 2 st).pc
      = Pc.cycle 1 (if tr.in1 (st.g.n_in1 + 1 + j) &&& TH_BIT 1 ≠ 0 then 1 else 0) ∧
    (sega_genesis_task tr output t 2 st).g.log = st.g.log ∧
    (st.g.log ++
        [RegWrite.out
          (cycle_word0 output 1 (if tr.in1 (st.g.n_in1 + 1 + j) &&& TH_BIT 1 ≠ 0 then 1 else 0)
            &&& st.p1_out0),
         RegWrite.out1
          (cycle_word1 output 1 (if tr.in1 (st.g.n_in1 + 1 + j) &&& TH_BIT 1 ≠ 0 then 1 else 0)
            &&& st.p1_out1)])
      <+: (sega_genesis_task tr output t 3 st).g.log ∧
    cycle_word0 output 1 0 = map2 output 1 ∧ cycle_word0 output 1 1 = map2 output 0 ∧
    (∀ (s : GenState) (p : Nat), (genesis_step tr output t s).pc.port = some p →
      (s.pc.port ≠ some p → (genesis_step tr output t s).pc = Pc.poll_start p) ∧
      (s.pc = Pc.poll_start p →
        (genesis_step tr output t s).pc = Pc.cycle p 0 ∨
        (genesis_step tr output t s).pc = Pc.cycle p 1) ∧
      (∀ k', 2 ≤ k' → (genesis_step tr output t s).pc = Pc.cycle p k' →
        s.pc = Pc.poll p (k' - 1))) := by
  have hp := step_poll_preempted tr 0 k st j hj h2
  have e1 : sega_genesis_task tr output t 1 st = step_poll tr 0 k st := by
    rw [genesis_task_one, genesis_step_poll tr output t st 0 k hpc]
  have e2 : sega_genesis_task tr output t 2 st
      = step_poll_start 1 (step_poll tr 0 k st) := by
    rw [genesis_task_succ, e1, genesis_step_poll_start tr output t _ 1 hp.1]
  have hps : step_poll_start 1 (step_poll tr 0 k st)
      = { step_poll tr 0 k st with
          pc := Pc.cycle 1 (if tr.in1 (st.g.n_in1 + 1 + j) &&& TH_BIT 1 ≠ 0 then 1 else 0) } := by
    unfold step_poll_start
    by_cases hc : tr.in1 (st.g.n_in1 + 1 + j) &&& TH_BIT 1 ≠ 0
    · rw [if_pos (by rw [hp.2.2.2.1]; exact hc), if_pos hc]
    · rw [if_neg (by rw [hp.2.2.2.1]; exact hc), if_neg hc]
  have e3 : sega_genesis_task tr output t 3 st
      = step_cycle tr output t 1
          (if tr.in1 (st.g.n_in1 + 1 + j) &&& TH_BIT 1 ≠ 0 then 1 else 0)
          (sega_genesis_task tr output t 2 st) := by
    rw [genesis_task_succ, genesis_step_cycle tr output t _ 1 _ (by rw [e2, hps])]
  have hpre := step_cycle_log_prefix tr output t 1
    (if tr.in1 (st.g.n_in1 + 1 + j) &&& TH_BIT 1 ≠ 0 then 1 else 0) (by decide)
    (sega_genesis_task tr output t 2 st)
  have hlog2 : (sega_genesis_task tr output t 2 st).g.log = st.g.log := by
    rw [e2, hps]; exact hp.2.1
  have hh0 : (sega_genesis_task tr output t 2 st).held0 1 = st.p1_out0 := by
    rw [e2, hps]; exact hp.2.2.2.2.2.2.1
  have hh1 : (sega_genesis_task tr output t 2 st).held1 1 = st.p1_out1 := by
    rw [e2, hps]; exact hp.2.2.2.2.2.2.2.1
  rw [hlog2, hh0, hh1, ← e3] at hpre
  refine ⟨by rw [e1]; exact hp.1, by rw [e1]; exact hp.2.1, by rw [e2, hps], hlog2, hpre,
    rfl, rfl, fun s p h => genesis_step_entry tr output t s p h⟩

theorem port_two_preempts_witness :
    waiting_p1.pc = Pc.poll 0 0 ∧ poll_changes p2_th_rise waiting_p1.g.n_in1 0 ∧
    (p2_th_rise.in1 (waiting_p1.g.n_in1 + 1 + 0) ^^^ p2_th_rise.in1 waiting_p1.g.n_in1)
      &&& TH_BIT 1 ≠ 0 ∧
    (sega_genesis_task p2_th_rise scenario_output genesis_three_table 2 waiting_p1).pc
      = Pc.cycle 1
          (if p2_th_rise.in1 (waiting_p1.g.n_in1 + 1 + 0) &&& TH_BIT 1 ≠ 0 then 1 else 0) :=
  ⟨rfl, by decide, by decide,
    (port_two_preempts p2_th_rise scenario_output genesis_three_table waiting_p1 0 0 rfl
      (by decide) (by decide)).2.2.1⟩

/-! ## Genesis task: changes of other input bits (C16) -/

theorem stray_edges_step (n : Nat) (hn : n % 2 = 0) :
    poll_changes stray_edges n 0 ∧
    (stray_edges.in1 (n + 1 + 0) ^^^ stray_edges.in1 n) &&& TH_BIT (1 - 1) = 0 := by
  have h4 : n % 4 = 0 ∨ n % 4 = 2 := by omega
  unfold poll_changes stray_edges
  simp only [Nat.add_zero]
  rcases h4 with h | h
  · have h1 : (n + 1) % 4 = 1 := by omega
    simp only [h, h1]
    refine ⟨⟨by decide, fun i hi => absurd hi (Nat.not_lt_zero i), by decide⟩, by decide⟩
  · have h1 : (n + 1) % 4 = 3 := by omega
    simp only [h, h1]
    refine ⟨⟨by decide, fun i hi => absurd hi (Nat.not_lt_zero i), by decide⟩, by decide⟩

theorem stray_edges_in_time : ∀ (m n : Nat), n % 2 = 0 → edges_in_time stray_edges 1 n m
  | 0, _, _ => trivial
  | m + 1, n, hn =>
    ⟨0, (stray_edges_step n hn).1, (stray_edges_step n hn).2,
      stray_edges_in_time m (n + 1 + 0 + 1) (by omega)⟩

theorem stray_edges_th_low (k : Nat) :
    stray_edges.in1 k &&& TH_BIT 0 = 0 ∧ stray_edges.in1 k &&& TH_BIT 1 = 0 := by
  unfold stray_edges
  simp only
  split_ifs <;> decide

theorem edge_poll_dispatch_other (tr : Trace) (output : WiredData) (t : PortTable)
    (st : GenState) (hpc : st.pc = Pc.edge_poll) (hne : st.cur_in ^^^ st.prev_in ≠ 0)
    (h0 : (st.cur_in ^^^ st.prev_in) &&& TH_BIT 0 = 0) :
    (sega_genesis_task tr output t 1 st).pc = Pc.poll_start 1 ∧
    (sega_genesis_task tr output t 2 st).pc
      = Pc.cycle 1 (if st.cur_in &&& TH_BIT 1 ≠ 0 then 1 else 0) ∧
    (sega_genesis_task tr output t 2 st).g = st.g ∧
    (st.g.log ++ cycle_writes output 1 st.p1_out0 st.p1_out1
        (if st.cur_in &&& TH_BIT 1 ≠ 0 then 1 else 0))
      <+: (sega_genesis_task tr output t 3 st).g.log := by
  have e1 : sega_genesis_task tr output t 1 st
      = { st with change := st.cur_in ^^^ st.prev_in, pc := Pc.poll_start 1 } := by
    rw [genesis_task_one, genesis_step_edge_poll tr output t st hpc]
    unfold step_edge_poll
    simp only
    rw [if_neg hne, if_neg (show ¬ ((st.cur_in ^^^ st.prev_in) &&& BIT (P1_TH_PIN - 32) ≠ 0) by
      rw [ne_eq, not_not]; exact h0)]
  have e2 : sega_genesis_task tr output t 2 st
      = { st with change := st.cur_in ^^^ st.prev_in,
                  pc := Pc.cycle 1 (if st.cur_in &&& TH_BIT 1 ≠ 0 then 1 else 0) } := by
    rw [genesis_task_succ, e1, genesis_step_poll_start tr output t _ 1 rfl]
    unfold step_poll_start
    simp only
    split_ifs <;> rfl
  have e3 : sega_genesis_task tr output t 3 st
      = step_cycle tr output t 1 (if st.cur_in &&& TH_BIT 1 ≠ 0 then 1 else 0)
          (sega_genesis_task tr output t 2 st) := by
    rw [genesis_task_succ, genesis_step_cycle tr output t _ 1 _ (by rw [e2])]
  have hpre := step_cycle_log_prefix tr output t 1
    (if st.cur_in &&& TH_BIT 1 ≠ 0 then 1 else 0) (by decide)
    (sega_genesis_task tr output t 2 st)
  rw [← e3] at hpre
  refine ⟨by rw [e1], by rw [e2], by rw [e2], ?_⟩
  rw [e2] at hpre
  exact hpre

theorem poll_continues_own (tr : Trace) (output : WiredData) (t : PortTable)
    (st : GenState) (p k j : Nat) (hp : p < 2) (hpc : st.pc = Pc.poll p k)
    (hj : poll_changes tr st.g.n_in1 j)
    (ho : (tr.in1 (st.g.n_in1 + 1 + j) ^^^ tr.in1 st.g.n_in1) &&& TH_BIT (1 - p) = 0) :
    (sega_genesis_task tr output t 1 st).pc = Pc.cycle p (k + 1) ∧
    (sega_genesis_task tr output t 1 st).g.log = st.g.log ∧
    (st.g.log ++ cycle_writes output p (st.held0 p) (st.held1 p) (k + 1))
      <+: (sega_genesis_task tr output t 2 st).g.log := by
  have hc := step_poll_changed tr p k st j hj ho
  have e1 : sega_genesis_task tr output t 1 st = step_poll tr p k st := by
    rw [genesis_task_one, genesis_step_poll tr output t st p k hpc]
  have e2 : sega_genesis_task tr output t 2 st
      = step_cycle tr output t p (k + 1) (step_poll tr p k st) := by
    rw [genesis_task_succ, e1, genesis_step_cycle tr output t _ p (k + 1) hc.1]
  have hpre := step_cycle_log_prefix tr output t p (k + 1) hp (step_poll tr p k st)
  rw [hc.2.1, hc.2.2.2.1, hc.2.2.2.2.1, ← e2] at hpre
  exact ⟨by rw [e1]; exact hc.1, by rw [e1]; exact hc.2.1, hpre⟩

/-- C16, amended: a change of the polled input register that involves neither
port's TH bit is handled as an edge. At the first wait of the `while (1)` it
is dispatched to port 2: the task goes to `p2_poll_start` and the next register
writes are those of port 2's Cycle0 write (high or low by the sampled level of
TH of port 2), none of port 1. At a wait inside a port's sequence it advances
that port: the next register writes are those of the port's next cycle write,
none of the other port. -/
theorem non_th_change_is_an_edge (tr : Trace) (output : WiredData) (t : PortTable) :
    (∀ st : GenState, st.pc = Pc.edge_poll → st.cur_in ^^^ st.prev_in ≠ 0 →
      (st.cur_in ^^^ st.prev_in) &&& TH_BIT 0 = 0 →
      (st.cur_in ^^^ st.prev_in) &&& TH_BIT 1 = 0 →
      (sega_genesis_task tr output t 1 st).pc = Pc.poll_start 1 ∧
      (sega_genesis_task tr output t 2 st).pc
        = Pc.cycle 1 (if st.cur_in &&& TH_BIT 1 ≠ 0 then 1 else 0) ∧
      (sega_genesis_task tr output t 2 st).g = st.g ∧
      (st.g.log ++
          [RegWrite.out
            (cycle_word0 output 1 (if st.cur_in &&& TH_BIT 1 ≠ 0 then 1 else 0)
              &&& st.p1_out0),
           RegWrite.out1
            (cycle_word1 output 1 (if st.cur_in &&& TH_BIT 1 ≠ 0 then 1 else 0)
              &&& st.p1_out1)])
        <+: (sega_genesis_task tr output t 3 st).g.log) ∧
    (∀ (st : GenState) (p k j : Nat), p < 2 → st.pc = Pc.poll p k →
      poll_changes tr st.g.n_in1 j →
      (tr.in1 (st.g.n_in1 + 1 + j) ^^^ tr.in1 st.g.n_in1) &&& TH_BIT p = 0 →
      (tr.in1 (st.g.n_in1 + 1 + j) ^^^ tr.in1 st.g.n_in1) &&& TH_BIT (1 - p) = 0 →
      (sega_genesis_task tr output t 1 st).pc = Pc.cycle p (k + 1) ∧
      (sega_genesis_task tr output t 1 st).g.log = st.g.log ∧
      (st.g.log ++
          [RegWrite.out (cycle_word0 output p (k + 1) &&& st.held0 p),
           RegWrite.out1 (cycle_word1 output p (k + 1) &&& st.held1 p)])
        <+: (sega_genesis_task tr output t 2 st).g.log) := by
  refine ⟨?_, ?_⟩
  · intro st hpc hne h0 _
    exact edge_poll_dispatch_other tr output t st hpc hne h0
  · intro st p k j hp hpc hj _ ho
    exact poll_continues_own tr output t st p k j hp hpc hj ho

theorem non_th_change_is_an_edge_witness :
    stray_at_dispatch.pc = Pc.edge_poll ∧
    stray_at_dispatch.cur_in ^^^ stray_at_dispatch.prev_in ≠ 0 ∧
    (stray_at_dispatch.cur_in ^^^ stray_at_dispatch.prev_in) &&& TH_BIT 0 = 0 ∧
    (stray_at_dispatch.cur_in ^^^ stray_at_dispatch.prev_in) &&& TH_BIT 1 = 0 ∧
    (sega_genesis_task stray_edges scenario_output genesis_three_table 1
      stray_at_dispatch).pc = Pc.poll_start 1 :=
  ⟨rfl, by decide, by decide, by decide,
    ((non_th_change_is_an_edge stray_edges scenario_output genesis_three_table).1
      stray_at_dispatch rfl (by decide) (by decide) (by decide)).1⟩

theorem after_stray_change_fields :
    after_stray_change.pc = Pc.cycle 1 0 ∧ after_stray_change.g.log = [] ∧
    after_stray_change.g.n_in1 = 2 := by
  decide

/-- C16, counterexample: both ports resolved as 3-button pads, both TH lines
low at every read, only bit 2 of `GPIO.in1.val` changing. Started from its
initial state the task has performed port 2's Cycle0 low write after five
steps, and after nine steps the three cycle writes of port 2's sequence (six
register stores). -/
theorem stray_change_runs_port_two :
    (∀ k, stray_edges.in1 k &&& TH_BIT 0 = 0 ∧ stray_edges.in1 k &&& TH_BIT 1 = 0) ∧
    genesis_three_table.dev_type 0 = DEV_GENESIS_3BTNS ∧
    genesis_three_table.dev_type 1 = DEV_GENESIS_3BTNS ∧
    (sega_genesis_task stray_edges scenario_output genesis_three_table 5
      (sega_genesis_task_init idle_low (fun _ => 0))).g.log
      = [RegWrite.out 0xB332B594, RegWrite.out1 0xC3C2C1C0] ∧
    (sega_genesis_task stray_edges scenario_output genesis_three_table 9
      (sega_genesis_task_init idle_low (fun _ => 0))).g.log
      = [RegWrite.out 0xB332B594, RegWrite.out1 0xC3C2C1C0,
         RegWrite.out 0xB332B190, RegWrite.out1 0xBFBEBDBC,
         RegWrite.out 0xB332B594, RegWrite.out1 0xC3C2C1C0] := by
  have hf := after_stray_change_fields
  have hcont : ∀ j, 0 ≤ j → j < 0 + 2 → continues genesis_three_table 1 j := fun j _ hj =>
    ⟨by omega, fun _ => by decide, fun h => by omega⟩
  have hc := cycles_run stray_edges scenario_output genesis_three_table 1 2 0
    after_stray_change hf.1 hcont
    (by rw [hf.2.2]; exact stray_edges_in_time 2 2 (by decide))
  have hl := step_cycle_last stray_edges scenario_output genesis_three_table 1 2
    (sega_genesis_task stray_edges scenario_output genesis_three_table (2 * 2)
      after_stray_change) (Or.inr ⟨rfl, by decide⟩)
  have e9 : sega_genesis_task stray_edges scenario_output genesis_three_table 9
      (sega_genesis_task_init idle_low (fun _ => 0))
      = step_cycle stray_edges scenario_output genesis_three_table 1 2
          (sega_genesis_task stray_edges scenario_output genesis_three_table (2 * 2)
            after_stray_change) := by
    have ea : sega_genesis_task stray_edges scenario_output genesis_three_table 4
        (sega_genesis_task_init idle_low (fun _ => 0)) = after_stray_change := rfl
    rw [show 9 = 4 + (2 * 2 + 1) from rfl, genesis_task_add, genesis_task_succ, ea,
      genesis_step_cycle _ _ _ _ 1 2 hc.1]
  have hlog : after_stray_change.g.log ++
      (List.range' 0 2).flatMap (cycle_writes scenario_output 1
        (after_stray_change.held0 1) (after_stray_change.held1 1)) ++
      cycle_writes scenario_output 1 (after_stray_change.held0 1)
        (after_stray_change.held1 1) 2
      = [RegWrite.out 0xB332B594, RegWrite.out1 0xC3C2C1C0,
         RegWrite.out 0xB332B190, RegWrite.out1 0xBFBEBDBC,
         RegWrite.out 0xB332B594, RegWrite.out1 0xC3C2C1C0] := by decide
  refine ⟨stray_edges_th_low, by decide, by decide, by decide, ?_⟩
  rw [e9, hl.2, hc.2.1, hc.2.2.1, hc.2.2.2, hlog]

/-! ## Genesis task: the other port's bits and the held images (C20) -/

theorem not32_mask_bits : ∀ i, i < 32 →
    (not32 P1_OUT0_MASK).testBit i = !P1_OUT0_MASK.testBit i ∧
    (not32 P1_OUT1_MASK).testBit i = !P1_OUT1_MASK.testBit i ∧
    (not32 P2_OUT0_MASK).testBit i = !P2_OUT0_MASK.testBit i ∧
    (not32 P2_OUT1_MASK).testBit i = !P2_OUT1_MASK.testBit i := by
  decide

theorem masks_disjoint : ∀ i, i < 32 →
    (P1_OUT0_MASK.testBit i = true → P2_OUT0_MASK.testBit i = false) ∧
    (P1_OUT1_MASK.testBit i = true → P2_OUT1_MASK.testBit i = false) := by
  decide

theorem cycle_masks_outside : ∀ i, i < 32 →
    (P1_OUT0_MASK.testBit i = false → SIX_BTNS_P1_C2_LO_MASK.testBit i = true) ∧
    (P2_OUT0_MASK.testBit i = false → SIX_BTNS_P2_C2_LO_MASK.testBit i = true) := by
  decide

/-- Bit `i` of a store `w & img`, where `img` is the held image of the other
port (mask `Mo`, register value `out` before the store) and `w` a word of the
writing port (mask `M`). -/
theorem store_bit (w img out M Mo i : Nat)
    (himg : img.testBit i = (!Mo.testBit i || out.testBit i))
    (hw : M.testBit i = false → w.testBit i = true)
    (hd : M.testBit i = true → Mo.testBit i = false) :
    (Mo.testBit i = true → (w &&& img).testBit i = out.testBit i) ∧
    (M.testBit i = true → (w &&& img).testBit i = w.testBit i) ∧
    img.testBit i = (!Mo.testBit i || (w &&& img).testBit i) := by
  rw [Nat.testBit_and, himg]
  cases hM : M.testBit i <;> cases hMo : Mo.testBit i <;> cases hwi : w.testBit i <;>
    cases ho : out.testBit i <;> simp_all

theorem refresh_bit (x M i : Nat) (hn : (not32 M).testBit i = !M.testBit i) :
    (x ||| not32 M).testBit i = (!M.testBit i || x.testBit i) := by
  rw [Nat.testBit_or, hn, Bool.or_comm]

theorem images_agree_init (g : Gpio) (buffer : Buffer) :
    images_agree (sega_genesis_task_init g buffer) := by
  intro i hi
  have hn := not32_mask_bits i hi
  exact ⟨refresh_bit _ _ _ hn.1, refresh_bit _ _ _ hn.2.1, refresh_bit _ _ _ hn.2.2.1,
    refresh_bit _ _ _ hn.2.2.2⟩

theorem images_agree_congr (s s' : GenState) (h0 : s'.g.out = s.g.out)
    (h1 : s'.g.out1 = s.g.out1) (a0 : s'.p1_out0 = s.p1_out0) (a1 : s'.p1_out1 = s.p1_out1)
    (b0 : s'.p2_out0 = s.p2_out0) (b1 : s'.p2_out1 = s.p2_out1) (h : images_agree s) :
    images_agree s' := by
  intro i hi
  rw [h0, h1, a0, a1, b0, b1]
  exact h i hi

theorem cycle_word0_outside (output : WiredData) (hm : maps_ok output) (p k i : Nat)
    (hp : p < 2) (hi : i < 32) (h : (OUT0_MASK p).testBit i = false) :
    (cycle_word0 output p k).testBit i = true := by
  have h0 := (hm p 0 i hp (by decide) hi).1 h
  have h1 := (hm p 1 i hp (by decide) hi).1 h
  have h2 := (hm p 2 i hp (by decide) hi).1 h
  have hc := cycle_masks_outside i hi
  unfold cycle_word0
  split
  · exact h1
  · exact h0
  · exact h1
  · exact h0
  · rw [Nat.testBit_and, h1]
    interval_cases p
    · exact hc.1 h
    · exact hc.2 h
  · exact h2
  · rw [Nat.testBit_or, h1]
    rfl
  · exact h0

theorem cycle_word1_outside (output : WiredData) (hm : maps_ok output) (p k i : Nat)
    (hp : p < 2) (hi : i < 32) (h : (OUT1_MASK p).testBit i = false) :
    (cycle_word1 output p k).testBit i = true := by
  have h0 := (hm p 0 i hp (by decide) hi).2 h
  have h1 := (hm p 1 i hp (by decide) hi).2 h
  have h2 := (hm p 2 i hp (by decide) hi).2 h
  unfold cycle_word1
  split
  · exact h1
  · exact h0
  · exact h1
  · exact h0
  · exact h1
  · exact h2
  · exact h1
  · exact h0

theorem mask_disjoint_symm (a b : Bool) (h : a = true → b = false) : b = true → a = false := by
  cases a <;> cases b <;> simp_all

theorem cycle_write_effect (output : WiredData) (hm : maps_ok output) (st : GenState)
    (p k : Nat) (hp : p < 2) (ha : images_agree st) :
    (∀ i, i < 32 → (OUT0_MASK (1 - p)).testBit i = true →
      (refresh_image p (cycle_store output p k st)).g.out.testBit i = st.g.out.testBit i) ∧
    (∀ i, i < 32 → (OUT1_MASK (1 - p)).testBit i = true →
      (refresh_image p (cycle_store output p k st)).g.out1.testBit i
        = st.g.out1.testBit i) ∧
    (∀ i, i < 32 → (OUT0_MASK p).testBit i = true →
      (refresh_image p (cycle_store output p k st)).g.out.testBit i
        = (cycle_word0 output p k).testBit i) ∧
    (∀ i, i < 32 → (OUT1_MASK p).testBit i = true →
      (refresh_image p (cycle_store output p k st)).g.out1.testBit i
        = (cycle_word1 output p k).testBit i) ∧
    images_agree (refresh_image p (cycle_store output p k st)) := by
  interval_cases p
  · have s0 : ∀ i, i < 32 → _ := fun i hi =>
      store_bit (cycle_word0 output 0 k) st.p2_out0 st.g.out P1_OUT0_MASK P2_OUT0_MASK i
        (ha i hi).2.2.1 (cycle_word0_outside output hm 0 k i (by decide) hi)
        (masks_disjoint i hi).1
    have s1 : ∀ i, i < 32 → _ := fun i hi =>
      store_bit (cycle_word1 output 0 k) st.p2_out1 st.g.out1 P1_OUT1_MASK P2_OUT1_MASK i
        (ha i hi).2.2.2 (cycle_word1_outside output hm 0 k i (by decide) hi)
        (masks_disjoint i hi).2
    refine ⟨fun i hi => (s0 i hi).1, fun i hi => (s1 i hi).1, fun i hi => (s0 i hi).2.1,
      fun i hi => (s1 i hi).2.1, ?_⟩
    intro i hi
    have hn := not32_mask_bits i hi
    exact ⟨refresh_bit _ _ _ hn.1, refresh_bit _ _ _ hn.2.1, (s0 i hi).2.2, (s1 i hi).2.2⟩
  · have s0 : ∀ i, i < 32 → _ := fun i hi =>
      store_bit (cycle_word0 output 1 k) st.p1_out0 st.g.out P2_OUT0_MASK P1_OUT0_MASK i
        (ha i hi).1 (cycle_word0_outside output hm 1 k i (by decide) hi)
        (mask_disjoint_symm _ _ (masks_disjoint i hi).1)
    have s1 : ∀ i, i < 32 → _ := fun i hi =>
      store_bit (cycle_word1 output 1 k) st.p1_out1 st.g.out1 P2_OUT1_MASK P1_OUT1_MASK i
        (ha i hi).2.1 (cycle_word1_outside output hm 1 k i (by decide) hi)
        (mask_disjoint_symm _ _ (masks_disjoint i hi).2)
    refine ⟨fun i hi => (s0 i hi).1, fun i hi => (s1 i hi).1, fun i hi => (s0 i hi).2.1,
      fun i hi => (s1 i hi).2.1, ?_⟩
    intro i hi
    have hn := not32_mask_bits i hi
    exact ⟨(s0 i hi).2.2, (s1 i hi).2.2, refresh_bit _ _ _ hn.2.2.1, refresh_bit _ _ _ hn.2.2.2⟩

theorem refresh_stall_start (p : Nat) (s : GenState) :
    (refresh_image p (stall_start s)).g = (refresh_image p s).g ∧
    (refresh_image p (stall_start s)).p1_out0 = (refresh_image p s).p1_out0 ∧
    (refresh_image p (stall_start s)).p1_out1 = (refresh_image p s).p1_out1 ∧
    (refresh_image p (stall_start s)).p2_out0 = (refresh_image p s).p2_out0 ∧
    (refresh_image p (stall_start s)).p2_out1 = (refresh_image p s).p2_out1 := by
  unfold refresh_image stall_start
  split_ifs <;> exact ⟨rfl, rfl, rfl, rfl, rfl⟩

/-- Without the multitap branch, a cycle-write step leaves the registers and
the held images as the two stores and the refresh of the image leave them. -/
theorem step_cycle_regs (tr : Trace) (output : WiredData) (t : PortTable) (p k : Nat)
    (st : GenState) (hmt : t.dev_type p ≠ DEV_GENESIS_MULTITAP) :
    (step_cycle tr output t p k st).g = (refresh_image p (cycle_store output p k st)).g ∧
    (step_cycle tr output t p k st).p1_out0
      = (refresh_image p (cycle_store output p k st)).p1_out0 ∧
    (step_cycle tr output t p k st).p1_out1
      = (refresh_image p (cycle_store output p k st)).p1_out1 ∧
    (step_cycle tr output t p k st).p2_out0
      = (refresh_image p (cycle_store output p k st)).p2_out0 ∧
    (step_cycle tr output t p k st).p2_out1
      = (refresh_image p (cycle_store output p k st)).p2_out1 := by
  have hx : (refresh_image p
        (if k < 2 then stall_start (cycle_store output p k st)
          else cycle_store output p k st)).g
        = (refresh_image p (cycle_store output p k st)).g ∧
      (refresh_image p
        (if k < 2 then stall_start (cycle_store output p k st)
          else cycle_store output p k st)).p1_out0
        = (refresh_image p (cycle_store output p k st)).p1_out0 ∧
      (refresh_image p
        (if k < 2 then stall_start (cycle_store output p k st)
          else cycle_store output p k st)).p1_out1
        = (refresh_image p (cycle_store output p k st)).p1_out1 ∧
      (refresh_image p
        (if k < 2 then stall_start (cycle_store output p k st)
          else cycle_store output p k st)).p2_out0
        = (refresh_image p (cycle_store output p k st)).p2_out0 ∧
      (refresh_image p
        (if k < 2 then stall_start (cycle_store output p k st)
          else cycle_store output p k st)).p2_out1
        = (refresh_image p (cycle_store output p k st)).p2_out1 := by
    split_ifs
    · exact refresh_stall_start p _
    · exact ⟨rfl, rfl, rfl, rfl, rfl⟩
  unfold step_cycle
  simp only
  generalize refresh_image p
    (if k < 2 then stall_start (cycle_store output p k st) else cycle_store output p k st) = s3
    at hx ⊢
  rw [if_neg hmt]
  split_ifs <;> exact hx

theorem images_agree_step (tr : Trace) (output : WiredData) (t : PortTable)
    (hm : maps_ok output) (h0 : t.dev_type 0 ≠ DEV_GENESIS_MULTITAP)
    (h1 : t.dev_type 1 ≠ DEV_GENESIS_MULTITAP) (st : GenState) (hpc : pc_ok st)
    (ha : images_agree st) : images_agree (genesis_step tr output t st) := by
  cases hc : st.pc with
  | wait_edge =>
    rw [genesis_step_wait_edge tr output t st hc]
    exact images_agree_congr st _ rfl rfl rfl rfl rfl rfl ha
  | edge_poll =>
    rw [genesis_step_edge_poll tr output t st hc]
    unfold step_edge_poll
    simp only
    split_ifs <;> exact images_agree_congr st _ rfl rfl rfl rfl rfl rfl ha
  | poll_start q =>
    rw [genesis_step_poll_start tr output t st q hc]
    unfold step_poll_start
    split_ifs <;> exact images_agree_congr st _ rfl rfl rfl rfl rfl rfl ha
  | cycle q k =>
    have hq : q < 2 := hpc q (by rw [hc]; rfl)
    have hmt : t.dev_type q ≠ DEV_GENESIS_MULTITAP := by
      interval_cases q
      · exact h0
      · exact h1
    rw [genesis_step_cycle tr output t st q k hc]
    have hr := step_cycle_regs tr output t q k st hmt
    exact images_agree_congr _ _ (by rw [hr.1]) (by rw [hr.1]) hr.2.1 hr.2.2.1 hr.2.2.2.1
      hr.2.2.2.2 (cycle_write_effect output hm st q k hq ha).2.2.2.2
  | poll q k =>
    rw [genesis_step_poll tr output t st q k hc]
    have hb := poll_wait_bound tr st.g
    have hf := step_poll_fields tr q k st
    have hi : (step_poll tr q k st).p1_out0 = st.p1_out0 ∧
        (step_poll tr q k st).p1_out1 = st.p1_out1 ∧
        (step_poll tr q k st).p2_out0 = st.p2_out0 ∧
        (step_poll tr q k st).p2_out1 = st.p2_out1 := by
      unfold step_poll
      simp only
      split_ifs <;> exact ⟨rfl, rfl, rfl, rfl⟩
    exact images_agree_congr st _ (by rw [hf.1]; exact hb.2.2.2.1)
      (by rw [hf.1]; exact hb.2.2.2.2.1) hi.1 hi.2.1 hi.2.2.1 hi.2.2.2 ha
  | next_poll =>
    rw [genesis_step_next_poll tr output t st hc]
    have hs := stall_end_fields st
    exact images_agree_congr st _ (by show (stall_end st).g.out = _; rw [hs.1])
      (by show (stall_end st).g.out1 = _; rw [hs.1]) hs.2.2.2.1 hs.2.2.2.2.1 hs.2.2.2.2.2.1
      hs.2.2.2.2.2.2.1 ha

theorem pc_ok_step (tr : Trace) (output : WiredData) (t : PortTable) (st : GenState)
    (hpc : pc_ok st) : pc_ok (genesis_step tr output t st) := by
  intro p hp
  have he := genesis_step_entry tr output t st p hp
  by_cases hs : st.pc.port = some p
  · exact hpc p hs
  · have h := he.1 hs
    cases hc : st.pc with
    | wait_edge =>
      rw [genesis_step_wait_edge tr output t st hc] at h
      simp [step_wait_edge] at h
    | edge_poll =>
      rw [genesis_step_edge_poll tr output t st hc] at h
      unfold step_edge_poll at h
      simp only at h
      split_ifs at h <;> simp_all <;> omega
    | poll_start q =>
      rw [genesis_step_poll_start tr output t st q hc] at h
      unfold step_poll_start at h
      split_ifs at h
    | cycle q k =>
      rw [genesis_step_cycle tr output t st q k hc] at h
      rcases step_cycle_pc tr output t q k st with h' | h' <;> rw [h'] at h <;> simp at h
    | poll q k =>
      rw [genesis_step_poll tr output t st q k hc] at h
      unfold step_poll at h
      simp only at h
      split_ifs at h
      simp at h
      omega
    | next_poll =>
      rw [genesis_step_next_poll tr output t st hc] at h
      simp [step_next_poll] at h

theorem images_agree_task (tr : Trace) (output : WiredData) (t : PortTable)
    (hm : maps_ok output) (h0 : t.dev_type 0 ≠ DEV_GENESIS_MULTITAP)
    (h1 : t.dev_type 1 ≠ DEV_GENESIS_MULTITAP) :
    ∀ (n : Nat) (st : GenState), pc_ok st → images_agree st →
      pc_ok (sega_genesis_task tr output t n st) ∧
      images_agree (sega_genesis_task tr output t n st)
  | 0, _, hp, ha => ⟨hp, ha⟩
  | n + 1, st, hp, ha =>
    images_agree_task tr output t hm h0 h1 n _ (pc_ok_step tr output t st hp)
      (images_agree_step tr output t hm h0 h1 st hp ha)

theorem all_ones_word (p k : Nat) : port_map all_ones_output p k = 0xFFFFFFFF := by
  unfold port_map map1 map2 output_word all_ones_output
  split_ifs <;> rfl

theorem all_ones_bits : ∀ i, i < 32 → (0xFFFFFFFF : Nat).testBit i = true := by
  decide

theorem maps_ok_all_ones : maps_ok all_ones_output := by
  intro p k i _ _ hi
  rw [all_ones_word, all_ones_word]
  exact ⟨fun _ => all_ones_bits i hi, fun _ => all_ones_bits i hi⟩

/-- C20: with neither port a multitap and every output-map word of a port
having all bits outside the port's own output mask set, a cycle write of port
`p` leaves the bits of the other port's masks in `GPIO.out` and
`GPIO.out1.val` as they were before the write and sets the bits of its own
masks to those of its (cycle-masked) map words. The held images
`p1_out0`/`p1_out1` and `p2_out0`/`p2_out1` agree with the output registers on
their own port's bits when the task enters its loop and after every step of
it. -/
theorem cycle_write_frame (tr : Trace) (output : WiredData) (t : PortTable)
    (hm : maps_ok output) (h0 : t.dev_type 0 ≠ DEV_GENESIS_MULTITAP)
    (h1 : t.dev_type 1 ≠ DEV_GENESIS_MULTITAP) :
    (∀ (st : GenState) (p k : Nat), p < 2 → st.pc = Pc.cycle p k → images_agree st →
      (∀ i, i < 32 → (OUT0_MASK (1 - p)).testBit i = true →
        (genesis_step tr output t st).g.out.testBit i = st.g.out.testBit i) ∧
      (∀ i, i < 32 → (OUT1_MASK (1 - p)).testBit i = true →
        (genesis_step tr output t st).g.out1.testBit i = st.g.out1.testBit i) ∧
      (∀ i, i < 32 → (OUT0_MASK p).testBit i = true →
        (genesis_step tr output t st).g.out.testBit i
          = (cycle_word0 output p k).testBit i) ∧
      (∀ i, i < 32 → (OUT1_MASK p).testBit i = true →
        (genesis_step tr output t st).g.out1.testBit i
          = (cycle_word1 output p k).testBit i) ∧
      images_agree (genesis_step tr output t st)) ∧
    (∀ (g : Gpio) (buffer : Buffer) (n : Nat),
      images_agree (sega_genesis_task tr output t n (sega_genesis_task_init g buffer))) ∧
    (∀ st : GenState, images_agree st →
      ∀ i, i < 32 →
        (P1_OUT0_MASK.testBit i = true → st.p1_out0.testBit i = st.g.out.testBit i) ∧
        (P1_OUT1_MASK.testBit i = true → st.p1_out1.testBit i = st.g.out1.testBit i) ∧
        (P2_OUT0_MASK.testBit i = true → st.p2_out0.testBit i = st.g.out.testBit i) ∧
        (P2_OUT1_MASK.testBit i = true → st.p2_out1.testBit i = st.g.out1.testBit i)) ∧
    OUT0_MASK 0 = P1_OUT0_MASK ∧ OUT1_MASK 0 = P1_OUT1_MASK ∧
    OUT0_MASK 1 = P2_OUT0_MASK ∧ OUT1_MASK 1 = P2_OUT1_MASK := by
  refine ⟨?_, ?_, ?_, rfl, rfl, rfl, rfl⟩
  · intro st p k hp hpc ha
    have hmt : t.dev_type p ≠ DEV_GENESIS_MULTITAP := by
      interval_cases p
      · exact h0
      · exact h1
    have hr := step_cycle_regs tr output t p k st hmt
    have he := cycle_write_effect output hm st p k hp ha
    rw [genesis_step_cycle tr output t st p k hpc, hr.1]
    refine ⟨he.1, he.2.1, he.2.2.1, he.2.2.2.1, ?_⟩
    exact images_agree_congr _ _ (by rw [hr.1]) (by rw [hr.1]) hr.2.1 hr.2.2.1 hr.2.2.2.1
      hr.2.2.2.2 he.2.2.2.2
  · intro g buffer n
    exact (images_agree_task tr output t hm h0 h1 n _
      (fun p hp => by simp [sega_genesis_task_init, Pc.port] at hp)
      (images_agree_init g buffer)).2
  · intro st ha i hi
    obtain ⟨a, b, c, d⟩ := ha i hi
    refine ⟨fun h => ?_, fun h => ?_, fun h => ?_, fun h => ?_⟩
    · rw [a, h]; rfl
    · rw [b, h]; rfl
    · rw [c, h]; rfl
    · rw [d, h]; rfl

theorem cycle_write_frame_witness :
    maps_ok all_ones_output ∧
    genesis_three_table.dev_type 0 ≠ DEV_GENESIS_MULTITAP ∧
    genesis_three_table.dev_type 1 ≠ DEV_GENESIS_MULTITAP ∧
    images_agree (sega_genesis_task p1_th_edges all_ones_output genesis_three_table 8
      (sega_genesis_task_init idle_low (fun _ => 0))) :=
  ⟨maps_ok_all_ones, by decide, by decide,
    (cycle_write_frame p1_th_edges all_ones_output genesis_three_table maps_ok_all_ones
      (by decide) (by decide)).2.1 idle_low (fun _ => 0) 8⟩

end SegaIo
